import Mathlib

/-!
# Compander: the suppression ledger, the window registry, the damage accumulator and the compositor

A shallow embedding of `src/main.cpp`.

* Machine integers are naturals reduced modulo a power of two: `unsigned long`
  is 64 bits wide, `unsigned int` 32 bits, `unsigned char` 8 bits.
* `std::list<win>` is a `List win`; an iterator is the position of its node,
  `0` for `begin()` and the length for `end()`.  The list of libstdc++ (the
  source names its iterator type `std::_List_iterator`) is circular through
  the sentinel node `end()`, which is how `std::prev` is embedded.
* Dereferencing `end()` is undefined behaviour; a function that does so
  returns `none`.
* X identifiers are naturals with `None = 0`; a server region is embedded by
  its contents, `none` standing for the identifier `None`.
* The server and Xlib are a parameter (`XServer`) that answers the queries of a
  handler.  The requests that release a server object, set the clip of a picture
  or draw are recorded, in the order they are issued, in `State.requests`.  Other
  requests that change no state of the program (`XSelectInput`,
  `XShapeSelectInput`, `XClearArea`, `XSync`) leave no trace in the embedding,
  and the ledger is embedded on its own: the sequence numbers the handlers push
  with `set_ignore` are not followed.
* A window the server no longer knows is outside the embedding of the painting
  requests: `XFixesCreateRegionFromWindow` always answers with a region.
* The build has `HAS_NAME_WINDOW_PIXMAP` set and `CAN_DO_USABLE` at `0`.
* A reachable state is the result of `run` on a list of handler calls
  (`Handler`), each paired with the server that answers it.
-/

namespace Compander

/-! ## Sequence suppression ledger -/

/-- Width of `unsigned long`. -/
def ULONG_MOD : Nat := 2 ^ 64

/-- The C expression `a - b` on `unsigned long`. -/
def ulong_sub (a b : Nat) : Nat := (a + ULONG_MOD - b % ULONG_MOD) % ULONG_MOD

/-- The C cast `(long) x` of an `unsigned long`. -/
def to_long (x : Nat) : Int :=
  if x % ULONG_MOD < 2 ^ 63 then (x % ULONG_MOD : Nat) else (x % ULONG_MOD : Nat) - (2 : Int) ^ 64

/-- The list `ignore_head`, oldest entry first: the `sequence` fields. -/
abbrev Ledger := List Nat

/-- Embedding of `discard_ignore`: pop the head while `(long) (sequence - head) > 0`. -/
def discard_ignore (sequence : Nat) : Ledger → Ledger
  | [] => []
  | head :: next =>
    if to_long (ulong_sub sequence head) > 0 then discard_ignore sequence next
    else head :: next

/-- Embedding of `set_ignore`: append at `ignore_tail`. -/
def set_ignore (sequence : Nat) (ledger : Ledger) : Ledger := ledger ++ [sequence]

/-- Embedding of `should_ignore`: the ledger after `discard_ignore`, and the
returned truth value `ignore_head && ignore_head->sequence == sequence`. -/
def should_ignore (sequence : Nat) (ledger : Ledger) : Ledger × Bool :=
  let ledger1 := discard_ignore sequence ledger
  (ledger1, match ledger1 with
            | [] => false
            | head :: _ => decide (head = sequence))

/-! ## Data model -/

/-- An X resource identifier (`XID`); `None` is `0`. -/
abbrev XID := Nat

/-- A window identifier. -/
abbrev Window := XID

/-- An interned atom. -/
abbrev Atom := Nat

/-- The X constant `None`. -/
def XNone : XID := 0

/-- The X constant `Success`. -/
def Success : Nat := 0

/-- Window class `InputOutput`. -/
def InputOutput : Nat := 1

/-- Window class `InputOnly`. -/
def InputOnly : Nat := 2

/-- Map state `IsUnmapped`. -/
def IsUnmapped : Nat := 0

/-- Map state `IsViewable`. -/
def IsViewable : Nat := 2

/-- Picture format type `PictTypeDirect`. -/
def PictTypeDirect : Nat := 1

/-- The predefined atom `XA_CARDINAL`. -/
def XA_CARDINAL : Atom := 6

/-- Source constant `OPAQUE`. -/
def OPAQUE : Nat := 0xffffffff

/-- Source constant `WINDOW_SOLID`. -/
def WINDOW_SOLID : Nat := 0

/-- Source constant `WINDOW_TRANS`. -/
def WINDOW_TRANS : Nat := 1

/-- Source constant `WINDOW_ARGB`. -/
def WINDOW_ARGB : Nat := 2

/-- The C conversion of an `int` to `short`. -/
def to_short (v : Int) : Int := (v + 32768) % 65536 - 32768

/-- The C conversion of an `int` to `unsigned short`. -/
def to_ushort (v : Int) : Nat := (v % 65536).toNat

/-- An `XRectangle`. -/
structure XRectangle where
  x : Int := 0
  y : Int := 0
  width : Nat := 0
  height : Nat := 0
deriving DecidableEq, Repr

/-- A server region, embedded by the requests that built its contents. -/
inductive Region where
  | rects (rs : List XRectangle)
  | union (r1 r2 : Region)
  | subtract (r1 r2 : Region)
  | intersect (r1 r2 : Region)
  | translate (r : Region) (dx dy : Int)
deriving DecidableEq, Repr

/-- A region handle: `none` is the identifier `None`. -/
abbrev XserverRegion := Option Region

/-- The points of a rectangle: `x <= px < x + width` and `y <= py < y + height`. -/
def XRectangle.contains (r : XRectangle) (px py : Int) : Bool :=
  decide (r.x ≤ px) && decide (px < r.x + r.width) &&
    decide (r.y ≤ py) && decide (py < r.y + r.height)

/-- The points of a region. -/
def Region.mem : Region → Int → Int → Bool
  | Region.rects rs, px, py => rs.any (fun r => r.contains px py)
  | Region.union r1 r2, px, py => r1.mem px py || r2.mem px py
  | Region.subtract r1 r2, px, py => r1.mem px py && !r2.mem px py
  | Region.intersect r1 r2, px, py => r1.mem px py && r2.mem px py
  | Region.translate r dx dy, px, py => r.mem (px - dx) (py - dy)

/-- Render operator `PictOpSrc`. -/
def PictOpSrc : Nat := 1

/-- Render operator `PictOpOver`. -/
def PictOpOver : Nat := 3

/-- The requests recorded in `State.requests`: the releases of server objects,
the clip settings of pictures and the drawing requests.  `XRenderComposite`
keeps the operator, source, mask and destination and the destination
rectangle; all its other coordinates are `0` in the source. -/
inductive XRequest where
  | XFreePixmap (pixmap : XID)
  | XRenderFreePicture (picture : XID)
  | XFixesDestroyRegion (region : Region)
  | XDamageDestroy (damage : XID)
  | XFixesSetPictureClipRegion (picture : XID) (region : XserverRegion)
  | XRenderComposite (op : Nat) (src mask dst : XID) (dst_x dst_y width height : Int)
deriving DecidableEq, Repr

/-- The fields of `XWindowAttributes` the program reads or writes. -/
structure XWindowAttributes where
  x : Int := 0
  y : Int := 0
  width : Int := 0
  height : Int := 0
  border_width : Int := 0
  visual : Nat := 0
  c_class : Nat := 0
  map_state : Nat := 0
  override_redirect : Bool := false
deriving DecidableEq, Repr

/-- The fields of `XRenderPictFormat` read by `determine_mode`:
`type` and `direct.alphaMask`. -/
structure XRenderPictFormat where
  type : Nat
  alphaMask : Nat
deriving DecidableEq, Repr

/-- Embedding of `struct win` (with `HAS_NAME_WINDOW_PIXMAP`, without
`CAN_DO_USABLE`). -/
structure win where
  id : Window
  pixmap : XID := 0
  a : XWindowAttributes := {}
  mode : Nat := 0
  damaged : Nat := 0
  damage : XID := 0
  picture : XID := 0
  alphaPict : XID := 0
  borderSize : XserverRegion := none
  extents : XserverRegion := none
  opacity : Nat := 0
  windowType : Atom := 0
  damage_sequence : Nat := 0
  shaped : Bool := false
  shape_bounds : XRectangle := {}
  borderClip : XserverRegion := none
deriving DecidableEq, Repr

/-- What `XGetWindowProperty` hands back: the status and the `data` pointer
(`none` is the null pointer, otherwise the bytes of the buffer). -/
structure PropertyReply where
  result : Nat
  data : Option (List Nat)
deriving DecidableEq, Repr

/-- The X server and Xlib as seen by one handler call: the answers to the
queries the handlers make. -/
structure XServer where
  /-- The attributes of a window, `none` when the query fails. -/
  XGetWindowAttributes : Window → Option XWindowAttributes
  /-- The reply for a property of a window with a requested type. -/
  XGetWindowProperty : Window → Atom → Atom → PropertyReply
  /-- The picture format of a visual, `none` for a null pointer. -/
  XRenderFindVisualFormat : Nat → Option XRenderPictFormat
  /-- The identifier of the damage object created for a window. -/
  XDamageCreate : Window → XID
  /-- The sequence number of the next request. -/
  NextRequest : Nat
  /-- The window type found by `determine_wintype`, which only queries the server. -/
  determine_wintype : Window → Atom
  /-- The atom interned for `_NET_WM_WINDOW_OPACITY`. -/
  opacityAtom : Atom
  /-- The rectangles of the bounding shape of a window, in window coordinates. -/
  XFixesCreateRegionFromWindow : Window → List XRectangle
  /-- The identifier of the pixmap naming the contents of a window. -/
  XCompositeNameWindowPixmap : Window → XID
  /-- The identifier of the picture created for a drawable. -/
  XRenderCreatePicture : XID → XID
  /-- The identifier of the pixmap created for the root buffer. -/
  XCreatePixmap : XID
  /-- The picture `solid_picture` returns for the alpha of an opacity. -/
  solid_picture : Nat → XID
  /-- The picture `root_tile` returns. -/
  root_tile : XID
  /-- The rectangles `XDamageSubtract` stores in `parts`, in window coordinates. -/
  XDamageSubtract : XID → List XRectangle
  /-- The atoms interned for the names in `backgroundProps`. -/
  backgroundProps : List Atom

/-- The process-wide state the handlers share. -/
structure State where
  win_list : List win := []
  allDamage : XserverRegion := none
  clipChanged : Bool := false
  requests : List XRequest := []
  root : Window := 0
  root_width : Int := 0
  root_height : Int := 0
  rootPicture : XID := 0
  rootBuffer : XID := 0
  rootTile : XID := 0
  hasNamePixmap : Bool := false
  autoRedirect : Bool := false
  /-- The first `n_expose` entries of the vector `expose_rects` of `main`. -/
  expose_rects : List XRectangle := []
deriving DecidableEq, Repr

/-! ## List iterators -/

/-- Iterator `end()`. -/
def list_end (l : List win) : Nat := l.length

/-- Embedding of `std::prev` on the circular list: before `begin()` lies the sentinel. -/
def list_prev (l : List win) (it : Nat) : Nat := if it = 0 then l.length else it - 1

/-- Embedding of `std::list::splice (position, list, i)` on one list: nothing
happens when `position` is `i` or its successor, otherwise node `i` is
unlinked and linked in again before `position`. -/
def splice (l : List win) (position i : Nat) : List win :=
  if position = i ∨ position = i + 1 then l
  else match l[i]? with
    | none => l
    | some e =>
      let rest := l.eraseIdx i
      let p := if i < position then position - 1 else position
      rest.take p ++ e :: rest.drop p

/-- Embedding of `find_win`: the first node with the identifier, else `end()`. -/
def find_win : List win → Window → Nat
  | [], _ => 0
  | it :: rest, id => if it.id = id then 0 else find_win rest id + 1

/-- Apply an update through a node iterator; `none` at `end()`. -/
def update_win (s : State) (w : Nat) (f : win → win) : Option State :=
  match s.win_list[w]? with
  | none => none
  | some e => some { s with win_list := s.win_list.set w (f e) }

/-! ## Damage accumulator -/

/-- The request that destroys a region, none for the identifier `None`. -/
def destroy_region (region : XserverRegion) : List XRequest :=
  match region with
  | some r => [XRequest.XFixesDestroyRegion r]
  | none => []

/-- The request `r` when the identifier `id` is not `None`. -/
def release_xid (id : XID) (r : XID → XRequest) : List XRequest :=
  if id ≠ XNone then [r id] else []

/-- Embedding of `add_damage`: union into `allDamage` and destroy the
argument, or become `allDamage`. -/
def add_damage (s : State) (damage : Region) : State :=
  match s.allDamage with
  | some all => { s with allDamage := some (Region.union all damage),
                         requests := s.requests ++ [XRequest.XFixesDestroyRegion damage] }
  | none => { s with allDamage := some damage }

/-! ## Opacity and mode -/

/-- The buffer Xlib returns for one 32-bit item `v` on a little-endian LP64
host: the item widened to a `long` (sign-extended), byte by byte from the
lowest, and the terminating zero byte Xlib appends. -/
def cardinal_data (v : Nat) : List Nat :=
  let v32 := v % 2 ^ 32
  let wide := if v32 < 2 ^ 31 then v32 else v32 + (2 ^ 64 - 2 ^ 32)
  (List.range 8).map (fun k => wide / 256 ^ k % 256) ++ [0]

/-- Embedding of `get_opacity_prop`: on `Success` with a non-null buffer the
result is `*data`, the first `unsigned char` of the buffer; otherwise the
default. -/
def get_opacity_prop (X : XServer) (l : List win) (w : Nat) (dflt : Nat) : Option Nat :=
  match l[w]? with
  | none => none
  | some e =>
    let r := X.XGetWindowProperty e.id X.opacityAtom XA_CARDINAL
    match r.data with
    | some data => if r.result = Success then some (data.headD 0 % 256) else some dflt
    | none => some dflt

/-- The test `format && format->type == PictTypeDirect && format->direct.alphaMask`. -/
def has_alpha (format : Option XRenderPictFormat) : Bool :=
  match format with
  | none => false
  | some f => decide (f.type = PictTypeDirect) && decide (f.alphaMask ≠ 0)

/-- Embedding of `determine_mode`. -/
def determine_mode (X : XServer) (s : State) (w : Nat) : Option State :=
  match s.win_list[w]? with
  | none => none
  | some e =>
    let e1 := if e.alphaPict ≠ XNone then { e with alphaPict := XNone } else e
    let format :=
      if e1.a.c_class = InputOnly then none else X.XRenderFindVisualFormat e1.a.visual
    let mode :=
      if has_alpha format then WINDOW_ARGB
      else if e1.opacity ≠ OPAQUE then WINDOW_TRANS
      else WINDOW_SOLID
    let e2 := { e1 with mode := mode }
    let s1 := { s with win_list := s.win_list.set w e2,
                       requests := s.requests ++
                         release_xid e.alphaPict XRequest.XRenderFreePicture }
    match e2.extents with
    | some extents => some (add_damage s1 extents)
    | none => some s1

/-! ## Window registry -/

/-- Embedding of `map_win`. -/
def map_win (X : XServer) (s : State) (id : Window) : Option State :=
  let w := find_win s.win_list id
  if w = list_end s.win_list then some s
  else do
    let s1 ← update_win s w (fun e => { e with a := { e.a with map_state := IsViewable } })
    let opacity ← get_opacity_prop X s1.win_list w OPAQUE
    let s2 ← update_win s1 w (fun e => { e with opacity := opacity })
    let s3 ← determine_mode X s2 w
    update_win s3 w (fun e => { e with damaged := 0 })

/-- Embedding of `finish_unmap_win`. -/
def finish_unmap_win (s : State) (w : Nat) : Option State :=
  match s.win_list[w]? with
  | none => none
  | some e =>
    let s1 := match e.extents with
      | some extents => add_damage s extents
      | none => s
    let e1 := { e with damaged := 0, extents := none, pixmap := XNone, picture := XNone,
                       borderSize := none, borderClip := none }
    some { s1 with win_list := s1.win_list.set w e1, clipChanged := true,
                   requests := s1.requests ++
                     release_xid e.pixmap XRequest.XFreePixmap ++
                     release_xid e.picture XRequest.XRenderFreePicture ++
                     destroy_region e.borderSize ++ destroy_region e.borderClip }

/-- Embedding of `unmap_win`. -/
def unmap_win (s : State) (id : Window) : Option State :=
  let w := find_win s.win_list id
  if w = list_end s.win_list then some s
  else do
    let s1 ← update_win s w (fun e => { e with a := { e.a with map_state := IsUnmapped } })
    finish_unmap_win s1 w

/-- The loop of `add_win` that inserts the new entry before the first node
whose identifier is `prev`, and inserts nothing when there is none. -/
def insert_before (l : List win) (prev : Window) (placeholder : win) : List win :=
  match l with
  | [] => []
  | it :: rest =>
    if it.id = prev then placeholder :: it :: rest
    else it :: insert_before rest prev placeholder

/-- The entry `add_win` builds for a window from its attributes. -/
def new_win (X : XServer) (id : Window) (a : XWindowAttributes) : win :=
  { id := id,
    a := a,
    shaped := false,
    shape_bounds := { x := to_short a.x, y := to_short a.y,
                      width := to_ushort a.width, height := to_ushort a.height },
    damaged := 0,
    pixmap := XNone,
    picture := XNone,
    damage_sequence := if a.c_class = InputOnly then 0 else X.NextRequest,
    damage := if a.c_class = InputOnly then XNone else X.XDamageCreate id,
    alphaPict := XNone,
    borderSize := none,
    extents := none,
    opacity := OPAQUE,
    borderClip := none,
    windowType := X.determine_wintype id }

/-- Embedding of `add_win`. -/
def add_win (X : XServer) (s : State) (id prev : Window) : Option State :=
  match X.XGetWindowAttributes id with
  | none => some s
  | some a =>
    let placeholder := new_win X id a
    let s1 : State :=
      if prev ≠ XNone then { s with win_list := insert_before s.win_list prev placeholder }
      else { s with win_list := placeholder :: s.win_list }
    if a.map_state = IsViewable then map_win X s1 id else some s1

/-- Embedding of `restack_win` on the registry: `none` when `w` is `end()`. -/
def restack_win (l : List win) (w new_above : Nat) : Option (List win) :=
  if w < l.length then
    let next_w := w + 1
    let old_above := if next_w ≠ list_end l then next_w else 0
    if old_above ≠ new_above then some (splice l (list_prev l new_above) w)
    else some l
  else none

/-- Embedding of `finish_destroy_win`. -/
def finish_destroy_win (s : State) (w : Nat) (gone : Bool) : Option State := do
  let s1 ← if gone then finish_unmap_win s w else some s
  let e ← s1.win_list[w]?
  let s2 ← update_win s1 w (fun e => { e with picture := XNone, alphaPict := XNone,
                                              damage := XNone })
  some { s2 with win_list := s2.win_list.eraseIdx w,
                 requests := s2.requests ++
                   release_xid e.picture XRequest.XRenderFreePicture ++
                   release_xid e.alphaPict XRequest.XRenderFreePicture ++
                   release_xid e.damage XRequest.XDamageDestroy }

/-- Embedding of `destroy_win`: the iterator from `find_win` is passed on unchecked. -/
def destroy_win (s : State) (id : Window) (gone : Bool) : Option State :=
  finish_destroy_win s (find_win s.win_list id) gone

/-- The enumeration loop of `main`, for `i` from `0` up to `nchildren - 1`:
`add_win (children[i], i ? children[i - 1] : None)`. -/
def add_children (X : XServer) (children : List Window) (s : State) : Option State :=
  (List.range children.length).foldlM
    (fun s i => add_win X s (children.getD i 0)
      (if i ≠ 0 then children.getD (i - 1) 0 else XNone)) s

/-! ## Extents and damage -/

/-- The points of the pending damage, none when no damage is pending. -/
def damage_mem (s : State) (px py : Int) : Bool :=
  match s.allDamage with
  | some d => d.mem px py
  | none => false

/-- The pending damage of `s1` holds every point of the pending damage of `s`. -/
def damage_grows (s s1 : State) : Prop :=
  ∀ px py, damage_mem s px py = true → damage_mem s1 px py = true


/-- Embedding of `win_extents`: the rectangle of the window with its border,
its members converted to `short` and `unsigned short`. -/
def win_extents (w : win) : Region :=
  Region.rects [{ x := to_short w.a.x, y := to_short w.a.y,
                  width := to_ushort (w.a.width + w.a.border_width * 2),
                  height := to_ushort (w.a.height + w.a.border_width * 2) }]

/-- Embedding of `border_size`: the bounding shape of the window, translated
to its position inside the border. -/
def border_size (X : XServer) (w : win) : Region :=
  Region.translate (Region.rects (X.XFixesCreateRegionFromWindow w.id))
    (w.a.x + w.a.border_width) (w.a.y + w.a.border_width)

/-- Embedding of `repair_win`. -/
def repair_win (X : XServer) (s : State) (w : Nat) : Option State :=
  match s.win_list[w]? with
  | none => none
  | some e =>
    let parts :=
      if e.damaged = 0 then win_extents e
      else Region.translate (Region.rects (X.XDamageSubtract e.damage))
        (e.a.x + e.a.border_width) (e.a.y + e.a.border_width)
    update_win (add_damage s parts) w (fun e => { e with damaged := 1 })

/-- Embedding of `damage_win`. -/
def damage_win (X : XServer) (s : State) (drawable : Window) : Option State :=
  let w := find_win s.win_list drawable
  if w = list_end s.win_list then some s
  else repair_win X s w

/-- Embedding of `expose_root`. -/
def expose_root (s : State) (rects : List XRectangle) : State :=
  add_damage s (Region.rects rects)

/-! ## Geometry and stacking notifications -/

/-- The fields of `XConfigureEvent` read by `configure_win`. -/
structure XConfigureEvent where
  window : Window
  x : Int := 0
  y : Int := 0
  width : Int := 0
  height : Int := 0
  border_width : Int := 0
  above : Window := 0
  override_redirect : Bool := false
deriving DecidableEq, Repr

/-- The position after `splice (position, list, i)` of the node that was at `i`. -/
def splice_it (l : List win) (position i : Nat) : Nat :=
  if position = i ∨ position = i + 1 then i
  else match l[i]? with
    | none => i
    | some _ =>
      ((l.eraseIdx i).take (if i < position then position - 1 else position)).length

/-- The position after `restack_win (w, new_above)` of the node `w`. -/
def restack_it (l : List win) (w new_above : Nat) : Nat :=
  if (if w + 1 ≠ list_end l then w + 1 else 0) ≠ new_above then
    splice_it l (list_prev l new_above) w
  else w

/-- Embedding of `configure_win`. -/
def configure_win (s : State) (ce : XConfigureEvent) : Option State :=
  let w := find_win s.win_list ce.window
  if w = list_end s.win_list then
    if ce.window = s.root then
      some { s with rootBuffer := XNone, root_width := ce.width, root_height := ce.height,
                    requests := s.requests ++
                      release_xid s.rootBuffer XRequest.XRenderFreePicture }
    else some s
  else do
    let e ← s.win_list[w]?
    let damage : Region := match e.extents with
      | some extents => extents
      | none => Region.rects []
    let resized : Bool := decide (e.a.width ≠ ce.width ∨ e.a.height ≠ ce.height)
    let free : Bool := resized && decide (e.pixmap ≠ XNone)
    let e1 : win :=
      { e with
        shape_bounds := { e.shape_bounds with x := to_short (e.shape_bounds.x - e.a.x),
                                              y := to_short (e.shape_bounds.y - e.a.y) },
        a := { e.a with x := ce.x, y := ce.y, width := ce.width, height := ce.height,
                        border_width := ce.border_width,
                        override_redirect := ce.override_redirect },
        pixmap := if free then XNone else e.pixmap,
        picture := if free then XNone else e.picture }
    let freed : List XRequest :=
      if free then XRequest.XFreePixmap e.pixmap ::
        release_xid e.picture XRequest.XRenderFreePicture
      else []
    let l1 := s.win_list.set w e1
    let new_above := find_win l1 ce.above
    let l2 ← restack_win l1 w new_above
    let w2 := restack_it l1 w new_above
    let extents := win_extents e1
    let s3 := add_damage
      { s with win_list := l2,
               requests := s.requests ++ freed ++ [XRequest.XFixesDestroyRegion extents] }
      (Region.union damage extents)
    let s4 ← update_win s3 w2 (fun e =>
      { e with shape_bounds :=
          { x := to_short (e.shape_bounds.x + e.a.x),
            y := to_short (e.shape_bounds.y + e.a.y),
            width := if e.shaped then e.shape_bounds.width else to_ushort e.a.width,
            height := if e.shaped then e.shape_bounds.height else to_ushort e.a.height } })
    some { s4 with clipChanged := true }

/-- Circulate place `PlaceOnTop`. -/
def PlaceOnTop : Nat := 0

/-- Embedding of `circulate_win`. -/
def circulate_win (s : State) (window : Window) (place : Nat) : Option State :=
  let w := find_win s.win_list window
  if w = list_end s.win_list then some s
  else do
    let new_above := if place = PlaceOnTop then 0 else list_end s.win_list
    let l ← restack_win s.win_list w new_above
    some { s with win_list := l, clipChanged := true }

/-! ## Compositor -/

/-- The two tests of the first walk of `paint_all` that `continue`: the window
was never damaged, or it is invisible. -/
def paint_skips (s : State) (w : win) : Bool :=
  decide (w.damaged = 0) ||
    (decide (w.a.x + w.a.width < 1) || decide (w.a.y + w.a.height < 1) ||
      decide (w.a.x ≥ s.root_width) || decide (w.a.y ≥ s.root_height))

/-- The first walk of `paint_all`, `if (!w->picture)`: name the pixmap of the
window and create its picture. -/
def paint_picture (X : XServer) (s : State) (w : win) : win :=
  if w.picture = XNone then
    let pixmap :=
      if s.hasNamePixmap = true ∧ w.pixmap = XNone
      then X.XCompositeNameWindowPixmap w.id else w.pixmap
    let draw := if pixmap ≠ XNone then pixmap else w.id
    { w with pixmap := pixmap, picture := X.XRenderCreatePicture draw }
  else w

/-- The first walk of `paint_all`, `if (clipChanged)`: destroy the cached
border size, extents and border clip.  Returns the window and the requests. -/
def paint_drop (s : State) (w : win) : win × List XRequest :=
  if s.clipChanged then
    ({ w with borderSize := none, extents := none, borderClip := none },
      destroy_region w.borderSize ++ destroy_region w.extents ++ destroy_region w.borderClip)
  else (w, [])

/-- The first walk of `paint_all`: compute the border size and the extents
when they are `None`. -/
def paint_cache (X : XServer) (w : win) : win :=
  let w1 : win :=
    match w.borderSize with
    | none => { w with borderSize := some (border_size X w) }
    | some _ => w
  match w1.extents with
  | none => { w1 with extents := some (win_extents w1) }
  | some _ => w1

/-- The body of the first walk of `paint_all` for a window that is not
skipped, up to the mode test.  Returns the window and the requests issued. -/
def paint_prepare (X : XServer) (s : State) (w : win) : win × List XRequest :=
  let d := paint_drop s (paint_picture X s w)
  (paint_cache X d.1, d.2)

/-- The region behind a region handle, empty for `None`. -/
def region_of (r : XserverRegion) : Region :=
  match r with
  | some region => region
  | none => Region.rects []

/-- The drawing request both walks of `paint_all` issue for a window: the
window with its border as the destination rectangle. -/
def composite_win (s : State) (op : Nat) (mask : XID) (w : win) : XRequest :=
  XRequest.XRenderComposite op w.picture mask s.rootBuffer w.a.x w.a.y
    (w.a.width + w.a.border_width * 2) (w.a.height + w.a.border_width * 2)

/-- The body of the first walk of `paint_all` for a window that is not
skipped: the window, the damage region and the requests issued. -/
def paint_win (X : XServer) (s : State) (region : Region) (w : win) :
    win × Region × List XRequest :=
  let w4 := (paint_prepare X s w).1
  let dropped := (paint_prepare X s w).2
  let solid : Bool := decide (w4.mode = WINDOW_SOLID)
  let region1 : Region :=
    if solid then Region.subtract region (region_of w4.borderSize) else region
  let drawn : List XRequest :=
    if solid then
      [XRequest.XFixesSetPictureClipRegion s.rootBuffer (some region),
       composite_win s PictOpSrc XNone w4]
    else []
  let w5 : win :=
    match w4.borderClip with
    | none =>
      { w4 with borderClip := some (Region.intersect region1 (region_of w4.borderSize)) }
    | some _ => w4
  (w5, region1, dropped ++ drawn)

/-- What the first walk of `paint_all` hands on. -/
structure PaintWalk where
  win_list : List win
  region : Region
  requests : List XRequest
  /-- The list `transparent`: the positions of the nodes it points to. -/
  transparent : List Nat
deriving DecidableEq, Repr

/-- The first walk of `paint_all` over the registry, from position `i` on. -/
def paint_walk (X : XServer) (s : State) :
    List win → Nat → Region → List Nat → PaintWalk
  | [], _, region, transparent =>
    { win_list := [], region := region, requests := [], transparent := transparent }
  | w :: rest, i, region, transparent =>
    if paint_skips s w then
      let r := paint_walk X s rest (i + 1) region transparent
      { r with win_list := w :: r.win_list }
    else
      let p := paint_win X s region w
      let r := paint_walk X s rest (i + 1) p.2.1 (i :: transparent)
      { r with win_list := p.1 :: r.win_list, requests := p.2.2 ++ r.requests }

/-- The body of the second walk of `paint_all`: the window and the requests issued. -/
def paint_trans_win (X : XServer) (s : State) (w : win) : win × List XRequest :=
  let alphaPict :=
    if w.opacity ≠ OPAQUE ∧ w.alphaPict = XNone then X.solid_picture w.opacity
    else w.alphaPict
  let w1 : win := { w with alphaPict := alphaPict }
  let drawn : List XRequest :=
    if w1.mode = WINDOW_TRANS then [composite_win s PictOpOver w1.alphaPict w1]
    else if w1.mode = WINDOW_ARGB then [composite_win s PictOpOver w1.alphaPict w1]
    else []
  ({ w1 with borderClip := none },
    XRequest.XFixesSetPictureClipRegion s.rootBuffer w.borderClip :: drawn ++
      destroy_region w.borderClip)

/-- The second walk of `paint_all` over the list `transparent`. -/
def paint_trans (X : XServer) (s : State) : List Nat → State
  | [] => s
  | i :: rest =>
    match s.win_list[i]? with
    | none => paint_trans X s rest
    | some w =>
      paint_trans X
        { s with win_list := s.win_list.set i (paint_trans_win X s w).1,
                 requests := s.requests ++ (paint_trans_win X s w).2 } rest

/-- The damage region `paint_all` works on: its argument, or the whole screen
when the argument is `None`. -/
def paint_region (s : State) (region : XserverRegion) : Region :=
  match region with
  | some r => r
  | none => Region.rects [{ x := 0, y := 0, width := to_ushort s.root_width,
                            height := to_ushort s.root_height }]

/-- The start of `paint_all`, up to the first walk: create the root buffer
when there is none, and clip the root picture to the damage region. -/
def paint_begin (X : XServer) (s : State) (region0 : Region) : State :=
  let s0 : State :=
    if s.rootBuffer = XNone
    then { s with rootBuffer := X.XRenderCreatePicture X.XCreatePixmap,
                  requests := s.requests ++ [XRequest.XFreePixmap X.XCreatePixmap] }
    else s
  { s0 with requests := s0.requests ++
              [XRequest.XFixesSetPictureClipRegion s0.rootPicture (some region0)] }

/-- The drawing request of `paint_root`: the root tile over the whole screen. -/
def composite_root (s : State) (rootTile : XID) : XRequest :=
  XRequest.XRenderComposite PictOpSrc rootTile XNone s.rootBuffer 0 0
    s.root_width s.root_height

/-- The end of `paint_all`: destroy the damage region and copy the root buffer
to the root picture when they differ. -/
def paint_finish (s : State) (region : Region) : List XRequest :=
  [XRequest.XFixesDestroyRegion region] ++
    (if s.rootBuffer ≠ s.rootPicture then
      [XRequest.XFixesSetPictureClipRegion s.rootBuffer none,
       XRequest.XRenderComposite PictOpSrc s.rootBuffer XNone s.rootPicture 0 0
         s.root_width s.root_height]
     else [])

/-- Embedding of `paint_all` (with `paint_root` inlined). -/
def paint_all (X : XServer) (s : State) (region : XserverRegion) : State :=
  let region0 := paint_region s region
  let s1 := paint_begin X s region0
  let walk := paint_walk X s1 s1.win_list 0 region0 []
  let rootTile := if s1.rootTile = XNone then X.root_tile else s1.rootTile
  let s2 : State :=
    { s1 with win_list := walk.win_list,
              rootTile := rootTile,
              requests := s1.requests ++ walk.requests ++
                [XRequest.XFixesSetPictureClipRegion s1.rootBuffer (some walk.region),
                 composite_root s1 rootTile] }
  let s3 := paint_trans X s2 walk.transparent
  { s3 with requests := s3.requests ++ paint_finish s3 walk.region }

/-- The drawing requests among the recorded requests. -/
def is_composite : XRequest → Bool
  | XRequest.XRenderComposite _ _ _ _ _ _ _ _ => true
  | _ => false

/-- The requests only a paint pass issues: the clip settings and the drawing
requests. -/
def is_paint : XRequest → Bool
  | XRequest.XRenderComposite _ _ _ _ _ _ _ _ => true
  | XRequest.XFixesSetPictureClipRegion _ _ => true
  | _ => false

/-- The request that opens a paint pass: the clip setting of the root picture. -/
def starts_pass (rootPicture : XID) : XRequest → Bool
  | XRequest.XFixesSetPictureClipRegion picture _ => decide (picture = rootPicture)
  | _ => false

/-- Between `s` and `s1` no clip setting and no drawing request was issued. -/
def no_paint (s s1 : State) : Prop :=
  s1.requests.filter is_paint = s.requests.filter is_paint

/-! ## Shape notifications and the event loop -/

/-- Shape kind `ShapeBounding`. -/
def ShapeBounding : Nat := 0

/-- Shape kind `ShapeClip`. -/
def ShapeClip : Nat := 1

/-- The fields of `XShapeEvent` read by `shape_win`. -/
structure XShapeEvent where
  window : Window
  kind : Nat := 0
  x : Int := 0
  y : Int := 0
  width : Int := 0
  height : Int := 0
  shaped : Bool := false
deriving DecidableEq, Repr

/-- Embedding of `shape_win`. -/
def shape_win (X : XServer) (s : State) (se : XShapeEvent) : Option State :=
  let w := find_win s.win_list se.window
  if w = list_end s.win_list then some s
  else if se.kind = ShapeClip ∨ se.kind = ShapeBounding then do
    let e ← s.win_list[w]?
    let region0 := Region.rects [e.shape_bounds]
    let shape_bounds : XRectangle :=
      if se.shaped then
        { x := to_short (e.a.x + se.x), y := to_short (e.a.y + se.y),
          width := to_ushort se.width, height := to_ushort se.height }
      else
        { x := to_short e.a.x, y := to_short e.a.y,
          width := to_ushort e.a.width, height := to_ushort e.a.height }
    let region1 := Region.rects [shape_bounds]
    let s1 : State :=
      { s with clipChanged := true,
               win_list := s.win_list.set w
                 { e with shaped := se.shaped, shape_bounds := shape_bounds },
               requests := s.requests ++ [XRequest.XFixesDestroyRegion region1] }
    some (paint_all X s1 (some (Region.union region0 region1)))
  else some s

/-- The notifications the loop of `main` dispatches on. -/
inductive XEvent where
  | CreateNotify (window : Window)
  | ConfigureNotify (ce : XConfigureEvent)
  | DestroyNotify (window : Window)
  | MapNotify (window : Window)
  | UnmapNotify (window : Window)
  | ReparentNotify (window parent : Window)
  | CirculateNotify (window : Window) (place : Nat)
  | Expose (window : Window) (x y width height : Int) (count : Int)
  | PropertyNotify (window : Window) (atom : Atom)
  | DamageNotify (drawable : Window)
  | ShapeNotify (se : XShapeEvent)
  | Other
deriving DecidableEq, Repr

/-- The notifications dispatched to `shape_win`. -/
def is_shape_notify : XEvent → Bool
  | XEvent.ShapeNotify _ => true
  | _ => false

/-- The `PropertyNotify` case of the loop of `main`. -/
def property_notify (X : XServer) (s : State) (window : Window) (atom : Atom) :
    Option State :=
  let s1 : State :=
    if atom ∈ X.backgroundProps ∧ s.rootTile ≠ XNone
    then { s with rootTile := XNone,
                  requests := s.requests ++ [XRequest.XRenderFreePicture s.rootTile] }
    else s
  if atom = X.opacityAtom then
    let w := find_win s1.win_list window
    if w ≠ list_end s1.win_list then do
      let opacity ← get_opacity_prop X s1.win_list w OPAQUE
      let s2 ← update_win s1 w (fun e => { e with opacity := opacity })
      determine_mode X s2 w
    else some s1
  else some s1

/-- The `Expose` case of the loop of `main`. -/
def expose_notify (s : State) (window : Window) (x y width height count : Int) : State :=
  if window = s.root then
    let rects := s.expose_rects ++
      [{ x := to_short x, y := to_short y,
         width := to_ushort width, height := to_ushort height }]
    if count = 0 then { (expose_root s rects) with expose_rects := [] }
    else { s with expose_rects := rects }
  else s

/-- The `switch` of the loop of `main` on one notification, taken when
`autoRedirect` is off. -/
def handle_event (X : XServer) (s : State) (ev : XEvent) : Option State :=
  if s.autoRedirect then some s
  else match ev with
    | XEvent.CreateNotify window => add_win X s window 0
    | XEvent.ConfigureNotify ce => configure_win s ce
    | XEvent.DestroyNotify window => destroy_win s window true
    | XEvent.MapNotify window => map_win X s window
    | XEvent.UnmapNotify window => unmap_win s window
    | XEvent.ReparentNotify window parent =>
      if parent = s.root then add_win X s window 0 else destroy_win s window false
    | XEvent.CirculateNotify window place => circulate_win s window place
    | XEvent.Expose window x y width height count =>
      some (expose_notify s window x y width height count)
    | XEvent.PropertyNotify window atom => property_notify X s window atom
    | XEvent.DamageNotify drawable => damage_win X s drawable
    | XEvent.ShapeNotify se => shape_win X s se
    | XEvent.Other => some s

/-- The inner `do ... while (QLength (dpy))` loop of `main` on one burst: each
notification is handled in order, against the server as it stands then. -/
def drain (burst : List (XServer × XEvent)) (s : State) : Option State :=
  burst.foldlM (fun s xe => handle_event xe.1 s xe.2) s

/-- The step of the loop of `main` after a burst has been drained: one paint
pass when damage is pending. -/
def end_of_burst (X : XServer) (s : State) : State :=
  if s.allDamage ≠ none ∧ s.autoRedirect = false then
    { (paint_all X s s.allDamage) with allDamage := none, clipChanged := false }
  else s

/-- One turn of the outer loop of `main`: drain a burst, then the step after it. -/
def main_loop_turn (X : XServer) (burst : List (XServer × XEvent)) (s : State) :
    Option State :=
  (drain burst s).map (end_of_burst X)

/-! ## Handler calls -/

/-- The relation between the mode and the opacity of a registry entry: a Solid
entry has the opacity `OPAQUE`, a Translucent entry has another opacity. -/
def mode_ok (e : win) : Prop :=
  (e.mode = WINDOW_SOLID → e.opacity = OPAQUE) ∧ (e.mode = WINDOW_TRANS → e.opacity ≠ OPAQUE)

/-- Every entry of the registry satisfies `mode_ok`. -/
def mode_inv (s : State) : Prop := ∀ e ∈ s.win_list, mode_ok e

/-- One call of a handler of the program with its arguments. -/
inductive Handler where
  | add_win (id prev : Window)
  | map_win (id : Window)
  | unmap_win (id : Window)
  | configure_win (ce : XConfigureEvent)
  | circulate_win (window : Window) (place : Nat)
  | destroy_win (id : Window) (gone : Bool)
  | property_notify (window : Window) (atom : Atom)
  | damage_win (drawable : Window)
  | shape_win (se : XShapeEvent)
  | paint_all (region : XserverRegion)
deriving DecidableEq, Repr

/-- Run one handler call against the server as it stands. -/
def call (X : XServer) (s : State) : Handler → Option State
  | Handler.add_win id prev => add_win X s id prev
  | Handler.map_win id => map_win X s id
  | Handler.unmap_win id => unmap_win s id
  | Handler.configure_win ce => configure_win s ce
  | Handler.circulate_win window place => circulate_win s window place
  | Handler.destroy_win id gone => destroy_win s id gone
  | Handler.property_notify window atom => property_notify X s window atom
  | Handler.damage_win drawable => damage_win X s drawable
  | Handler.shape_win se => shape_win X s se
  | Handler.paint_all region => some (paint_all X s region)

/-- Run a sequence of handler calls, each against the server as it stands then. -/
def run (calls : List (XServer × Handler)) (s : State) : Option State :=
  calls.foldlM (fun s c => call c.1 s c.2) s

/-! ## Sample inputs -/

/-- A server on which every attribute query succeeds except for the windows
in `gone`, every window is a viewable `InputOutput` window, every window carries
the opacity property `opacity` when given, and every visual has a direct format
with alpha mask `alphaMask`. -/
def sample_server (gone : List Window) (opacity : Option Nat) (alphaMask : Nat) : XServer :=
  { XGetWindowAttributes := fun id =>
      if id ∈ gone then none
      else some { width := 10, height := 10, c_class := InputOutput, map_state := IsViewable }
    XGetWindowProperty := fun _ _ _ =>
      match opacity with
      | some v => { result := Success, data := some (cardinal_data v) }
      | none => { result := Success, data := none }
    XRenderFindVisualFormat := fun _ => some { type := PictTypeDirect, alphaMask := alphaMask }
    XDamageCreate := fun id => id + 1000
    NextRequest := 1
    determine_wintype := fun _ => 0
    opacityAtom := 400
    XFixesCreateRegionFromWindow := fun _ => [{ x := 0, y := 0, width := 10, height := 10 }]
    XCompositeNameWindowPixmap := fun id => id + 2000
    XRenderCreatePicture := fun d => d + 3000
    XCreatePixmap := 50
    solid_picture := fun opacity => opacity + 10000
    root_tile := 60
    XDamageSubtract := fun _ => [{ x := 1, y := 1, width := 2, height := 2 }]
    backgroundProps := [401, 402] }

/-- A registry entry with an identifier, `InputOutput` class and an opacity. -/
def sample_win (id : Window) (opacity : Nat) : win :=
  { id := id, opacity := opacity, a := { width := 10, height := 10, c_class := InputOutput } }

/-- The extents rectangle of a geometry, `(x, y, width + 2 * border,
height + 2 * border)`, its members taken as 16-bit values the way `win_extents`
stores them. -/
def extents_rect (x y width height border_width : Int) : XRectangle :=
  { x := to_short x, y := to_short y,
    width := to_ushort (width + border_width * 2),
    height := to_ushort (height + border_width * 2) }

/-- A registry entry that holds every cached resource: the state of a mapped
window in the middle of a paint pass. -/
def sample_held_win (id : Window) : win :=
  { id := id, pixmap := id + 2000, picture := id + 5000, alphaPict := id + 10000,
    damage := id + 1000, damaged := 1, opacity := 0x7fffffff, mode := WINDOW_TRANS,
    a := { width := 10, height := 10, c_class := InputOutput, map_state := IsViewable },
    borderSize := some (Region.translate (Region.rects [{ width := 10, height := 10 }]) 0 0),
    extents := some (Region.rects [{ width := 10, height := 10 }]),
    borderClip := some (Region.rects [{ width := 4, height := 4 }]) }

/-- The entry `sample_held_win` with its mode and opacity set and moved to the
abscissa `x`, its cached regions left as they were at the abscissa `0`. -/
def sample_win_at (id : Window) (x : Int) (mode opacity : Nat) : win :=
  { (sample_held_win id) with
    mode := mode, opacity := opacity, alphaPict := XNone, borderClip := none,
    a := { width := 10, height := 10, c_class := InputOutput, map_state := IsViewable,
           x := x } }

/-- The state of the screen of 800 x 600 before any window is known, as `main`
sets it up. -/
def sample_state : State :=
  { clipChanged := true, root := 1, root_width := 800, root_height := 600,
    rootPicture := 70, hasNamePixmap := true }

/-- A burst with no shape notification: window 5 is created, then reports
damage. -/
def sample_burst : List (XServer × XEvent) :=
  [(sample_server [] none 0, XEvent.CreateNotify 5),
   (sample_server [] none 0, XEvent.DamageNotify 5)]

/-- A sequence of handler calls: the window 5 is added while it carries no
opacity property, then the property is set to `0x7fffffff` and the property
handler runs, then the window reports damage and a paint pass runs. -/
def sample_calls : List (XServer × Handler) :=
  [(sample_server [] none 0, Handler.add_win 5 0),
   (sample_server [] (some 0x7fffffff) 0, Handler.property_notify 5 400),
   (sample_server [] (some 0x7fffffff) 0, Handler.damage_win 5),
   (sample_server [] (some 0x7fffffff) 0, Handler.paint_all none)]

/-- One release request for each resource a registry entry holds: the extents,
the pixmap, the picture, the border size, the border clip, the alpha mask and
the damage record. -/
def win_handles (e : win) : List XRequest :=
  destroy_region e.extents ++
    release_xid e.pixmap XRequest.XFreePixmap ++
    release_xid e.picture XRequest.XRenderFreePicture ++
    destroy_region e.borderSize ++ destroy_region e.borderClip ++
    release_xid e.alphaPict XRequest.XRenderFreePicture ++
    release_xid e.damage XRequest.XDamageDestroy

/-! ## Suppression ledger: proofs -/

theorem to_long_ulong_sub_pos (seq h : Nat) (hh : h < 2 ^ 64)
    (h1 : h < seq + 2 ^ 63) (h2 : seq < h + 2 ^ 63) :
    to_long (ulong_sub seq h) > 0 ↔ h < seq := by
  unfold to_long ulong_sub ULONG_MOD
  rw [Nat.mod_eq_of_lt hh, Nat.mod_mod]
  by_cases hlt : h < seq
  · have e : (seq + 2 ^ 64 - h) % 2 ^ 64 = seq - h := by
      have : seq + 2 ^ 64 - h = (seq - h) + 2 ^ 64 := by omega
      rw [this, Nat.add_mod_right, Nat.mod_eq_of_lt (by omega)]
    rw [e]
    have : seq - h < 2 ^ 63 := by omega
    simp only [this, if_true]
    constructor
    · intro _; exact hlt
    · intro _; omega
  · have e : (seq + 2 ^ 64 - h) % 2 ^ 64 = if seq = h then 0 else seq + 2 ^ 64 - h := by
      split
      · next heq => subst heq; simp
      · rw [Nat.mod_eq_of_lt (by omega)]
    rw [e]
    split
    · simp [hlt]
    · next hne =>
      have : ¬ (seq + 2 ^ 64 - h < 2 ^ 63) := by omega
      simp only [this, if_false]
      constructor
      · intro hp; exfalso; omega
      · intro hp; exact absurd hp hlt

theorem discard_ignore_eq_filter (seq : Nat) (ledger : Ledger)
    (hb : ∀ e ∈ ledger, e < 2 ^ 64)
    (hnear : ∀ e ∈ ledger, e < seq + 2 ^ 63 ∧ seq < e + 2 ^ 63)
    (hinc : ledger.Pairwise (fun a b => a < b)) :
    discard_ignore seq ledger = ledger.filter (fun e => decide (seq ≤ e)) := by
  induction ledger with
  | nil => rfl
  | cons h t ih =>
    have hh := hb h (List.mem_cons_self _ _)
    have hn := hnear h (List.mem_cons_self _ _)
    have hp := List.pairwise_cons.mp hinc
    have key := to_long_ulong_sub_pos seq h hh hn.1 hn.2
    unfold discard_ignore
    by_cases hlt : h < seq
    · rw [if_pos (key.mpr hlt)]
      rw [ih (fun e he => hb e (List.mem_cons_of_mem _ he))
        (fun e he => hnear e (List.mem_cons_of_mem _ he)) hp.2]
      rw [List.filter_cons_of_neg (by simp; omega)]
    · rw [if_neg (fun hc => hlt (key.mp hc))]
      rw [List.filter_cons_of_pos (by simp; omega)]
      congr 1
      symm
      rw [List.filter_eq_self]
      intro e he
      have := hp.1 e he
      simp; omega

theorem head_filter_sorted (seq : Nat) (ledger : Ledger)
    (hinc : ledger.Pairwise (fun a b => a < b)) :
    (ledger.filter (fun e => decide (seq ≤ e))).head? = some seq ↔ seq ∈ ledger := by
  induction ledger with
  | nil => simp
  | cons h t ih =>
    have hp := List.pairwise_cons.mp hinc
    by_cases hle : seq ≤ h
    · rw [List.filter_cons_of_pos (by simpa using hle)]
      simp only [List.head?_cons, Option.some.injEq, List.mem_cons]
      constructor
      · intro e; exact Or.inl e.symm
      · rintro (e | hm)
        · exact e.symm
        · have := hp.1 seq hm; omega
    · rw [List.filter_cons_of_neg (by simpa using hle), ih hp.2]
      simp only [List.mem_cons]
      constructor
      · intro hm; exact Or.inr hm
      · rintro (e | hm)
        · omega
        · exact hm

theorem should_ignore_snd (seq : Nat) (ledger : Ledger) :
    (should_ignore seq ledger).2 = true ↔ (should_ignore seq ledger).1.head? = some seq := by
  unfold should_ignore
  cases discard_ignore seq ledger with
  | nil => simp
  | cons h t => simp

/-- C1: on a strictly increasing ledger whose entries lie within 2^63 of the
sequence number `seq`, `should_ignore seq` leaves exactly the former
entries that are at least `seq`, in their order, and returns true iff the oldest
remaining entry is `seq`, which is iff `seq` was an entry. -/
theorem should_ignore_spec (ledger : Ledger) (seq : Nat)
    (hb : ∀ e ∈ ledger, e < 2 ^ 64)
    (hnear : ∀ e ∈ ledger, e < seq + 2 ^ 63 ∧ seq < e + 2 ^ 63)
    (hinc : ledger.Pairwise (fun a b => a < b)) :
    (should_ignore seq ledger).1 = ledger.filter (fun e => decide (seq ≤ e)) ∧
    ((should_ignore seq ledger).2 = true ↔ (should_ignore seq ledger).1.head? = some seq) ∧
    ((should_ignore seq ledger).2 = true ↔ seq ∈ ledger) := by
  have h1 : (should_ignore seq ledger).1 = ledger.filter (fun e => decide (seq ≤ e)) :=
    discard_ignore_eq_filter seq ledger hb hnear hinc
  refine ⟨h1, should_ignore_snd seq ledger, ?_⟩
  rw [should_ignore_snd, h1]
  exact head_filter_sorted seq ledger hinc

/-- Witness of C1 on the ledger 10, 12, 15 queried at 12, with the two runs the
claim names: 12 is suppressed and leaves 12, 15; 20 is not and empties the ledger. -/
theorem should_ignore_spec_witness :
    ((should_ignore 12 [10, 12, 15]).1 = [10, 12, 15].filter (fun e => decide (12 ≤ e)) ∧
      ((should_ignore 12 [10, 12, 15]).2 = true ↔
        (should_ignore 12 [10, 12, 15]).1.head? = some 12) ∧
      ((should_ignore 12 [10, 12, 15]).2 = true ↔ 12 ∈ [10, 12, 15])) ∧
    should_ignore 12 [10, 12, 15] = ([12, 15], true) ∧
    should_ignore 20 [10, 12, 15] = ([], false) :=
  ⟨should_ignore_spec [10, 12, 15] 12 (by simp) (by simp) (by simp),
    by decide, by decide⟩

/-- C2, as stated, fails: in the ledger built by `set_ignore` of 10, 12, 15,
after `should_ignore 12` has returned true, `should_ignore 11` does not. -/
theorem stale_failure_not_suppressed :
    (should_ignore 12 (set_ignore 15 (set_ignore 12 (set_ignore 10 [])))).2 = true ∧
    ¬ (should_ignore 11
        (should_ignore 12 (set_ignore 15 (set_ignore 12 (set_ignore 10 [])))).1).2 = true := by
  decide

/-- C2, amended: after the failure at 12 has been suppressed, a failure reported
at 11 is not suppressed: `should_ignore 11` returns false and leaves the ledger
12, 15 as it was. -/
theorem should_ignore_stale :
    should_ignore 12 (set_ignore 15 (set_ignore 12 (set_ignore 10 []))) = ([12, 15], true) ∧
    should_ignore 11 [12, 15] = ([12, 15], false) := by
  decide

/-! ## Mode classifier and opacity: proofs -/

theorem add_damage_win_list (s : State) (r : Region) :
    (add_damage s r).win_list = s.win_list := by
  unfold add_damage
  split <;> rfl

theorem has_alpha_iff (format : Option XRenderPictFormat) :
    has_alpha format = true ↔
      ∃ f, format = some f ∧ f.type = PictTypeDirect ∧ f.alphaMask ≠ 0 := by
  cases format with
  | none => simp [has_alpha]
  | some f => simp [has_alpha]

/-- C3: for a window that is not `InputOnly`, `determine_mode` returns and sets
the mode to ARGB when the visual has a direct format with a non-zero alpha mask,
whatever the opacity; otherwise to Translucent when the opacity is not `OPAQUE`;
otherwise to Solid. -/
theorem determine_mode_spec (X : XServer) (s : State) (w : Nat) (e : win)
    (he : s.win_list[w]? = some e) (hclass : e.a.c_class ≠ InputOnly) :
    ∃ s1 e1, determine_mode X s w = some s1 ∧ s1.win_list[w]? = some e1 ∧
      ((∃ f, X.XRenderFindVisualFormat e.a.visual = some f ∧ f.type = PictTypeDirect ∧
          f.alphaMask ≠ 0) → e1.mode = WINDOW_ARGB) ∧
      ((¬ ∃ f, X.XRenderFindVisualFormat e.a.visual = some f ∧ f.type = PictTypeDirect ∧
          f.alphaMask ≠ 0) → e.opacity ≠ OPAQUE → e1.mode = WINDOW_TRANS) ∧
      ((¬ ∃ f, X.XRenderFindVisualFormat e.a.visual = some f ∧ f.type = PictTypeDirect ∧
          f.alphaMask ≠ 0) → e.opacity = OPAQUE → e1.mode = WINDOW_SOLID) := by
  have hw : w < s.win_list.length := by
    rcases List.getElem?_eq_some_iff.mp he with ⟨h, _⟩
    exact h
  unfold determine_mode
  rw [he]
  dsimp only
  generalize hg : (if e.alphaPict ≠ XNone then { e with alphaPict := XNone } else e) = e1
  have hvis : e1.a = e.a := by rw [← hg]; split <;> rfl
  have hop : e1.opacity = e.opacity := by rw [← hg]; split <;> rfl
  rw [hvis, hop, if_neg hclass]
  simp only [← has_alpha_iff]
  cases e1.extents with
  | none =>
    refine ⟨_, _, rfl, List.getElem?_set_self hw, ?_, ?_, ?_⟩
    · intro h; simp [h]
    · intro h ho; simp [h, ho]
    · intro h ho; simp [h, ho]
  | some r =>
    refine ⟨_, ?e, rfl, ?h, ?a, ?b, ?c⟩
    case h => rw [add_damage_win_list]; exact List.getElem?_set_self hw
    case a => intro h; simp [h]
    case b => intro h ho; simp [h, ho]
    case c => intro h ho; simp [h, ho]

/-- Witness of C3: a window of opacity 0x7fffffff on a visual without alpha, with
the four runs the claim names. -/
theorem determine_mode_spec_witness :
    (∃ s1 e1, determine_mode (sample_server [] none 0)
        { win_list := [sample_win 1 0x7fffffff] } 0 = some s1 ∧
      s1.win_list[0]? = some e1 ∧
      ((∃ f, (sample_server [] none 0).XRenderFindVisualFormat
            (sample_win 1 0x7fffffff).a.visual = some f ∧
          f.type = PictTypeDirect ∧ f.alphaMask ≠ 0) → e1.mode = WINDOW_ARGB) ∧
      ((¬ ∃ f, (sample_server [] none 0).XRenderFindVisualFormat
            (sample_win 1 0x7fffffff).a.visual = some f ∧
          f.type = PictTypeDirect ∧ f.alphaMask ≠ 0) →
        (sample_win 1 0x7fffffff).opacity ≠ OPAQUE → e1.mode = WINDOW_TRANS) ∧
      ((¬ ∃ f, (sample_server [] none 0).XRenderFindVisualFormat
            (sample_win 1 0x7fffffff).a.visual = some f ∧
          f.type = PictTypeDirect ∧ f.alphaMask ≠ 0) →
        (sample_win 1 0x7fffffff).opacity = OPAQUE → e1.mode = WINDOW_SOLID)) ∧
    (determine_mode (sample_server [] none 0)
        { win_list := [sample_win 1 0xffffffff] } 0).map (fun s => s.win_list.map (fun e => e.mode))
      = some [WINDOW_SOLID] ∧
    (determine_mode (sample_server [] none 0)
        { win_list := [sample_win 1 0x7fffffff] } 0).map (fun s => s.win_list.map (fun e => e.mode))
      = some [WINDOW_TRANS] ∧
    (determine_mode (sample_server [] none 0xff000000)
        { win_list := [sample_win 1 0xffffffff] } 0).map (fun s => s.win_list.map (fun e => e.mode))
      = some [WINDOW_ARGB] ∧
    (determine_mode (sample_server [] none 0xff000000)
        { win_list := [sample_win 1 0x7fffffff] } 0).map (fun s => s.win_list.map (fun e => e.mode))
      = some [WINDOW_ARGB] :=
  ⟨determine_mode_spec (sample_server [] none 0) { win_list := [sample_win 1 0x7fffffff] } 0
      (sample_win 1 0x7fffffff) rfl (by decide),
    by decide, by decide, by decide, by decide⟩

theorem get_opacity_prop_present (X : XServer) (l : List win) (w : Nat) (e : win) (v dflt : Nat)
    (he : l[w]? = some e)
    (hp : X.XGetWindowProperty e.id X.opacityAtom XA_CARDINAL
      = { result := Success, data := some (cardinal_data v) }) :
    get_opacity_prop X l w dflt = some (v % 256) := by
  unfold get_opacity_prop
  rw [he]
  simp only [hp, if_true]
  congr 1
  unfold cardinal_data
  simp only [List.range_succ_eq_map, List.range_zero, List.map_cons, List.map_nil,
    List.cons_append, List.headD_cons, pow_zero, Nat.div_one, Nat.mod_mod]
  split
  · omega
  · omega

theorem get_opacity_prop_absent (X : XServer) (l : List win) (w : Nat) (e : win) (dflt : Nat)
    (he : l[w]? = some e)
    (hp : (X.XGetWindowProperty e.id X.opacityAtom XA_CARDINAL).data = none) :
    get_opacity_prop X l w dflt = some dflt := by
  unfold get_opacity_prop
  rw [he]
  simp only [hp]

/-- C4 fails on the code: a window whose opacity property holds 0x7fffffff (or
0xffffffff) is read back as 255, the first byte of the buffer, not as the value;
a window without the property gets the default. -/
theorem get_opacity_prop_first_byte :
    get_opacity_prop (sample_server [] (some 0x7fffffff) 0) [sample_win 1 0] 0 OPAQUE
      = some 255 ∧
    get_opacity_prop (sample_server [] (some 0xffffffff) 0) [sample_win 1 0] 0 OPAQUE
      = some 255 ∧
    get_opacity_prop (sample_server [] none 0) [sample_win 1 0] 0 OPAQUE = some OPAQUE := by
  decide

/-! ## Registry order: proofs -/

theorem perm_cons_eraseIdx {α : Type} (l : List α) (k : Nat) (e : α) (h : l[k]? = some e) :
    l.Perm (e :: l.eraseIdx k) := by
  induction l generalizing k with
  | nil => simp at h
  | cons x t ih =>
    cases k with
    | zero =>
      simp at h
      subst h
      simp
    | succ k =>
      simp at h
      simp only [List.eraseIdx_cons_succ]
      exact ((ih k h).cons x).trans (List.Perm.swap e x _)

theorem filter_eraseIdx_of_neg {α : Type} (p : α → Bool) (l : List α) (k : Nat) (e : α)
    (h : l[k]? = some e) (hp : p e = false) :
    (l.eraseIdx k).filter p = l.filter p := by
  induction l generalizing k with
  | nil => simp at h
  | cons x t ih =>
    cases k with
    | zero =>
      simp at h
      subst h
      simp [hp]
    | succ k =>
      simp at h
      simp only [List.eraseIdx_cons_succ, List.filter_cons, ih k h]

theorem insert_take_drop_get {α : Type} (r : List α) (p : Nat) (e : α) :
    (r.take p ++ e :: r.drop p)[min p r.length]? = some e ∧
    (r.take p ++ e :: r.drop p).eraseIdx (min p r.length) = r := by
  have hlen : (r.take p).length = min p r.length := List.length_take _ _
  constructor
  · rw [List.getElem?_append_right (by omega)]
    simp [hlen]
  · rw [List.eraseIdx_append_of_length_le (by omega)]
    simp [hlen]

theorem splice_moves_one (l : List win) (position i : Nat) (e : win) (h : l[i]? = some e) :
    ∃ k, (splice l position i)[k]? = some e ∧ (splice l position i).eraseIdx k = l.eraseIdx i := by
  unfold splice
  split
  · exact ⟨i, h, rfl⟩
  · rw [h]
    exact ⟨_, insert_take_drop_get _ _ e⟩

/-- C7: `restack_win` relocates only `w`: it returns a permutation of the
registry from which removing `w` leaves the same sequence as removing `w` from
the registry before, so the other entries keep their fields and their order. -/
theorem restack_win_moves_only_w (l : List win) (w new_above : Nat) (hw : w < l.length) :
    ∃ l1 e, restack_win l w new_above = some l1 ∧ l[w]? = some e ∧ l1.Perm l ∧
      (∃ k, l1[k]? = some e ∧ l1.eraseIdx k = l.eraseIdx w) ∧
      l1.filter (fun x => decide (x.id ≠ e.id)) = l.filter (fun x => decide (x.id ≠ e.id)) := by
  have he : l[w]? = some l[w] := List.getElem?_eq_getElem hw
  have key : ∀ l1 : List win, (∃ k, l1[k]? = some l[w] ∧ l1.eraseIdx k = l.eraseIdx w) →
      l1.Perm l ∧ (∃ k, l1[k]? = some l[w] ∧ l1.eraseIdx k = l.eraseIdx w) ∧
      l1.filter (fun x => decide (x.id ≠ l[w].id))
        = l.filter (fun x => decide (x.id ≠ l[w].id)) := by
    intro l1 hk
    obtain ⟨k, hk1, hk2⟩ := hk
    refine ⟨?_, ⟨k, hk1, hk2⟩, ?_⟩
    · have p1 := perm_cons_eraseIdx l1 k _ hk1
      have p2 := perm_cons_eraseIdx l w _ he
      rw [hk2] at p1
      exact p1.trans p2.symm
    · rw [← filter_eraseIdx_of_neg _ l1 k _ hk1 (by simp),
        ← filter_eraseIdx_of_neg _ l w _ he (by simp), hk2]
  unfold restack_win
  rw [if_pos hw]
  dsimp only
  by_cases hc : (if w + 1 ≠ list_end l then w + 1 else 0) ≠ new_above
  · rw [if_pos hc]
    exact ⟨_, _, rfl, he, key _ (splice_moves_one l _ w _ he)⟩
  · rw [if_neg hc]
    exact ⟨_, _, rfl, he, key _ ⟨w, he, rfl⟩⟩

/-- Witness of C7 on the registry 1, 2, 3, 4: moving the last entry with the
third as target gives 1, 4, 2, 3, a rearrangement that keeps 1, 2, 3 in order. -/
theorem restack_win_moves_only_w_witness :
    (∃ l1 e, restack_win [sample_win 1 0, sample_win 2 0, sample_win 3 0, sample_win 4 0] 3 2
        = some l1 ∧
      [sample_win 1 0, sample_win 2 0, sample_win 3 0, sample_win 4 0][3]? = some e ∧
      l1.Perm [sample_win 1 0, sample_win 2 0, sample_win 3 0, sample_win 4 0] ∧
      (∃ k, l1[k]? = some e ∧ l1.eraseIdx k
        = [sample_win 1 0, sample_win 2 0, sample_win 3 0, sample_win 4 0].eraseIdx 3) ∧
      l1.filter (fun x => decide (x.id ≠ e.id))
        = [sample_win 1 0, sample_win 2 0, sample_win 3 0, sample_win 4 0].filter
            (fun x => decide (x.id ≠ e.id))) ∧
    (restack_win [sample_win 1 0, sample_win 2 0, sample_win 3 0, sample_win 4 0] 3 2).map
        (fun l1 => l1.map (fun e => e.id)) = some [1, 4, 2, 3] :=
  ⟨restack_win_moves_only_w [sample_win 1 0, sample_win 2 0, sample_win 3 0, sample_win 4 0] 3 2
      (by decide), by decide⟩

/-- C6 fails on the code: in the registry A, B, C, D (identifiers 1, 2, 3, 4)
`restack_win (D, C)` gives A, D, B, C, where D is followed by B, not by C; and
`restack_win (A, end)` gives B, C, A, D, where A is not last. -/
theorem restack_win_misplaces :
    (restack_win [sample_win 1 0, sample_win 2 0, sample_win 3 0, sample_win 4 0] 3 2).map
        (fun l1 => l1.map (fun e => e.id)) = some [1, 4, 2, 3] ∧
    (restack_win [sample_win 1 0, sample_win 2 0, sample_win 3 0, sample_win 4 0] 0 4).map
        (fun l1 => l1.map (fun e => e.id)) = some [2, 3, 1, 4] := by
  decide

theorem find_win_le (l : List win) (id : Window) : find_win l id ≤ l.length := by
  induction l with
  | nil => simp [find_win]
  | cons x t ih =>
    unfold find_win
    split
    · simp
    · simp only [List.length_cons]; omega

theorem find_win_lt_of_mem (l : List win) (id : Window) (h : id ∈ l.map (fun e => e.id)) :
    find_win l id < l.length := by
  induction l with
  | nil => simp at h
  | cons x t ih =>
    unfold find_win
    split
    · simp
    · next hx =>
      simp only [List.map_cons, List.mem_cons] at h
      rcases h with h | h
      · exact absurd h.symm hx
      · have := ih h
        simp only [List.length_cons]; omega

theorem find_win_get (l : List win) (id : Window) (h : find_win l id < l.length) :
    ∃ e, l[find_win l id]? = some e ∧ e.id = id := by
  induction l with
  | nil => simp at h
  | cons x t ih =>
    unfold find_win at h ⊢
    split
    · next hx => exact ⟨x, by simp, hx⟩
    · next hx =>
      rw [if_neg hx] at h
      simp only [List.length_cons, Nat.add_lt_add_iff_right] at h
      obtain ⟨e, he, hid⟩ := ih h
      exact ⟨e, by simpa using he, hid⟩

theorem find_win_eq_of_get (l : List win) (k : Nat) (e : win)
    (hnd : (l.map (fun e => e.id)).Nodup) (h : l[k]? = some e) : find_win l e.id = k := by
  induction l generalizing k with
  | nil => simp at h
  | cons x t ih =>
    simp only [List.map_cons, List.nodup_cons] at hnd
    cases k with
    | zero =>
      simp at h
      subst h
      simp [find_win]
    | succ k =>
      simp only [List.getElem?_cons_succ] at h
      have hmem : e.id ∈ t.map (fun e => e.id) :=
        List.mem_map_of_mem _ (List.getElem?_mem h)
      have hx : x.id ≠ e.id := fun hc => hnd.1 (hc ▸ hmem)
      unfold find_win
      rw [if_neg hx, ih k hnd.2 h]

theorem insert_erase_get_other {α : Type} (l : List α) (i p m : Nat) (e : α)
    (hi : i < l.length) (hmi : m ≠ i) (hp : p ≤ l.length - 1) :
    ((l.eraseIdx i).take p ++ e :: (l.eraseIdx i).drop p)[
        if (if m < i then m else m - 1) < p then (if m < i then m else m - 1)
        else (if m < i then m else m - 1) + 1]? = l[m]? := by
  have hlen : (l.eraseIdx i).length = l.length - 1 := List.length_eraseIdx_of_lt hi
  have htake : ((l.eraseIdx i).take p).length = p := by
    rw [List.length_take, hlen]; omega
  have hrest : (l.eraseIdx i)[if m < i then m else m - 1]? = l[m]? := by
    rw [List.getElem?_eraseIdx]
    by_cases h : m < i
    · simp [h]
    · have h2 : ¬ (m - 1 < i) := by omega
      have h3 : m - 1 + 1 = m := by omega
      simp [h, h2, h3]
  generalize (if m < i then m else m - 1) = mr at hrest
  by_cases h : mr < p
  · rw [if_pos h, List.getElem?_append_left (by omega), List.getElem?_take_of_lt h, hrest]
  · rw [if_neg h, List.getElem?_append_right (by omega), htake]
    have h2 : mr + 1 - p = (mr - p) + 1 := by omega
    rw [h2, List.getElem?_cons_succ, List.getElem?_drop]
    have h3 : p + (mr - p) = mr := by omega
    rw [h3, hrest]

theorem restack_win_noop (l : List win) (w new_above : Nat) (hw : w < l.length)
    (h : (if w + 1 ≠ l.length then w + 1 else 0) = new_above ∨
      list_prev l new_above = w ∨ list_prev l new_above = w + 1) :
    restack_win l w new_above = some l := by
  unfold restack_win list_end
  rw [if_pos hw]
  dsimp only
  by_cases hc : (if w + 1 ≠ l.length then w + 1 else 0) ≠ new_above
  · rw [if_pos hc]
    rcases h with h | h
    · exact absurd h hc
    · unfold splice
      rw [if_pos h]
  · rw [if_neg hc]

theorem restack_index_arith (n i j p j1 : Nat) (hi : i < n) (hj : j < n) (hij : i ≠ j)
    (hn1 : (if i + 1 ≠ n then i + 1 else 0) ≠ j)
    (hn2 : ¬ ((if j = 0 then n else j - 1) = i ∨ (if j = 0 then n else j - 1) = i + 1))
    (hp : (if i < (if j = 0 then n else j - 1) then (if j = 0 then n else j - 1) - 1
      else (if j = 0 then n else j - 1)) = p)
    (hj1 : (if (if j < i then j else j - 1) < p then (if j < i then j else j - 1)
        else (if j < i then j else j - 1) + 1) = j1) :
    (if p + 1 ≠ n then p + 1 else 0) = j1 ∨
      (if j1 = 0 then n else j1 - 1) = p ∨ (if j1 = 0 then n else j1 - 1) = p + 1 := by
  by_cases hj0 : j = 0
  · subst hj0
    simp only [if_true] at hn2 hp
    have hp1 : p = n - 1 := by
      rw [← hp]; split <;> omega
    have hji : (0 : Nat) < i := by omega
    simp only [hji, if_true] at hj1
    have : j1 = 0 := by
      rw [← hj1]; split <;> omega
    left
    subst this
    split <;> omega
  · simp only [hj0, if_false] at hn2 hp
    by_cases h1 : i < j - 1
    · rw [if_pos h1] at hp
      have hji : ¬ j < i := by omega
      simp only [hji, if_false] at hj1
      have hlt : ¬ (j - 1 < p) := by omega
      rw [if_neg hlt] at hj1
      right; right
      have : j1 ≠ 0 := by omega
      rw [if_neg this]; omega
    · rw [if_neg h1] at hp
      have hji : j < i := by omega
      simp only [hji, if_true] at hj1
      have hlt : ¬ (j < p) := by omega
      rw [if_neg hlt] at hj1
      right; right
      have : j1 ≠ 0 := by omega
      rw [if_neg this]; omega

theorem splice_length (l : List win) (position i : Nat) :
    (splice l position i).length = l.length := by
  unfold splice
  split
  · rfl
  · cases h : l[i]? with
    | none => rfl
    | some e =>
      have hi : i < l.length := (List.getElem?_eq_some_iff.mp h).1
      have hlen : (l.eraseIdx i).length = l.length - 1 := List.length_eraseIdx_of_lt hi
      simp only [List.length_append, List.length_cons, List.length_take, List.length_drop, hlen]
      omega

/-- C5: in a registry with distinct identifiers, for two distinct entries A and
B, `restack_win (A, B)` returns a registry on which `restack_win (A, B)`, with the
iterators looked up again, changes nothing: twice gives the order of once. -/
theorem restack_win_twice (l : List win) (ida idb : Window)
    (hnd : (l.map (fun e => e.id)).Nodup)
    (ha : ida ∈ l.map (fun e => e.id)) (hb : idb ∈ l.map (fun e => e.id)) (hab : ida ≠ idb) :
    ∃ l1, restack_win l (find_win l ida) (find_win l idb) = some l1 ∧
      restack_win l1 (find_win l1 ida) (find_win l1 idb) = some l1 := by
  have hi := find_win_lt_of_mem l ida ha
  have hj := find_win_lt_of_mem l idb hb
  obtain ⟨ea, hea, hida⟩ := find_win_get l ida hi
  obtain ⟨eb, heb, hidb⟩ := find_win_get l idb hj
  generalize find_win l ida = i at hi hea
  generalize find_win l idb = j at hj heb
  have hij : i ≠ j := by
    intro hc
    rw [hc, heb] at hea
    injection hea with hea
    rw [← hida, ← hidb, hea] at hab
    exact hab rfl
  by_cases hnoop : (if i + 1 ≠ l.length then i + 1 else 0) = j ∨
      list_prev l j = i ∨ list_prev l j = i + 1
  · have h := restack_win_noop l i j hi hnoop
    refine ⟨l, h, ?_⟩
    have hfa : find_win l ida = i := hida ▸ find_win_eq_of_get l i ea hnd hea
    have hfb : find_win l idb = j := hidb ▸ find_win_eq_of_get l j eb hnd heb
    rw [hfa, hfb, h]
  · have hn1 : (if i + 1 ≠ l.length then i + 1 else 0) ≠ j := fun hc => hnoop (Or.inl hc)
    have hn2 : ¬ (list_prev l j = i ∨ list_prev l j = i + 1) := fun hc => hnoop (Or.inr hc)
    have hrun : restack_win l i j = some (splice l (list_prev l j) i) := by
      unfold restack_win list_end
      rw [if_pos hi]
      dsimp only
      rw [if_pos hn1]
    have hlen1 := splice_length l (list_prev l j) i
    have hperm : (splice l (list_prev l j) i).Perm l := by
      obtain ⟨k, hk1, hk2⟩ := splice_moves_one l (list_prev l j) i ea hea
      have p1 := perm_cons_eraseIdx _ k _ hk1
      have p2 := perm_cons_eraseIdx l i _ hea
      rw [hk2] at p1
      exact p1.trans p2.symm
    have hnd1 : ((splice l (list_prev l j) i).map (fun e => e.id)).Nodup :=
      (List.Perm.nodup_iff (hperm.map _)).mpr hnd
    have hpos : list_prev l j ≤ l.length := by
      unfold list_prev; split <;> omega
    have hrlen : (l.eraseIdx i).length = l.length - 1 := List.length_eraseIdx_of_lt hi
    have hshape : splice l (list_prev l j) i =
        (l.eraseIdx i).take (if i < list_prev l j then list_prev l j - 1 else list_prev l j) ++
          ea :: (l.eraseIdx i).drop
            (if i < list_prev l j then list_prev l j - 1 else list_prev l j) := by
      unfold splice
      rw [if_neg hn2, hea]
    generalize hp : (if i < list_prev l j then list_prev l j - 1 else list_prev l j) = p
      at hshape
    have hple : p ≤ l.length - 1 := by
      rw [← hp]; split <;> omega
    have hga : (splice l (list_prev l j) i)[p]? = some ea := by
      have := (insert_take_drop_get (l.eraseIdx i) p ea).1
      rw [hrlen, Nat.min_eq_left hple] at this
      rw [hshape]; exact this
    have hgb := insert_erase_get_other l i p j ea hi (fun hc => hij hc.symm) hple
    rw [← hshape, heb] at hgb
    generalize hj1 : (if (if j < i then j else j - 1) < p then (if j < i then j else j - 1)
        else (if j < i then j else j - 1) + 1) = j1 at hgb
    have hfa := find_win_eq_of_get _ p ea hnd1 hga
    have hfb := find_win_eq_of_get _ j1 eb hnd1 hgb
    rw [hida] at hfa
    rw [hidb] at hfb
    refine ⟨_, hrun, ?_⟩
    rw [hfa, hfb]
    generalize splice l (list_prev l j) i = l1 at hlen1
    apply restack_win_noop _ _ _ (by rw [hlen1]; omega)
    unfold list_prev at hp hn2 ⊢
    rw [hlen1]
    exact restack_index_arith l.length i j p j1 hi hj hij hn1 hn2 hp hj1

/-- Witness of C5 on the registry 1, 2, 3, 4 with A the last and B the third
entry: one restack gives 1, 4, 2, 3 and a second one leaves it so. -/
theorem restack_win_twice_witness :
    (∃ l1, restack_win [sample_win 1 0, sample_win 2 0, sample_win 3 0, sample_win 4 0]
        (find_win [sample_win 1 0, sample_win 2 0, sample_win 3 0, sample_win 4 0] 4)
        (find_win [sample_win 1 0, sample_win 2 0, sample_win 3 0, sample_win 4 0] 3) = some l1 ∧
      restack_win l1 (find_win l1 4) (find_win l1 3) = some l1) ∧
    restack_win [sample_win 1 0, sample_win 4 0, sample_win 2 0, sample_win 3 0] 1 3
      = some [sample_win 1 0, sample_win 4 0, sample_win 2 0, sample_win 3 0] :=
  ⟨restack_win_twice [sample_win 1 0, sample_win 2 0, sample_win 3 0, sample_win 4 0] 4 3
      (by decide) (by decide) (by decide) (by decide), by decide⟩

/-! ## Registry membership: proofs -/

theorem update_win_ids (s : State) (w : Nat) (f : win → win) (hw : w < s.win_list.length)
    (hf : ∀ e, (f e).id = e.id) :
    ∃ s1, update_win s w f = some s1 ∧
      s1.win_list.map (fun e => e.id) = s.win_list.map (fun e => e.id) := by
  unfold update_win
  rw [List.getElem?_eq_getElem hw]
  refine ⟨_, rfl, ?_⟩
  dsimp only
  rw [List.map_set, hf]
  apply List.ext_getElem?
  intro k
  rw [List.getElem?_set]
  split
  · next hk =>
    subst hk
    simp [hw]
  · rfl

theorem get_opacity_prop_some (X : XServer) (l : List win) (w dflt : Nat) (hw : w < l.length) :
    ∃ v, get_opacity_prop X l w dflt = some v := by
  unfold get_opacity_prop
  rw [List.getElem?_eq_getElem hw]
  dsimp only
  split
  · split
    · exact ⟨_, rfl⟩
    · exact ⟨_, rfl⟩
  · exact ⟨_, rfl⟩

theorem determine_mode_ids (X : XServer) (s : State) (w : Nat) (hw : w < s.win_list.length) :
    ∃ s1, determine_mode X s w = some s1 ∧
      s1.win_list.map (fun e => e.id) = s.win_list.map (fun e => e.id) := by
  have hset : ∀ e : win, e.id = s.win_list[w].id →
      (s.win_list.set w e).map (fun e => e.id) = s.win_list.map (fun e => e.id) := by
    intro e he
    rw [List.map_set, he]
    apply List.ext_getElem?
    intro k
    rw [List.getElem?_set]
    split
    · next hk =>
      subst hk
      simp [hw]
    · rfl
  have hid : (if s.win_list[w].alphaPict ≠ XNone then { s.win_list[w] with alphaPict := XNone }
      else s.win_list[w]).id = s.win_list[w].id := by
    split <;> rfl
  unfold determine_mode
  rw [List.getElem?_eq_getElem hw]
  dsimp only
  split
  · refine ⟨_, rfl, ?_⟩
    rw [add_damage_win_list]
    exact hset _ hid
  · exact ⟨_, rfl, hset _ hid⟩

theorem map_win_ids (X : XServer) (s : State) (id : Window) :
    ∃ s1, map_win X s id = some s1 ∧
      s1.win_list.map (fun e => e.id) = s.win_list.map (fun e => e.id) := by
  unfold map_win list_end
  dsimp only
  by_cases hend : find_win s.win_list id = s.win_list.length
  · rw [if_pos hend]
    exact ⟨s, rfl, rfl⟩
  · rw [if_neg hend]
    have hw : find_win s.win_list id < s.win_list.length :=
      lt_of_le_of_ne (find_win_le _ _) hend
    generalize find_win s.win_list id = w at hw
    have len_of : ∀ a b : State,
        a.win_list.map (fun e => e.id) = b.win_list.map (fun e => e.id) →
        a.win_list.length = b.win_list.length := by
      intro a b h
      have := congrArg List.length h
      simpa using this
    obtain ⟨s1, h1, i1⟩ := update_win_ids s w
      (fun e => { e with a := { e.a with map_state := IsViewable } }) hw (fun _ => rfl)
    have hw1 : w < s1.win_list.length := by rw [len_of _ _ i1]; exact hw
    obtain ⟨v, hv⟩ := get_opacity_prop_some X s1.win_list w OPAQUE hw1
    obtain ⟨s2, h2, i2⟩ := update_win_ids s1 w (fun e => { e with opacity := v }) hw1
      (fun _ => rfl)
    have hw2 : w < s2.win_list.length := by rw [len_of _ _ i2]; exact hw1
    obtain ⟨s3, h3, i3⟩ := determine_mode_ids X s2 w hw2
    have hw3 : w < s3.win_list.length := by rw [len_of _ _ i3]; exact hw2
    obtain ⟨s4, h4, i4⟩ := update_win_ids s3 w (fun e => { e with damaged := 0 }) hw3
      (fun _ => rfl)
    refine ⟨s4, ?_, by rw [i4, i3, i2, i1]⟩
    simp only [h1, hv, h2, h3, h4, Option.bind_eq_bind, Option.some_bind]

theorem insert_before_head (l : List win) (x p : win) :
    insert_before (x :: l) x.id p = p :: x :: l := by
  simp [insert_before]

theorem add_win_front (X : XServer) (s : State) (id prev : Window) (a : XWindowAttributes)
    (ha : X.XGetWindowAttributes id = some a)
    (hprev : prev = XNone ∨ (s.win_list.map (fun e => e.id)).head? = some prev) :
    ∃ s1, add_win X s id prev = some s1 ∧
      s1.win_list.map (fun e => e.id) = id :: s.win_list.map (fun e => e.id) := by
  have hins : (if prev ≠ XNone
      then ({ s with win_list := insert_before s.win_list prev (new_win X id a) } : State)
      else { s with win_list := new_win X id a :: s.win_list }).win_list.map (fun e => e.id)
      = id :: s.win_list.map (fun e => e.id) := by
    by_cases hp : prev = XNone
    · rw [if_neg (not_not.mpr hp)]
      rfl
    · rw [if_pos hp]
      rcases hprev with h | h
      · exact absurd h hp
      · cases hl : s.win_list with
        | nil => rw [hl] at h; simp at h
        | cons x t =>
          rw [hl] at h
          simp only [List.map_cons, List.head?_cons, Option.some.injEq] at h
          subst h
          dsimp only
          rw [insert_before_head]
          rfl
  unfold add_win
  rw [ha]
  dsimp only
  generalize (if prev ≠ XNone
      then ({ s with win_list := insert_before s.win_list prev (new_win X id a) } : State)
      else { s with win_list := new_win X id a :: s.win_list }) = s1 at hins
  split
  · obtain ⟨s2, h2, i2⟩ := map_win_ids X s1 id
    exact ⟨s2, h2, by rw [i2, hins]⟩
  · exact ⟨s1, rfl, hins⟩

theorem add_children_upto (X : XServer) (children : List Window) (s0 : State)
    (hok : ∀ c ∈ children, ∃ a, X.XGetWindowAttributes c = some a)
    (hempty : s0.win_list = []) (n : Nat) (hn : n ≤ children.length) :
    ∃ s1, (List.range n).foldlM
        (fun s i => add_win X s (children.getD i 0)
          (if i ≠ 0 then children.getD (i - 1) 0 else XNone)) s0 = some s1 ∧
      s1.win_list.map (fun e => e.id) = (children.take n).reverse := by
  induction n with
  | zero => exact ⟨s0, rfl, by rw [hempty]; rfl⟩
  | succ i ih =>
    obtain ⟨s, hrun, hs⟩ := ih (by omega)
    have hi2 : i < children.length := by omega
    have hget : children.getD i 0 = children[i] := by
      rw [List.getD_eq_getElem?_getD, List.getElem?_eq_getElem hi2]; rfl
    obtain ⟨a, ha⟩ := hok children[i] (List.getElem_mem _)
    have hprev : (if i ≠ 0 then children.getD (i - 1) 0 else XNone) = XNone ∨
        (s.win_list.map (fun e => e.id)).head?
          = some (if i ≠ 0 then children.getD (i - 1) 0 else XNone) := by
      by_cases h0 : i = 0
      · left; simp [h0]
      · right
        rw [if_pos h0, hs]
        have hsucc : i = (i - 1) + 1 := by omega
        have hlt : i - 1 < children.length := by omega
        rw [List.head?_reverse]
        conv => lhs; rw [hsucc]
        rw [List.take_succ, List.getLast?_append]
        simp [List.getElem?_eq_getElem hlt, List.getD_eq_getElem?_getD]
    obtain ⟨s1, h1, i1⟩ := add_win_front X s children[i] _ a ha hprev
    refine ⟨s1, ?_, ?_⟩
    · rw [List.range_succ, List.foldlM_append, hrun]
      simp only [Option.bind_eq_bind, Option.some_bind, List.foldlM_cons, List.foldlM_nil,
        hget, h1]
      rfl
    · rw [i1, hs, List.take_succ, List.getElem?_eq_getElem hi2, List.reverse_append]
      rfl

/-- C8: when every attribute fetch succeeds, the enumeration loop of `main`,
started from an empty registry, returns with a registry that holds exactly the
enumerated children, the last one first: c(n-1), ..., c1, c0. -/
theorem add_children_order (X : XServer) (children : List Window) (s0 : State)
    (hok : ∀ c ∈ children, ∃ a, X.XGetWindowAttributes c = some a)
    (hempty : s0.win_list = []) :
    ∃ s1, add_children X children s0 = some s1 ∧
      s1.win_list.map (fun e => e.id) = children.reverse := by
  obtain ⟨s1, h1, h2⟩ := add_children_upto X children s0 hok hempty children.length
    (Nat.le_refl _)
  exact ⟨s1, h1, by rw [h2, List.take_length]⟩

/-- Witness of C8: the children 1, 2, 3 on a server where every fetch succeeds
end up as the registry 3, 2, 1. -/
theorem add_children_order_witness :
    (∃ s1, add_children (sample_server [] none 0) [1, 2, 3] { clipChanged := true } = some s1 ∧
      s1.win_list.map (fun e => e.id) = [1, 2, 3].reverse) ∧
    (add_children (sample_server [] none 0) [1, 2, 3] { clipChanged := true }).map
      (fun s => s.win_list.map (fun e => e.id)) = some [3, 2, 1] :=
  ⟨add_children_order (sample_server [] none 0) [1, 2, 3] { clipChanged := true }
      (fun _ _ => ⟨_, rfl⟩) rfl, by decide⟩

/-- C9 fails on the code: with the enumeration 1, 2 where the attribute fetch
of window 1 fails and that of window 2 succeeds, `add_win (2, 1)` finds no node
for the predecessor 1 and inserts nothing, so window 2 is not registered. -/
theorem add_win_drops_after_missing_prev :
    add_win (sample_server [1] none 0) { clipChanged := true } 1 XNone
      = some { clipChanged := true } ∧
    add_win (sample_server [1] none 0) { clipChanged := true } 2 1
      = some { clipChanged := true } ∧
    add_children (sample_server [1] none 0) [1, 2] { clipChanged := true }
      = some { win_list := [], allDamage := none, clipChanged := true } := by
  decide

theorem find_win_absent (l : List win) (id : Window) (h : id ∉ l.map (fun e => e.id)) :
    find_win l id = l.length := by
  induction l with
  | nil => rfl
  | cons x t ih =>
    simp only [List.map_cons, List.mem_cons, not_or] at h
    unfold find_win
    rw [if_neg (fun hc => h.1 hc.symm), ih h.2]
    rfl

theorem destroy_win_absent (s : State) (id : Window) (gone : Bool)
    (h : id ∉ s.win_list.map (fun e => e.id)) : destroy_win s id gone = none := by
  unfold destroy_win finish_destroy_win
  rw [find_win_absent _ _ h]
  cases gone with
  | true =>
    have : finish_unmap_win s s.win_list.length = none := by
      unfold finish_unmap_win
      rw [List.getElem?_eq_none (Nat.le_refl _)]
    simp [this]
  | false =>
    have : update_win s s.win_list.length
        (fun e => { e with picture := XNone, alphaPict := XNone, damage := XNone }) = none := by
      unfold update_win
      rw [List.getElem?_eq_none (Nat.le_refl _)]
    simp [this]

/-- C10 fails on the code: for a window that is not in the registry (here
window 5, with the registry empty or holding window 1), `destroy_win` passes
`end()` on to `finish_destroy_win`, which dereferences and erases it: the
behaviour is undefined for both values of `gone`, where `unmap_win` on the same
input returns with the state unchanged. -/
theorem destroy_win_absent_undefined :
    destroy_win { clipChanged := false } 5 true = none ∧
    destroy_win { clipChanged := false } 5 false = none ∧
    destroy_win { win_list := [sample_win 1 OPAQUE] } 5 true = none ∧
    destroy_win { win_list := [sample_win 1 OPAQUE] } 5 false = none ∧
    unmap_win { win_list := [sample_win 1 OPAQUE] } 5
      = some { win_list := [sample_win 1 OPAQUE] } := by
  decide

/-! ## Release of cached resources: proofs -/

theorem add_damage_requests (s : State) (r : Region) :
    (add_damage s r).requests =
      s.requests ++ (match s.allDamage with
        | some _ => [XRequest.XFixesDestroyRegion r]
        | none => []) := by
  unfold add_damage
  cases s.allDamage <;> simp

theorem finish_unmap_win_eq (s : State) (w : Nat) (e : win) (he : s.win_list[w]? = some e) :
    finish_unmap_win s w = some
      { s with
        win_list := s.win_list.set w
          { e with damaged := 0, extents := none, pixmap := XNone, picture := XNone,
                   borderSize := none, borderClip := none },
        allDamage := (match e.extents with
          | some extents => (add_damage s extents).allDamage
          | none => s.allDamage),
        clipChanged := true,
        requests := s.requests ++
          (match e.extents, s.allDamage with
            | some extents, some _ => [XRequest.XFixesDestroyRegion extents]
            | _, _ => []) ++
          release_xid e.pixmap XRequest.XFreePixmap ++
          release_xid e.picture XRequest.XRenderFreePicture ++
          destroy_region e.borderSize ++ destroy_region e.borderClip } := by
  unfold finish_unmap_win
  rw [he]
  cases hx : e.extents with
  | none => simp [hx]
  | some r =>
    cases ha : s.allDamage with
    | none => simp [hx, add_damage, ha]
    | some d => simp [hx, add_damage, ha]


theorem eraseIdx_set_same {α : Type} (l : List α) (w : Nat) (x : α) :
    (l.set w x).eraseIdx w = l.eraseIdx w := by
  induction l generalizing w with
  | nil => rfl
  | cons h t ih =>
    cases w with
    | zero => rfl
    | succ k => simp [List.set, List.eraseIdx, ih]

theorem finish_destroy_win_eq (s : State) (w : Nat) (gone : Bool) (e : win)
    (he : s.win_list[w]? = some e) :
    ∃ s1, finish_destroy_win s w gone = some s1 ∧
      s1.win_list = s.win_list.eraseIdx w ∧
      s1.allDamage = (match gone, e.extents with
        | true, some extents => (add_damage s extents).allDamage
        | _, _ => s.allDamage) ∧
      s1.requests = s.requests ++
        (if gone then
          (match e.extents, s.allDamage with
            | some extents, some _ => [XRequest.XFixesDestroyRegion extents]
            | _, _ => []) ++
          release_xid e.pixmap XRequest.XFreePixmap ++
          release_xid e.picture XRequest.XRenderFreePicture ++
          destroy_region e.borderSize ++ destroy_region e.borderClip ++
          release_xid e.alphaPict XRequest.XRenderFreePicture ++
          release_xid e.damage XRequest.XDamageDestroy
        else
          release_xid e.picture XRequest.XRenderFreePicture ++
          release_xid e.alphaPict XRequest.XRenderFreePicture ++
          release_xid e.damage XRequest.XDamageDestroy) := by
  have hw : w < s.win_list.length := (List.getElem?_eq_some_iff.mp he).1
  cases gone with
  | false =>
    refine ⟨?s1, ?h, ?a, ?b, ?c⟩
    case h =>
      simp only [finish_destroy_win, update_win, he, Option.bind_eq_bind, Option.some_bind,
        Bool.false_eq_true, if_false]
      exact rfl
    case a => exact eraseIdx_set_same _ _ _
    case b => rfl
    case c => simp
  | true =>
    refine ⟨?t1, ?h1, ?a1, ?b1, ?c1⟩
    case h1 =>
      simp only [finish_destroy_win, update_win, finish_unmap_win_eq s w e he, if_true,
        Option.bind_eq_bind, Option.some_bind, List.getElem?_set_self hw]
      exact rfl
    case a1 => simp only [eraseIdx_set_same]
    case b1 => cases e.extents <;> rfl
    case c1 => simp [release_xid, XNone]

/-- C11 fails on the code: a mapped, painted window (identifier 5, holding the
pixmap 2005, the picture 5005, the damage record 1005, a border-size and an
extents region after its first paint pass) that is reparented away is erased
with only `XRenderFreePicture 5005` and `XDamageDestroy 1005` issued: the pixmap
and the two regions are not released. -/
theorem reparent_leaves_caches :
    ((main_loop_turn (sample_server [] none 0)
        [(sample_server [] none 0, XEvent.CreateNotify 5),
         (sample_server [] none 0, XEvent.DamageNotify 5)]
        { clipChanged := true, root := 1, root_width := 800, root_height := 600,
          rootPicture := 70, hasNamePixmap := true }).map
      (fun s => s.win_list.map
        (fun e => (e.pixmap, e.picture, e.damage, e.borderSize.isSome, e.extents.isSome))))
      = some [(2005, 5005, 1005, true, true)] ∧
    ((main_loop_turn (sample_server [] none 0)
        [(sample_server [] none 0, XEvent.CreateNotify 5),
         (sample_server [] none 0, XEvent.DamageNotify 5)]
        { clipChanged := true, root := 1, root_width := 800, root_height := 600,
          rootPicture := 70, hasNamePixmap := true }).bind
      (fun s => (handle_event (sample_server [] none 0) s (XEvent.ReparentNotify 5 9)).map
        (fun s1 => (s1.win_list, s1.requests.drop s.requests.length))))
      = some ([], [XRequest.XRenderFreePicture 5005, XRequest.XDamageDestroy 1005]) := by
  decide


/-- C11, amended: for a registered window `destroy_win` returns with the entry
erased; with `gone` set it has issued one release for every resource the entry
held (the extents region is handed to the damage accumulator, which destroys it
or, when no damage was pending, keeps it as the pending damage); with `gone`
clear it has released only the picture, the alpha mask and the damage record,
and issued no release for the pixmap, border-size, extents or border-clip. -/
theorem destroy_win_releases (s : State) (id : Window) (gone : Bool) (e : win)
    (he : s.win_list[find_win s.win_list id]? = some e) :
    ∃ s1, destroy_win s id gone = some s1 ∧
      s1.win_list = s.win_list.eraseIdx (find_win s.win_list id) ∧
      (gone = true →
        s1.requests = s.requests ++
          ((match e.extents, s.allDamage with
            | some extents, some _ => [XRequest.XFixesDestroyRegion extents]
            | _, _ => []) ++
          release_xid e.pixmap XRequest.XFreePixmap ++
          release_xid e.picture XRequest.XRenderFreePicture ++
          destroy_region e.borderSize ++ destroy_region e.borderClip ++
          release_xid e.alphaPict XRequest.XRenderFreePicture ++
          release_xid e.damage XRequest.XDamageDestroy) ∧
        (∀ extents, e.extents = some extents → s.allDamage = none →
          s1.allDamage = some extents)) ∧
      (gone = false →
        s1.requests = s.requests ++
          (release_xid e.picture XRequest.XRenderFreePicture ++
          release_xid e.alphaPict XRequest.XRenderFreePicture ++
          release_xid e.damage XRequest.XDamageDestroy)) := by
  obtain ⟨s1, h1, hl, hd, hr⟩ := finish_destroy_win_eq s _ gone e he
  refine ⟨s1, h1, hl, ?_, ?_⟩
  · intro hg
    subst hg
    refine ⟨by simpa using hr, ?_⟩
    intro extents hx ha
    rw [hd, hx]
    simp [add_damage, ha]
  · intro hg
    subst hg
    simpa using hr

/-- Witness of C11 amended: the window 5 holding all seven resources, with damage
pending, is destroyed with `gone` set. -/
theorem destroy_win_releases_witness :
    ∃ s1, destroy_win { win_list := [sample_held_win 5],
                        allDamage := some (Region.rects []) } 5 true = some s1 ∧
      s1.win_list = [sample_held_win 5].eraseIdx (find_win [sample_held_win 5] 5) ∧
      (true = true →
        s1.requests = [] ++
          ((match (sample_held_win 5).extents, some (Region.rects []) with
            | some extents, some _ => [XRequest.XFixesDestroyRegion extents]
            | _, _ => []) ++
          release_xid (sample_held_win 5).pixmap XRequest.XFreePixmap ++
          release_xid (sample_held_win 5).picture XRequest.XRenderFreePicture ++
          destroy_region (sample_held_win 5).borderSize ++
          destroy_region (sample_held_win 5).borderClip ++
          release_xid (sample_held_win 5).alphaPict XRequest.XRenderFreePicture ++
          release_xid (sample_held_win 5).damage XRequest.XDamageDestroy) ∧
        (∀ extents, (sample_held_win 5).extents = some extents →
          some (Region.rects []) = none → s1.allDamage = some extents)) ∧
      (true = false →
        s1.requests = [] ++
          (release_xid (sample_held_win 5).picture XRequest.XRenderFreePicture ++
          release_xid (sample_held_win 5).alphaPict XRequest.XRenderFreePicture ++
          release_xid (sample_held_win 5).damage XRequest.XDamageDestroy)) :=
  destroy_win_releases { win_list := [sample_held_win 5], allDamage := some (Region.rects []) }
    5 true (sample_held_win 5) (by decide)

theorem find_win_congr (l1 l2 : List win) (id : Window)
    (h : l1.map (fun e => e.id) = l2.map (fun e => e.id)) : find_win l1 id = find_win l2 id := by
  induction l1 generalizing l2 with
  | nil =>
    cases l2 with
    | nil => rfl
    | cons y t => simp at h
  | cons x t ih =>
    cases l2 with
    | nil => simp at h
    | cons y t2 =>
      simp only [List.map_cons, List.cons.injEq] at h
      unfold find_win
      rw [h.1, ih t2 h.2]

theorem sublist_win_handles (e : win) (d : Option Region) :
    ((match e.extents, d with
      | some extents, some _ => [XRequest.XFixesDestroyRegion extents]
      | _, _ => []) ++
      release_xid e.pixmap XRequest.XFreePixmap ++
      release_xid e.picture XRequest.XRenderFreePicture ++
      destroy_region e.borderSize ++ destroy_region e.borderClip ++
      (release_xid e.alphaPict XRequest.XRenderFreePicture ++
      release_xid e.damage XRequest.XDamageDestroy)).Sublist (win_handles e) := by
  unfold win_handles
  simp only [List.append_assoc]
  apply List.Sublist.append _ (List.Sublist.refl _)
  cases e.extents with
  | none => exact List.Sublist.refl _
  | some r =>
    cases d with
    | none => simp [destroy_region]
    | some _ => exact List.Sublist.refl _

theorem set_ids (l : List win) (w : Nat) (e x : win) (he : l[w]? = some e)
    (hx : x.id = e.id) : (l.set w x).map (fun e => e.id) = l.map (fun e => e.id) := by
  have hw : w < l.length := (List.getElem?_eq_some_iff.mp he).1
  rw [List.map_set, hx]
  apply List.ext_getElem?
  intro k
  rw [List.getElem?_set]
  split
  · next hk =>
    subst hk
    obtain ⟨_, hge⟩ := List.getElem?_eq_some_iff.mp he
    simp [hw, hge]
  · rfl

theorem update_win_spec (s : State) (w : Nat) (f : win → win) (e : win)
    (he : s.win_list[w]? = some e) :
    ∃ s1, update_win s w f = some s1 ∧ s1.win_list = s.win_list.set w (f e) ∧
      s1.requests = s.requests ∧ s1.allDamage = s.allDamage ∧
      s1.clipChanged = s.clipChanged := by
  simp only [update_win, he]
  exact ⟨_, rfl, rfl, rfl, rfl, rfl⟩

theorem finish_unmap_win_spec (s : State) (w : Nat) (e : win) (he : s.win_list[w]? = some e) :
    ∃ s1 e1, finish_unmap_win s w = some s1 ∧ s1.win_list = s.win_list.set w e1 ∧
      e1.id = e.id ∧ e1.extents = none ∧ e1.pixmap = XNone ∧ e1.picture = XNone ∧
      e1.borderSize = none ∧ e1.borderClip = none ∧
      e1.alphaPict = e.alphaPict ∧ e1.damage = e.damage ∧
      s1.requests = s.requests ++
        (match e.extents, s.allDamage with
          | some extents, some _ => [XRequest.XFixesDestroyRegion extents]
          | _, _ => []) ++
        release_xid e.pixmap XRequest.XFreePixmap ++
        release_xid e.picture XRequest.XRenderFreePicture ++
        destroy_region e.borderSize ++ destroy_region e.borderClip :=
  ⟨_, _, finish_unmap_win_eq s w e he, rfl, rfl, rfl, rfl, rfl, rfl, rfl, rfl, rfl, rfl⟩

/-- C12: for a registered window, `unmap_win` followed by `destroy_win` with
`gone` set both return; after the unmap the extents, pixmap, picture, border-size
and border-clip handles of the entry are `None`; and the releases the two calls
issue together form a sublist of `win_handles`, the list with one release per
resource the entry held: no handle is released twice. -/
theorem unmap_destroy_release_once (s : State) (id : Window) (e : win)
    (he : s.win_list[find_win s.win_list id]? = some e) :
    ∃ s1 e1 s2 rel, unmap_win s id = some s1 ∧
      s1.win_list[find_win s1.win_list id]? = some e1 ∧
      e1.extents = none ∧ e1.pixmap = XNone ∧ e1.picture = XNone ∧
      e1.borderSize = none ∧ e1.borderClip = none ∧
      destroy_win s1 id true = some s2 ∧
      s2.requests = s.requests ++ rel ∧ rel.Sublist (win_handles e) := by
  have hw : find_win s.win_list id < s.win_list.length := (List.getElem?_eq_some_iff.mp he).1
  obtain ⟨su, hu1, hsul, hsur, hsud, -⟩ := update_win_spec s _
    (fun e => { e with a := { e.a with map_state := IsUnmapped } }) e he
  have hids1 := set_ids s.win_list _ e
    ((fun e : win => { e with a := { e.a with map_state := IsUnmapped } }) e) he rfl
  have hget : su.win_list[find_win s.win_list id]?
      = some ((fun e : win => { e with a := { e.a with map_state := IsUnmapped } }) e) := by
    rw [hsul]; exact List.getElem?_set_self hw
  obtain ⟨s1, e1, h1, hl1, hid1, x1, x2, x3, x4, x5, ha1, hd1, hr1⟩ :=
    finish_unmap_win_spec su _ _ hget
  have hunmap : unmap_win s id = some s1 := by
    unfold unmap_win list_end
    simp only [if_neg (Nat.ne_of_lt hw), hu1, Option.bind_eq_bind, Option.some_bind]
    exact h1
  have hids : s1.win_list.map (fun e => e.id) = s.win_list.map (fun e => e.id) := by
    rw [hl1, set_ids su.win_list _ _ e1 hget hid1, hsul, hids1]
  have hf : find_win s1.win_list id = find_win s.win_list id := find_win_congr _ _ _ hids
  have hget1 : s1.win_list[find_win s1.win_list id]? = some e1 := by
    rw [hf, hl1]
    exact List.getElem?_set_self (by rw [hsul]; simpa using hw)
  obtain ⟨s2, h2, -, -, hr2⟩ := finish_destroy_win_eq s1 _ true e1 hget1
  refine ⟨s1, e1, s2, ?rel, hunmap, hget1, x1, x2, x3, x4, x5, h2, ?r, ?sub⟩
  case sub => exact sublist_win_handles e s.allDamage
  case r =>
    rw [hr2, hr1, hsur, hsud]
    simp only [x1, x2, x3, x4, x5, ha1, hd1, if_true, release_xid, destroy_region, XNone,
      ne_eq, not_true_eq_false, if_false, List.append_nil, List.nil_append, List.append_assoc]
    rfl

/-- Witness of C12: the window 5 holding all seven resources, with damage
pending; the two calls together issue exactly one release per resource. -/
theorem unmap_destroy_release_once_witness :
    (∃ s1 e1 s2 rel,
      unmap_win { win_list := [sample_held_win 5], allDamage := some (Region.rects []) } 5
        = some s1 ∧
      s1.win_list[find_win s1.win_list 5]? = some e1 ∧
      e1.extents = none ∧ e1.pixmap = XNone ∧ e1.picture = XNone ∧
      e1.borderSize = none ∧ e1.borderClip = none ∧
      destroy_win s1 5 true = some s2 ∧
      s2.requests = [] ++ rel ∧ rel.Sublist (win_handles (sample_held_win 5))) ∧
    ((unmap_win { win_list := [sample_held_win 5], allDamage := some (Region.rects []) } 5).bind
      (fun s1 => destroy_win s1 5 true)).map (fun s2 => s2.requests)
      = some (win_handles (sample_held_win 5)) :=
  ⟨unmap_destroy_release_once
      { win_list := [sample_held_win 5], allDamage := some (Region.rects []) } 5
      (sample_held_win 5) (by decide), by decide⟩

/-! ## Damage accumulator: proofs -/

theorem damage_mem_add_damage (s : State) (r : Region) (px py : Int) :
    damage_mem (add_damage s r) px py = (damage_mem s px py || r.mem px py) := by
  unfold damage_mem add_damage
  cases s.allDamage with
  | none => simp
  | some d => simp [Region.mem]

theorem damage_grows_refl (s : State) : damage_grows s s := fun _ _ h => h

theorem damage_grows_trans {s s1 s2 : State} (h1 : damage_grows s s1)
    (h2 : damage_grows s1 s2) : damage_grows s s2 :=
  fun px py h => h2 px py (h1 px py h)

theorem damage_grows_of_eq {s s1 : State} (h : s1.allDamage = s.allDamage) :
    damage_grows s s1 := by
  intro px py hp
  unfold damage_mem at hp ⊢
  rw [h]; exact hp

theorem damage_grows_add_damage (s : State) (r : Region) : damage_grows s (add_damage s r) := by
  intro px py hp
  rw [damage_mem_add_damage, hp]
  rfl

theorem add_damage_length (s : State) (r : Region) :
    (add_damage s r).win_list.length = s.win_list.length := by
  rw [add_damage_win_list]

theorem update_win_grows (s : State) (w : Nat) (f : win → win) (hw : w < s.win_list.length) :
    ∃ s1, update_win s w f = some s1 ∧ s1.win_list.length = s.win_list.length ∧
      damage_grows s s1 := by
  obtain ⟨s1, h, hl, -, hd, -⟩ := update_win_spec s w f _ (List.getElem?_eq_getElem hw)
  exact ⟨s1, h, by rw [hl, List.length_set], damage_grows_of_eq hd⟩

theorem determine_mode_grows (X : XServer) (s : State) (w : Nat) (hw : w < s.win_list.length) :
    ∃ s1, determine_mode X s w = some s1 ∧ s1.win_list.length = s.win_list.length ∧
      damage_grows s s1 := by
  unfold determine_mode
  rw [List.getElem?_eq_getElem hw]
  dsimp only
  split
  · refine ⟨_, rfl, ?_, ?_⟩
    · rw [add_damage_length]; simp
    · refine damage_grows_trans ?_ (damage_grows_add_damage _ _)
      exact damage_grows_of_eq rfl
  · exact ⟨_, rfl, by simp, damage_grows_of_eq rfl⟩

theorem map_win_grows (X : XServer) (s : State) (id : Window) :
    ∃ s1, map_win X s id = some s1 ∧ damage_grows s s1 := by
  unfold map_win list_end
  dsimp only
  by_cases hend : find_win s.win_list id = s.win_list.length
  · rw [if_pos hend]
    exact ⟨s, rfl, damage_grows_refl s⟩
  · rw [if_neg hend]
    have hw : find_win s.win_list id < s.win_list.length :=
      lt_of_le_of_ne (find_win_le _ _) hend
    generalize find_win s.win_list id = w at hw
    obtain ⟨s1, h1, l1, g1⟩ := update_win_grows s w
      (fun e => { e with a := { e.a with map_state := IsViewable } }) hw
    have hw1 : w < s1.win_list.length := by rw [l1]; exact hw
    obtain ⟨v, hv⟩ := get_opacity_prop_some X s1.win_list w OPAQUE hw1
    obtain ⟨s2, h2, l2, g2⟩ := update_win_grows s1 w (fun e => { e with opacity := v }) hw1
    have hw2 : w < s2.win_list.length := by rw [l2]; exact hw1
    obtain ⟨s3, h3, l3, g3⟩ := determine_mode_grows X s2 w hw2
    have hw3 : w < s3.win_list.length := by rw [l3]; exact hw2
    obtain ⟨s4, h4, -, g4⟩ := update_win_grows s3 w (fun e => { e with damaged := 0 }) hw3
    refine ⟨s4, ?_, damage_grows_trans (damage_grows_trans (damage_grows_trans g1 g2) g3) g4⟩
    simp only [h1, hv, h2, h3, h4, Option.bind_eq_bind, Option.some_bind]

theorem add_win_grows (X : XServer) (s : State) (id prev : Window) :
    ∃ s1, add_win X s id prev = some s1 ∧ damage_grows s s1 := by
  unfold add_win
  cases X.XGetWindowAttributes id with
  | none => exact ⟨s, rfl, damage_grows_refl s⟩
  | some a =>
    dsimp only
    have hg : damage_grows s (if prev ≠ XNone
        then ({ s with win_list := insert_before s.win_list prev (new_win X id a) } : State)
        else { s with win_list := new_win X id a :: s.win_list }) := by
      split <;> exact damage_grows_of_eq rfl
    generalize (if prev ≠ XNone
        then ({ s with win_list := insert_before s.win_list prev (new_win X id a) } : State)
        else { s with win_list := new_win X id a :: s.win_list }) = s1 at hg
    split
    · obtain ⟨s2, h2, g2⟩ := map_win_grows X s1 id
      exact ⟨s2, h2, damage_grows_trans hg g2⟩
    · exact ⟨s1, rfl, hg⟩

theorem finish_unmap_win_grows (s : State) (w : Nat) (hw : w < s.win_list.length) :
    ∃ s1, finish_unmap_win s w = some s1 ∧ damage_grows s s1 := by
  refine ⟨_, finish_unmap_win_eq s w _ (List.getElem?_eq_getElem hw), ?_⟩
  cases hx : (s.win_list[w]).extents with
  | none => exact damage_grows_of_eq (by simp [hx])
  | some r =>
    intro px py hp
    have := damage_grows_add_damage s r px py hp
    unfold damage_mem at this ⊢
    simpa [hx] using this

theorem unmap_win_grows (s : State) (id : Window) :
    ∃ s1, unmap_win s id = some s1 ∧ damage_grows s s1 := by
  unfold unmap_win list_end
  dsimp only
  by_cases hend : find_win s.win_list id = s.win_list.length
  · rw [if_pos hend]
    exact ⟨s, rfl, damage_grows_refl s⟩
  · rw [if_neg hend]
    have hw : find_win s.win_list id < s.win_list.length :=
      lt_of_le_of_ne (find_win_le _ _) hend
    generalize find_win s.win_list id = w at hw
    obtain ⟨s1, h1, l1, g1⟩ := update_win_grows s w
      (fun e => { e with a := { e.a with map_state := IsUnmapped } }) hw
    obtain ⟨s2, h2, g2⟩ := finish_unmap_win_grows s1 w (by rw [l1]; exact hw)
    refine ⟨s2, ?_, damage_grows_trans g1 g2⟩
    simp only [h1, h2, Option.bind_eq_bind, Option.some_bind]

theorem destroy_win_grows (s : State) (id : Window) (gone : Bool)
    (hid : find_win s.win_list id < s.win_list.length) :
    ∃ s1, destroy_win s id gone = some s1 ∧ damage_grows s s1 := by
  obtain ⟨s1, h1, -, hd, -⟩ :=
    finish_destroy_win_eq s _ gone _ (List.getElem?_eq_getElem hid)
  refine ⟨s1, h1, ?_⟩
  cases gone with
  | false => exact damage_grows_of_eq (by rw [hd])
  | true =>
    cases hx : (s.win_list[find_win s.win_list id]).extents with
    | none => exact damage_grows_of_eq (by rw [hd, hx])
    | some r =>
      intro px py hp
      have := damage_grows_add_damage s r px py hp
      unfold damage_mem at this ⊢
      rw [hd, hx]
      exact this

theorem repair_win_grows (X : XServer) (s : State) (w : Nat) (hw : w < s.win_list.length) :
    ∃ s1, repair_win X s w = some s1 ∧ damage_grows s s1 := by
  unfold repair_win
  rw [List.getElem?_eq_getElem hw]
  dsimp only
  obtain ⟨s1, h1, -, g1⟩ := update_win_grows (add_damage s
    (if (s.win_list[w]).damaged = 0 then win_extents s.win_list[w]
      else Region.translate (Region.rects (X.XDamageSubtract (s.win_list[w]).damage))
        ((s.win_list[w]).a.x + (s.win_list[w]).a.border_width)
        ((s.win_list[w]).a.y + (s.win_list[w]).a.border_width))) w
    (fun e => { e with damaged := 1 }) (by rw [add_damage_length]; exact hw)
  exact ⟨s1, h1, damage_grows_trans (damage_grows_add_damage _ _) g1⟩

/-! ## Compositor: proofs -/

theorem paint_picture_frame (X : XServer) (s : State) (w : win) :
    (paint_picture X s w).id = w.id ∧ (paint_picture X s w).a = w.a ∧
    (paint_picture X s w).mode = w.mode ∧ (paint_picture X s w).damaged = w.damaged ∧
    (paint_picture X s w).opacity = w.opacity ∧
    (paint_picture X s w).alphaPict = w.alphaPict ∧
    (paint_picture X s w).damage = w.damage ∧
    (paint_picture X s w).borderSize = w.borderSize ∧
    (paint_picture X s w).extents = w.extents ∧
    (paint_picture X s w).borderClip = w.borderClip := by
  unfold paint_picture
  split <;> simp

theorem paint_drop_frame (s : State) (w : win) :
    (paint_drop s w).1.id = w.id ∧ (paint_drop s w).1.a = w.a ∧
    (paint_drop s w).1.mode = w.mode ∧ (paint_drop s w).1.damaged = w.damaged ∧
    (paint_drop s w).1.opacity = w.opacity ∧
    (paint_drop s w).1.alphaPict = w.alphaPict ∧
    (paint_drop s w).1.damage = w.damage ∧
    (paint_drop s w).1.picture = w.picture ∧
    (s.clipChanged = true → (paint_drop s w).1.borderSize = none ∧
      (paint_drop s w).1.extents = none ∧ (paint_drop s w).1.borderClip = none) ∧
    (s.clipChanged = false → (paint_drop s w).1 = w) := by
  unfold paint_drop
  split <;> simp_all

theorem paint_cache_frame (X : XServer) (w : win) :
    (paint_cache X w).id = w.id ∧ (paint_cache X w).a = w.a ∧
    (paint_cache X w).mode = w.mode ∧ (paint_cache X w).damaged = w.damaged ∧
    (paint_cache X w).opacity = w.opacity ∧
    (paint_cache X w).alphaPict = w.alphaPict ∧
    (paint_cache X w).damage = w.damage ∧
    (paint_cache X w).picture = w.picture ∧
    (paint_cache X w).borderClip = w.borderClip ∧
    (∃ bs, (paint_cache X w).borderSize = some bs) ∧
    (∃ ex, (paint_cache X w).extents = some ex) ∧
    (w.borderSize = none → (paint_cache X w).borderSize = some (border_size X w)) ∧
    (w.extents = none → (paint_cache X w).extents = some (win_extents w)) := by
  unfold paint_cache
  dsimp only
  cases hb : w.borderSize <;> cases hx : w.extents <;>
    simp [hb, hx, border_size, win_extents]

theorem paint_prepare_frame (X : XServer) (s : State) (w : win) :
    (paint_prepare X s w).1.id = w.id ∧ (paint_prepare X s w).1.a = w.a ∧
    (paint_prepare X s w).1.mode = w.mode ∧ (paint_prepare X s w).1.damaged = w.damaged ∧
    (paint_prepare X s w).1.opacity = w.opacity ∧
    (paint_prepare X s w).1.alphaPict = w.alphaPict ∧
    (paint_prepare X s w).1.damage = w.damage ∧
    (∃ bs, (paint_prepare X s w).1.borderSize = some bs) ∧
    (∃ ex, (paint_prepare X s w).1.extents = some ex) ∧
    (s.clipChanged = true → (paint_prepare X s w).1.borderSize = some (border_size X w) ∧
      (paint_prepare X s w).1.extents = some (win_extents w) ∧
      (paint_prepare X s w).1.borderClip = none) ∧
    (s.clipChanged = false → (paint_prepare X s w).1.borderClip = w.borderClip) := by
  obtain ⟨a1, a2, a3, a4, a5, a6, a7, a8, a9, a10⟩ := paint_picture_frame X s w
  obtain ⟨b1, b2, b3, b4, b5, b6, b7, -, b9, b10⟩ := paint_drop_frame s (paint_picture X s w)
  obtain ⟨c1, c2, c3, c4, c5, c6, c7, -, c9, c10, c11, c12, c13⟩ :=
    paint_cache_frame X (paint_drop s (paint_picture X s w)).1
  have hbs : border_size X (paint_drop s (paint_picture X s w)).1 = border_size X w := by
    unfold border_size
    rw [b1, b2, a1, a2]
  have hex : win_extents (paint_drop s (paint_picture X s w)).1 = win_extents w := by
    unfold win_extents
    rw [b2, a2]
  unfold paint_prepare
  dsimp only
  refine ⟨by rw [c1, b1, a1], by rw [c2, b2, a2], by rw [c3, b3, a3], by rw [c4, b4, a4],
    by rw [c5, b5, a5], by rw [c6, b6, a6], by rw [c7, b7, a7], c10, c11, ?_, ?_⟩
  · intro hc
    obtain ⟨d1, d2, d3⟩ := b9 hc
    exact ⟨by rw [c12 d1, hbs], by rw [c13 d2, hex], by rw [c9, d3]⟩
  · intro hc
    rw [c9, b10 hc, a10]

theorem paint_skips_congr (s : State) (w w1 : win) (ha : w1.a = w.a)
    (hd : w1.damaged = w.damaged) : paint_skips s w1 = paint_skips s w := by
  unfold paint_skips
  rw [ha, hd]

theorem paint_win_frame (X : XServer) (s : State) (region : Region) (w : win) :
    (paint_win X s region w).1.id = w.id ∧ (paint_win X s region w).1.a = w.a ∧
    (paint_win X s region w).1.mode = w.mode ∧
    (paint_win X s region w).1.damaged = w.damaged ∧
    (paint_win X s region w).1.opacity = w.opacity ∧
    (paint_win X s region w).1.alphaPict = w.alphaPict ∧
    (paint_win X s region w).1.picture = (paint_prepare X s w).1.picture ∧
    (paint_win X s region w).1.borderSize = (paint_prepare X s w).1.borderSize ∧
    (paint_win X s region w).1.extents = (paint_prepare X s w).1.extents := by
  obtain ⟨h1, h2, h3, h4, h5, h6, -⟩ := paint_prepare_frame X s w
  unfold paint_win
  dsimp only
  cases (paint_prepare X s w).1.borderClip <;> simp [h1, h2, h3, h4, h5, h6]

theorem paint_win_region (X : XServer) (s : State) (region : Region) (w : win) :
    (paint_win X s region w).2.1 =
      if w.mode = WINDOW_SOLID
      then Region.subtract region (region_of (paint_win X s region w).1.borderSize)
      else region := by
  obtain ⟨-, -, h3, -⟩ := paint_prepare_frame X s w
  rw [(paint_win_frame X s region w).2.2.2.2.2.2.2.1]
  unfold paint_win
  dsimp only
  rw [h3]
  by_cases hm : w.mode = WINDOW_SOLID <;> simp [hm]

theorem paint_walk_region (X : XServer) (s : State) (l : List win) (i : Nat)
    (region : Region) (tr : List Nat) (px py : Int) :
    (paint_walk X s l i region tr).region.mem px py =
      (region.mem px py &&
        (paint_walk X s l i region tr).win_list.all (fun w =>
          !(!paint_skips s w && decide (w.mode = WINDOW_SOLID) &&
            (region_of w.borderSize).mem px py))) := by
  induction l generalizing i region tr with
  | nil => simp [paint_walk]
  | cons w rest ih =>
    unfold paint_walk
    by_cases hs : paint_skips s w = true
    · rw [if_pos hs]
      dsimp only
      rw [ih]
      simp [hs]
    · rw [if_neg hs]
      dsimp only
      obtain ⟨f1, f2, f3, f4, -⟩ := paint_win_frame X s region w
      have hs1 : paint_skips s (paint_win X s region w).1 = false := by
        rw [paint_skips_congr s w _ f2 f4]
        simpa using hs
      rw [ih, List.all_cons, hs1, f3, paint_win_region]
      by_cases hm : w.mode = WINDOW_SOLID
      · simp [hm, Region.mem, Bool.and_assoc]
      · simp [hm]

theorem paint_walk_entries (X : XServer) (s : State) (l : List win) (i : Nat)
    (region : Region) (tr : List Nat) :
    List.Forall₂ (fun w w1 => (paint_skips s w = true → w1 = w) ∧
        (paint_skips s w = false → ∃ rg, w1 = (paint_win X s rg w).1))
      l (paint_walk X s l i region tr).win_list := by
  induction l generalizing i region tr with
  | nil => simp [paint_walk]
  | cons w rest ih =>
    unfold paint_walk
    by_cases hs : paint_skips s w = true
    · rw [if_pos hs]
      exact List.Forall₂.cons ⟨fun _ => rfl, fun h => by rw [hs] at h; cases h⟩ (ih _ _ _)
    · rw [if_neg hs]
      exact List.Forall₂.cons ⟨fun h => absurd h hs, fun _ => ⟨region, rfl⟩⟩ (ih _ _ _)

theorem paint_trans_win_update (X : XServer) (t : State) (A : List win)
    (B : List XRequest) (w : win) :
    paint_trans_win X { t with win_list := A, requests := B } w = paint_trans_win X t w :=
  rfl

theorem paint_trans_walk (X : XServer) (s t : State) (l : List win) (i : Nat)
    (region : Region) (tr : List Nat) (P : List win) (reqs : List XRequest)
    (hP : P.length = i) :
    paint_trans X { t with win_list := P ++ (paint_walk X s l i region tr).win_list,
                           requests := reqs }
        (paint_walk X s l i region tr).transparent =
      paint_trans X
        { t with
          win_list := P ++ (paint_walk X s l i region tr).win_list.map
            (fun w => if paint_skips s w then w else (paint_trans_win X t w).1),
          requests := reqs ++
            (((paint_walk X s l i region tr).win_list.filter
              (fun w => !paint_skips s w)).reverse.flatMap
              (fun w => (paint_trans_win X t w).2)) } tr := by
  induction l generalizing i region tr P reqs with
  | nil => simp [paint_walk]
  | cons w rest ih =>
    unfold paint_walk
    by_cases hs : paint_skips s w = true
    · rw [if_pos hs]
      dsimp only
      have := ih (i + 1) region tr (P ++ [w]) reqs (by simp [hP])
      simp only [List.append_assoc, List.singleton_append] at this
      rw [this]
      simp [hs]
    · rw [if_neg hs]
      dsimp only
      obtain ⟨f1, f2, f3, f4, -⟩ := paint_win_frame X s region w
      have hs1 : paint_skips s (paint_win X s region w).1 = false := by
        rw [paint_skips_congr s w _ f2 f4]
        simpa using hs
      have := ih (i + 1) (paint_win X s region w).2.1 (i :: tr)
        (P ++ [(paint_win X s region w).1]) reqs (by simp [hP])
      simp only [List.append_assoc, List.singleton_append] at this
      rw [this]
      conv => lhs; unfold paint_trans
      have hget : (P ++ (paint_win X s region w).1 ::
          List.map (fun w => if paint_skips s w = true then w else (paint_trans_win X t w).1)
            (paint_walk X s rest (i + 1) (paint_win X s region w).2.1 (i :: tr)).win_list)[i]?
          = some (paint_win X s region w).1 := by
        rw [List.getElem?_append_right (by omega)]
        simp [hP]
      dsimp only
      rw [hget]
      dsimp only
      rw [paint_trans_win_update]
      congr 2
      · rw [← hP, List.set_append_right _ _ (Nat.le_refl _)]
        simp [hs1]
      · simp [hs1, List.filter_cons]

theorem paint_begin_frame (X : XServer) (s : State) (region0 : Region) :
    (paint_begin X s region0).win_list = s.win_list ∧
    (paint_begin X s region0).clipChanged = s.clipChanged ∧
    (paint_begin X s region0).hasNamePixmap = s.hasNamePixmap ∧
    (paint_begin X s region0).root_width = s.root_width ∧
    (paint_begin X s region0).root_height = s.root_height ∧
    (paint_begin X s region0).rootPicture = s.rootPicture ∧
    (paint_begin X s region0).allDamage = s.allDamage ∧
    ∃ pre, (paint_begin X s region0).requests = s.requests ++ pre ∧
      pre = (if s.rootBuffer = XNone then [XRequest.XFreePixmap X.XCreatePixmap] else []) ++
        [XRequest.XFixesSetPictureClipRegion s.rootPicture (some region0)] := by
  unfold paint_begin
  dsimp only
  split <;> simp

theorem paint_skips_begin (X : XServer) (s : State) (region0 : Region) (w : win) :
    paint_skips (paint_begin X s region0) w = paint_skips s w := by
  obtain ⟨-, -, -, h4, h5, -⟩ := paint_begin_frame X s region0
  unfold paint_skips
  rw [h4, h5]

theorem paint_prepare_begin (X : XServer) (s : State) (region0 : Region) (w : win) :
    paint_prepare X (paint_begin X s region0) w = paint_prepare X s w := by
  obtain ⟨-, h2, h3, -⟩ := paint_begin_frame X s region0
  unfold paint_prepare paint_drop paint_picture
  rw [h2, h3]

theorem paint_all_eq (X : XServer) (s : State) (region : XserverRegion) :
    (paint_all X s region).win_list =
      (paint_walk X (paint_begin X s (paint_region s region)) s.win_list 0
        (paint_region s region) []).win_list.map
        (fun w => if paint_skips s w then w
          else (paint_trans_win X (paint_begin X s (paint_region s region)) w).1) ∧
    (paint_all X s region).requests =
      (paint_begin X s (paint_region s region)).requests ++
      (paint_walk X (paint_begin X s (paint_region s region)) s.win_list 0
        (paint_region s region) []).requests ++
      [XRequest.XFixesSetPictureClipRegion (paint_all X s region).rootBuffer
        (some (paint_walk X (paint_begin X s (paint_region s region)) s.win_list 0
          (paint_region s region) []).region),
       composite_root (paint_all X s region) (paint_all X s region).rootTile] ++
      (((paint_walk X (paint_begin X s (paint_region s region)) s.win_list 0
        (paint_region s region) []).win_list.filter (fun w => !paint_skips s w)).reverse.flatMap
        (fun w => (paint_trans_win X (paint_begin X s (paint_region s region)) w).2)) ++
      paint_finish (paint_all X s region)
        (paint_walk X (paint_begin X s (paint_region s region)) s.win_list 0
          (paint_region s region) []).region ∧
    (paint_all X s region).rootBuffer = (paint_begin X s (paint_region s region)).rootBuffer ∧
    (paint_all X s region).rootPicture = s.rootPicture ∧
    (paint_all X s region).root_width = s.root_width ∧
    (paint_all X s region).root_height = s.root_height ∧
    (paint_all X s region).allDamage = s.allDamage ∧
    (paint_all X s region).clipChanged = s.clipChanged := by
  obtain ⟨b1, b2, b3, b4, b5, b6, b7, -⟩ := paint_begin_frame X s (paint_region s region)
  have hsk : (fun w => paint_skips (paint_begin X s (paint_region s region)) w)
      = fun w => paint_skips s w := funext (paint_skips_begin X s _)
  have key := paint_trans_walk X (paint_begin X s (paint_region s region))
    { (paint_begin X s (paint_region s region)) with
      rootTile := if (paint_begin X s (paint_region s region)).rootTile = XNone
        then X.root_tile else (paint_begin X s (paint_region s region)).rootTile }
    s.win_list 0 (paint_region s region) [] []
    ((paint_begin X s (paint_region s region)).requests ++
      (paint_walk X (paint_begin X s (paint_region s region)) s.win_list 0
        (paint_region s region) []).requests ++
      [XRequest.XFixesSetPictureClipRegion (paint_begin X s (paint_region s region)).rootBuffer
        (some (paint_walk X (paint_begin X s (paint_region s region)) s.win_list 0
          (paint_region s region) []).region),
       composite_root (paint_begin X s (paint_region s region))
        (if (paint_begin X s (paint_region s region)).rootTile = XNone
          then X.root_tile else (paint_begin X s (paint_region s region)).rootTile)]) rfl
  simp only [List.nil_append] at key
  unfold paint_all
  dsimp only
  rw [b1]
  rw [key]
  unfold paint_trans
  simp only [paint_skips_begin]
  and_intros <;> trivial

theorem paint_trans_win_frame (X : XServer) (t : State) (w : win) :
    (paint_trans_win X t w).1.id = w.id ∧ (paint_trans_win X t w).1.a = w.a ∧
    (paint_trans_win X t w).1.mode = w.mode ∧ (paint_trans_win X t w).1.damaged = w.damaged ∧
    (paint_trans_win X t w).1.borderSize = w.borderSize ∧
    (paint_trans_win X t w).1.extents = w.extents ∧
    (paint_trans_win X t w).1.picture = w.picture ∧
    (paint_trans_win X t w).1.borderClip = none :=
  ⟨rfl, rfl, rfl, rfl, rfl, rfl, rfl, rfl⟩

/-- The window a paint pass leaves for a window of the registry: the window
itself when it is skipped; otherwise a window of the same identifier, geometry,
mode and damage flag, with the border size and extents of the first walk and
no border clip. -/
theorem paint_all_entries (X : XServer) (s : State) (region : XserverRegion) :
    List.Forall₂ (fun w w1 => (paint_skips s w = true → w1 = w) ∧
        (paint_skips s w = false →
          w1.id = w.id ∧ w1.a = w.a ∧ w1.mode = w.mode ∧ w1.damaged = w.damaged ∧
          w1.borderSize = (paint_prepare X s w).1.borderSize ∧
          w1.extents = (paint_prepare X s w).1.extents ∧
          w1.borderClip = none))
      s.win_list (paint_all X s region).win_list := by
  rw [(paint_all_eq X s region).1, List.forall₂_map_right_iff]
  refine List.Forall₂.imp ?_ (paint_walk_entries X _ s.win_list 0 _ [])
  intro w w1 ⟨h1, h2⟩
  rw [paint_skips_begin] at h1 h2
  constructor
  · intro hs
    have := h1 hs
    subst this
    rw [if_pos hs]
  · intro hs
    obtain ⟨rg, hw1⟩ := h2 hs
    obtain ⟨f1, f2, f3, f4, -, -, -, f8, f9⟩ :=
      paint_win_frame X (paint_begin X s (paint_region s region)) rg w
    rw [paint_prepare_begin] at f8 f9
    rw [← hw1] at f1 f2 f3 f4 f8 f9
    have hs1 : paint_skips s w1 = false := by
      rw [paint_skips_congr s w _ f2 f4]; exact hs
    rw [if_neg (by rw [hs1]; simp)]
    obtain ⟨g1, g2, g3, g4, g5, g6, -, g8⟩ :=
      paint_trans_win_frame X (paint_begin X s (paint_region s region)) w1
    exact ⟨by rw [g1, f1], by rw [g2, f2], by rw [g3, f3], by rw [g4, f4], by rw [g5, f8],
      by rw [g6, f9], g8⟩

/-- C17 fails on the code: the window 5 is painted once (extents and border size
cached at its place (0, 0)), then moved to x = 900, off the 800 x 600 screen;
the paint pass that follows is entered with `clipChanged` set, skips the window
and leaves it the extents and the border size of its old place. -/
theorem skipped_window_keeps_caches :
    ((main_loop_turn (sample_server [] none 0)
        [(sample_server [] none 0, XEvent.CreateNotify 5),
         (sample_server [] none 0, XEvent.DamageNotify 5)] sample_state).bind
      (fun s => (drain [(sample_server [] none 0, XEvent.ConfigureNotify
              { window := 5, x := 900, y := 0, width := 10, height := 10 })] s).map
        (fun s1 => (s1.clipChanged, s1.allDamage.isSome)))) = some (true, true) ∧
    ((main_loop_turn (sample_server [] none 0)
        [(sample_server [] none 0, XEvent.CreateNotify 5),
         (sample_server [] none 0, XEvent.DamageNotify 5)] sample_state).bind
      (fun s => (main_loop_turn (sample_server [] none 0)
          [(sample_server [] none 0, XEvent.ConfigureNotify
              { window := 5, x := 900, y := 0, width := 10, height := 10 })] s).map
        (fun s1 => s1.win_list.map (fun e => (e.a.x, e.extents)))))
      = some [(900, some (Region.rects [{ x := 0, y := 0, width := 10, height := 10 }]))] ∧
    ((main_loop_turn (sample_server [] none 0)
        [(sample_server [] none 0, XEvent.CreateNotify 5),
         (sample_server [] none 0, XEvent.DamageNotify 5)] sample_state).bind
      (fun s => (main_loop_turn (sample_server [] none 0)
          [(sample_server [] none 0, XEvent.ConfigureNotify
              { window := 5, x := 900, y := 0, width := 10, height := 10 })] s).map
        (fun s1 => s1.win_list.map
          (fun e => (e.borderSize, decide (e.extents = some (win_extents e)))))))
      = some [(some (Region.translate
          (Region.rects [{ x := 0, y := 0, width := 10, height := 10 }]) 0 0), false)] := by
  decide

/-- C17, amended: after a paint pass entered with `clipChanged` set, every
window the pass paints (damaged and not skipped as invisible) has its border
size and its extents computed anew from its geometry and no border clip; a
window the pass skips is left as it was, cached regions included. -/
theorem paint_all_recomputes_painted (X : XServer) (s : State) (region : XserverRegion)
    (hc : s.clipChanged = true) :
    List.Forall₂ (fun w w1 => (paint_skips s w = true → w1 = w) ∧
        (paint_skips s w = false →
          w1.id = w.id ∧ w1.a = w.a ∧
          w1.borderSize = some (border_size X w) ∧
          w1.extents = some (win_extents w) ∧
          w1.borderClip = none))
      s.win_list (paint_all X s region).win_list := by
  refine List.Forall₂.imp ?_ (paint_all_entries X s region)
  intro w w1 ⟨h1, h2⟩
  refine ⟨h1, fun hs => ?_⟩
  obtain ⟨g1, g2, -, -, g5, g6, g7⟩ := h2 hs
  obtain ⟨-, -, -, -, -, -, -, -, -, p10, -⟩ := paint_prepare_frame X s w
  obtain ⟨q1, q2, -⟩ := p10 hc
  exact ⟨g1, g2, by rw [g5, q1], by rw [g6, q2], g7⟩

/-- Witness of C17 amended: a registry with the window 5 on screen and the
window 6 moved off screen, both with cached regions. -/
theorem paint_all_recomputes_painted_witness :
    List.Forall₂ (fun w w1 =>
        (paint_skips { sample_state with win_list :=
            [sample_held_win 5, sample_win_at 6 900 WINDOW_SOLID OPAQUE] } w = true → w1 = w) ∧
        (paint_skips { sample_state with win_list :=
            [sample_held_win 5, sample_win_at 6 900 WINDOW_SOLID OPAQUE] } w = false →
          w1.id = w.id ∧ w1.a = w.a ∧
          w1.borderSize = some (border_size (sample_server [] none 0) w) ∧
          w1.extents = some (win_extents w) ∧
          w1.borderClip = none))
      [sample_held_win 5, sample_win_at 6 900 WINDOW_SOLID OPAQUE]
      (paint_all (sample_server [] none 0)
        { sample_state with win_list :=
            [sample_held_win 5, sample_win_at 6 900 WINDOW_SOLID OPAQUE] } none).win_list :=
  paint_all_recomputes_painted (sample_server [] none 0)
    { sample_state with win_list :=
        [sample_held_win 5, sample_win_at 6 900 WINDOW_SOLID OPAQUE] } none rfl

theorem all_map_congr {α : Type} (l : List α) (f : α → α) (g : α → Bool)
    (h : ∀ x ∈ l, g (f x) = g x) : (l.map f).all g = l.all g := by
  induction l with
  | nil => rfl
  | cons x t ih =>
    simp only [List.map_cons, List.all_cons]
    rw [h x (List.mem_cons_self _ _), ih (fun y hy => h y (List.mem_cons_of_mem _ hy))]

theorem paint_final_frame (X : XServer) (s t : State) (w : win) :
    paint_skips s (if paint_skips s w then w else (paint_trans_win X t w).1) = paint_skips s w ∧
    (if paint_skips s w then w else (paint_trans_win X t w).1).mode = w.mode ∧
    (if paint_skips s w then w else (paint_trans_win X t w).1).borderSize = w.borderSize ∧
    (if paint_skips s w then w else (paint_trans_win X t w).1).picture = w.picture ∧
    (if paint_skips s w then w else (paint_trans_win X t w).1).a = w.a := by
  split
  · exact ⟨rfl, rfl, rfl, rfl, rfl⟩
  · exact ⟨rfl, rfl, rfl, rfl, rfl⟩

/-- C13: in every paint pass the clip set on the root buffer right before the
background is drawn is the damage region of the pass less the border sizes of
all painted Solid windows: a point is in it iff it is in the damage region and
in the border size of no window of the registry that is damaged, not skipped
and Solid.  So when one such window has a border size that holds the whole
damage region, the background clip has no point. -/
theorem paint_all_background_clip (X : XServer) (s : State) (region : XserverRegion) :
    ∃ R after,
      (paint_all X s region).requests =
        (paint_begin X s (paint_region s region)).requests ++
        (paint_walk X (paint_begin X s (paint_region s region)) s.win_list 0
          (paint_region s region) []).requests ++
        [XRequest.XFixesSetPictureClipRegion (paint_all X s region).rootBuffer (some R),
         composite_root (paint_all X s region) (paint_all X s region).rootTile] ++ after ∧
      (∀ px py, R.mem px py =
        ((paint_region s region).mem px py &&
          (paint_all X s region).win_list.all (fun w =>
            !(!paint_skips s w && decide (w.mode = WINDOW_SOLID) &&
              (region_of w.borderSize).mem px py)))) ∧
      (∀ w ∈ (paint_all X s region).win_list, paint_skips s w = false →
        w.mode = WINDOW_SOLID →
        (∀ px py, (paint_region s region).mem px py = true →
          (region_of w.borderSize).mem px py = true) →
        ∀ px py, R.mem px py = false) := by
  obtain ⟨hl, hr, -⟩ := paint_all_eq X s region
  have hR : ∀ px py,
      (paint_walk X (paint_begin X s (paint_region s region)) s.win_list 0
        (paint_region s region) []).region.mem px py =
      ((paint_region s region).mem px py &&
        (paint_all X s region).win_list.all (fun w =>
          !(!paint_skips s w && decide (w.mode = WINDOW_SOLID) &&
            (region_of w.borderSize).mem px py))) := by
    intro px py
    rw [paint_walk_region, hl, all_map_congr]
    · simp only [paint_skips_begin]
    · intro w _
      obtain ⟨g1, g2, g3, -⟩ :=
        paint_final_frame X s (paint_begin X s (paint_region s region)) w
      rw [g1, g2, g3]
  refine ⟨_, ?after, ?hreq, hR, ?_⟩
  case hreq =>
    rw [hr, List.append_assoc]
    exact rfl
  · intro w hw hs hm hcover px py
    rw [hR]
    cases hd : (paint_region s region).mem px py with
    | false => rfl
    | true =>
      have hb := hcover px py hd
      simp only [Bool.true_and, Bool.eq_false_iff, ne_eq, List.all_eq_true, not_forall]
      exact ⟨w, hw, by simp [hs, hm, hb]⟩

theorem filter_destroy_region (p : XRequest → Bool) (r : XserverRegion)
    (h : ∀ x, p (XRequest.XFixesDestroyRegion x) = false) :
    (destroy_region r).filter p = [] := by
  cases r with
  | none => rfl
  | some x => simp [destroy_region, h]

theorem paint_prepare_requests (X : XServer) (s : State) (w : win) (p : XRequest → Bool)
    (h : ∀ x, p (XRequest.XFixesDestroyRegion x) = false) :
    (paint_prepare X s w).2.filter p = [] := by
  unfold paint_prepare paint_drop
  dsimp only
  split
  · simp [filter_destroy_region p _ h]
  · rfl

theorem composite_win_congr (t : State) (op : Nat) (mask : XID) (w w1 : win)
    (hp : w1.picture = w.picture) (ha : w1.a = w.a) :
    composite_win t op mask w1 = composite_win t op mask w := by
  unfold composite_win
  rw [hp, ha]

theorem paint_win_composites (X : XServer) (s : State) (region : Region) (w : win) :
    (paint_win X s region w).2.2.filter is_composite =
      if w.mode = WINDOW_SOLID
      then [composite_win s PictOpSrc XNone (paint_win X s region w).1] else [] := by
  obtain ⟨-, f2, -, -, -, -, f7, -⟩ := paint_win_frame X s region w
  obtain ⟨-, -, p3, -⟩ := paint_prepare_frame X s w
  rw [composite_win_congr s _ _ (paint_prepare X s w).1 _ f7
    (by rw [f2, (paint_prepare_frame X s w).2.1])]
  unfold paint_win
  dsimp only
  rw [List.filter_append, paint_prepare_requests X s w is_composite (fun _ => rfl), p3]
  by_cases hm : w.mode = WINDOW_SOLID
  · simp [hm, is_composite, composite_win]
  · simp [hm]

theorem paint_walk_composites (X : XServer) (s : State) (l : List win) (i : Nat)
    (region : Region) (tr : List Nat) :
    (paint_walk X s l i region tr).requests.filter is_composite =
      ((paint_walk X s l i region tr).win_list.filter
        (fun w => !paint_skips s w && decide (w.mode = WINDOW_SOLID))).map
        (composite_win s PictOpSrc XNone) := by
  induction l generalizing i region tr with
  | nil => simp [paint_walk]
  | cons w rest ih =>
    unfold paint_walk
    by_cases hs : paint_skips s w = true
    · rw [if_pos hs]
      dsimp only
      rw [ih]
      simp [hs]
    · rw [if_neg hs]
      dsimp only
      obtain ⟨-, f2, f3, f4, -⟩ := paint_win_frame X s region w
      have hs1 : paint_skips s (paint_win X s region w).1 = false := by
        rw [paint_skips_congr s w _ f2 f4]
        simpa using hs
      rw [List.filter_append, ih, paint_win_composites, List.filter_cons, hs1, f3]
      by_cases hm : w.mode = WINDOW_SOLID <;> simp [hm]

theorem paint_trans_win_composites (X : XServer) (t : State) (w : win) :
    (paint_trans_win X t w).2.filter is_composite =
      if w.mode = WINDOW_TRANS ∨ w.mode = WINDOW_ARGB
      then [composite_win t PictOpOver (paint_trans_win X t w).1.alphaPict
        (paint_trans_win X t w).1]
      else [] := by
  unfold paint_trans_win
  dsimp only
  rw [List.filter_append, List.filter_cons,
    filter_destroy_region is_composite _ (fun _ => rfl)]
  by_cases h1 : w.mode = WINDOW_TRANS
  · simp [h1, is_composite, composite_win]
  · by_cases h2 : w.mode = WINDOW_ARGB
    · simp [h1, h2, is_composite, composite_win]
    · simp [h1, h2, is_composite]

theorem filter_flatMap_singleton {α β : Type} (l : List α) (f : α → List β) (p : β → Bool)
    (c : α → Bool) (g : α → β) (h : ∀ x, (f x).filter p = if c x then [g x] else []) :
    (l.flatMap f).filter p = (l.filter c).map g := by
  induction l with
  | nil => rfl
  | cons x t ih =>
    rw [List.flatMap_cons, List.filter_append, ih, h x, List.filter_cons]
    cases c x <;> simp

theorem paint_finish_composites (t : State) (region : Region) :
    (paint_finish t region).filter is_composite =
      if t.rootBuffer ≠ t.rootPicture
      then [XRequest.XRenderComposite PictOpSrc t.rootBuffer XNone t.rootPicture 0 0
        t.root_width t.root_height]
      else [] := by
  unfold paint_finish
  split <;> simp [is_composite]

theorem filter_map_frame {α β : Type} (l : List α) (fin : α → α) (p : α → Bool) (g : α → β)
    (hp : ∀ x, p (fin x) = p x) (hg : ∀ x, p x = true → g (fin x) = g x) :
    ((l.map fin).filter p).map g = (l.filter p).map g := by
  induction l with
  | nil => rfl
  | cons x t ih =>
    simp only [List.map_cons, List.filter_cons, hp]
    cases hx : p x
    · simpa using ih
    · simp only [if_true, List.map_cons, ih, hg x hx]

theorem composite_win_buffer (t t1 : State) (h : t1.rootBuffer = t.rootBuffer) :
    composite_win t1 = composite_win t := by
  funext op mask w
  unfold composite_win
  rw [h]

/-- C14: the drawing requests of one paint pass, in the order they are issued:
the opaque copies of the painted Solid windows in registry order, then the
background, then the blends of the painted Translucent and ARGB windows in the
reverse of the registry order, then the copy of the root buffer to the screen
when the two differ.  Solid windows are not drawn in the second walk. -/
theorem paint_all_draw_order (X : XServer) (s : State) (region : XserverRegion) :
    ((paint_all X s region).requests.drop s.requests.length).filter is_composite =
      ((paint_all X s region).win_list.filter
        (fun w => !paint_skips s w && decide (w.mode = WINDOW_SOLID))).map
        (composite_win (paint_all X s region) PictOpSrc XNone) ++
      [composite_root (paint_all X s region) (paint_all X s region).rootTile] ++
      ((paint_all X s region).win_list.filter
        (fun w => !paint_skips s w &&
          (decide (w.mode = WINDOW_TRANS) || decide (w.mode = WINDOW_ARGB)))).reverse.map
        (fun w => composite_win (paint_all X s region) PictOpOver w.alphaPict w) ++
      (if (paint_all X s region).rootBuffer ≠ (paint_all X s region).rootPicture
        then [XRequest.XRenderComposite PictOpSrc (paint_all X s region).rootBuffer XNone
          (paint_all X s region).rootPicture 0 0 (paint_all X s region).root_width
          (paint_all X s region).root_height]
        else []) := by
  obtain ⟨hl, hr, hb, -⟩ := paint_all_eq X s region
  obtain ⟨-, -, -, -, -, -, -, pre, hpre, hpre2⟩ := paint_begin_frame X s (paint_region s region)
  have hcw := composite_win_buffer (paint_begin X s (paint_region s region))
    (paint_all X s region) hb
  have hprefilter : pre.filter is_composite = [] := by
    rw [hpre2]
    split <;> simp [is_composite]
  rw [hr, hpre]
  simp only [List.append_assoc, List.drop_left, List.filter_append, hprefilter,
    List.nil_append, paint_finish_composites]
  rw [paint_walk_composites]
  rw [filter_flatMap_singleton _ _ is_composite
    (fun w => decide (w.mode = WINDOW_TRANS ∨ w.mode = WINDOW_ARGB))
    (fun w => composite_win (paint_begin X s (paint_region s region)) PictOpOver
      (paint_trans_win X (paint_begin X s (paint_region s region)) w).1.alphaPict
      (paint_trans_win X (paint_begin X s (paint_region s region)) w).1)
    (fun w => by rw [paint_trans_win_composites]; simp)]
  congr 1
  · rw [hl, hcw]
    simp only [paint_skips_begin]
    symm
    apply filter_map_frame
    · intro w
      obtain ⟨g1, g2, -⟩ := paint_final_frame X s (paint_begin X s (paint_region s region)) w
      rw [g1, g2]
    · intro w _
      obtain ⟨-, -, -, g4, g5⟩ :=
        paint_final_frame X s (paint_begin X s (paint_region s region)) w
      exact composite_win_congr _ _ _ _ _ g4 g5
  · congr 1
    congr 1
    rw [hl, hcw, List.filter_map, ← List.map_reverse, List.map_map, List.filter_reverse,
      List.filter_filter]
    have hpred : ((fun w => !paint_skips s w &&
          (decide (w.mode = WINDOW_TRANS) || decide (w.mode = WINDOW_ARGB))) ∘
        fun w => if paint_skips s w = true then w
          else (paint_trans_win X (paint_begin X s (paint_region s region)) w).1) =
        fun a => decide (a.mode = WINDOW_TRANS ∨ a.mode = WINDOW_ARGB) && !paint_skips s a := by
      funext w
      obtain ⟨g1, g2, -⟩ := paint_final_frame X s (paint_begin X s (paint_region s region)) w
      simp only [Function.comp, g1, g2, Bool.decide_or]
      exact Bool.and_comm _ _
    rw [hpred]
    apply List.map_congr_left
    intro w hw
    have hs : paint_skips s w = false := by
      have := (List.mem_filter.mp (List.mem_reverse.mp hw)).2
      simp only [Bool.and_eq_true, Bool.not_eq_true'] at this
      exact this.2
    simp only [Function.comp, hs, Bool.false_eq_true, if_false]

/-- Witness of C14 on a screen of 10 x 10: the registry C (top, ARGB), B
(middle, opacity half, Translucent), A (bottom, Solid, covering the screen), all
damaged: the pass draws the copy of A, the background, the blend of B, the blend
of C, and copies the buffer to the screen. -/
theorem paint_all_draw_order_witness :
    ((paint_all (sample_server [] none 0)
        { sample_state with
          root_width := 10, root_height := 10,
          win_list := [sample_win_at 3 0 WINDOW_ARGB OPAQUE,
                       sample_win_at 2 0 WINDOW_TRANS 0x7fffffff,
                       sample_win_at 1 0 WINDOW_SOLID OPAQUE] } none).requests.drop 0).filter
        is_composite =
      [XRequest.XRenderComposite PictOpSrc 5001 XNone 3050 0 0 10 10,
       XRequest.XRenderComposite PictOpSrc 60 XNone 3050 0 0 10 10,
       XRequest.XRenderComposite PictOpOver 5002 (0x7fffffff + 10000) 3050 0 0 10 10,
       XRequest.XRenderComposite PictOpOver 5003 XNone 3050 0 0 10 10,
       XRequest.XRenderComposite PictOpSrc 3050 XNone 70 0 0 10 10] :=
  (paint_all_draw_order (sample_server [] none 0)
    { sample_state with
      root_width := 10, root_height := 10,
      win_list := [sample_win_at 3 0 WINDOW_ARGB OPAQUE,
                   sample_win_at 2 0 WINDOW_TRANS 0x7fffffff,
                   sample_win_at 1 0 WINDOW_SOLID OPAQUE] } none).trans (by decide)

theorem paint_win_border_clip (X : XServer) (s : State) (region : Region) (w : win)
    (h : s.clipChanged = true ∨ w.borderClip = none) :
    ∃ bs, (paint_win X s region w).1.borderSize = some bs ∧
      (paint_win X s region w).1.borderClip =
        some (Region.intersect (paint_win X s region w).2.1 bs) := by
  obtain ⟨-, -, p3, -, -, -, -, ⟨bs, hbs⟩, -, p10, p11⟩ := paint_prepare_frame X s w
  have hnone : (paint_prepare X s w).1.borderClip = none := by
    cases hc : s.clipChanged with
    | true => exact (p10 hc).2.2
    | false =>
      rw [p11 hc]
      rcases h with h | h
      · rw [hc] at h; cases h
      · exact h
  refine ⟨bs, ?_, ?_⟩
  · rw [(paint_win_frame X s region w).2.2.2.2.2.2.2.1, hbs]
  · unfold paint_win
    dsimp only
    rw [hnone, hbs]
    rfl

theorem paint_walk_border_clip (X : XServer) (s : State) (l : List win) (i : Nat)
    (region : Region) (tr : List Nat) (k : Nat) (w : win) (hk : l[k]? = some w)
    (hs : paint_skips s w = false) (hclip : s.clipChanged = true ∨ w.borderClip = none) :
    ∃ w1 clip bs, (paint_walk X s l i region tr).win_list[k]? = some w1 ∧
      w1.borderClip = some clip ∧ w1.borderSize = some bs ∧
      ∀ px py, clip.mem px py =
        (decide (w.mode ≠ WINDOW_SOLID) && bs.mem px py && region.mem px py &&
          ((paint_walk X s l i region tr).win_list.take k).all (fun u =>
            !(!paint_skips s u && decide (u.mode = WINDOW_SOLID) &&
              (region_of u.borderSize).mem px py))) := by
  induction l generalizing i region tr k with
  | nil => simp at hk
  | cons x rest ih =>
    cases k with
    | zero =>
      simp only [List.getElem?_cons_zero, Option.some.injEq] at hk
      subst hk
      unfold paint_walk
      rw [if_neg (by rw [hs]; simp)]
      dsimp only
      obtain ⟨bs, hbs, hbc⟩ := paint_win_border_clip X s region x hclip
      refine ⟨_, _, bs, List.getElem?_cons_zero, hbc, hbs, ?_⟩
      intro px py
      rw [paint_win_region, hbs]
      by_cases hm : x.mode = WINDOW_SOLID
      · simp [hm, Region.mem, region_of]
      · simp [hm, Region.mem, Bool.and_comm]
    | succ k =>
      simp only [List.getElem?_cons_succ] at hk
      unfold paint_walk
      by_cases hx : paint_skips s x = true
      · rw [if_pos hx]
        dsimp only
        obtain ⟨w1, clip, bs, h1, h2, h3, h4⟩ := ih (i + 1) region tr k hk
        refine ⟨w1, clip, bs, by simpa using h1, h2, h3, ?_⟩
        intro px py
        rw [h4]
        simp [hx]
      · rw [if_neg hx]
        dsimp only
        obtain ⟨w1, clip, bs, h1, h2, h3, h4⟩ :=
          ih (i + 1) (paint_win X s region x).2.1 (i :: tr) k hk
        refine ⟨w1, clip, bs, by simpa using h1, h2, h3, ?_⟩
        intro px py
        obtain ⟨-, f2, f3, f4, -⟩ := paint_win_frame X s region x
        have hx1 : paint_skips s (paint_win X s region x).1 = false := by
          rw [paint_skips_congr s x _ f2 f4]
          simpa using hx
        rw [h4, paint_win_region, List.take_succ_cons, List.all_cons, hx1, f3]
        by_cases hm : x.mode = WINDOW_SOLID
        · simp only [hm, if_true, Region.mem, decide_True, Bool.not_false, Bool.true_and]
          cases decide (w.mode ≠ WINDOW_SOLID) <;> cases bs.mem px py <;>
            cases region.mem px py <;>
            cases (region_of (paint_win X s region x).1.borderSize).mem px py <;> simp
        · simp [hm]

/-- C18 fails on the code: a Solid window (identifier 1, 10 x 10 at the origin)
is painted with the whole screen as damage; the point (5, 5) is in its border
size and in the damage, yet not in the border clip the first walk computes for
it, which is taken from the damage after the border size was subtracted. -/
theorem solid_border_clip_empty :
    (paint_region { sample_state with
        win_list := [sample_win_at 1 0 WINDOW_SOLID OPAQUE] } none).mem 5 5 = true ∧
    (paint_walk (sample_server [] none 0)
        (paint_begin (sample_server [] none 0)
          { sample_state with win_list := [sample_win_at 1 0 WINDOW_SOLID OPAQUE] }
          (paint_region { sample_state with
            win_list := [sample_win_at 1 0 WINDOW_SOLID OPAQUE] } none))
        [sample_win_at 1 0 WINDOW_SOLID OPAQUE] 0
        (paint_region { sample_state with
          win_list := [sample_win_at 1 0 WINDOW_SOLID OPAQUE] } none) []).win_list.map
      (fun w => (w.borderSize.isSome, (region_of w.borderSize).mem 5 5,
        w.borderClip.isSome, (region_of w.borderClip).mem 5 5))
      = [(true, true, true, false)] := by
  decide

/-- C18, amended: for a window of the registry that a pass paints and whose
border clip the first walk computes (`clipChanged` is set, or the window has
none), the border clip holds exactly the points of its border size that are in
the damage region of the pass and in the border size of no painted Solid window
before it in the registry, provided the window itself is not Solid; for a Solid
window the border clip is taken after its own border size was subtracted and
holds no point.  The second walk sets this border clip on the root buffer. -/
theorem paint_all_border_clip (X : XServer) (s : State) (region : XserverRegion) (k : Nat)
    (w : win) (hk : s.win_list[k]? = some w) (hs : paint_skips s w = false)
    (hclip : s.clipChanged = true ∨ w.borderClip = none) :
    ∃ w1 clip bs,
      (paint_walk X (paint_begin X s (paint_region s region)) s.win_list 0
        (paint_region s region) []).win_list[k]? = some w1 ∧
      w1.borderClip = some clip ∧ w1.borderSize = some bs ∧
      (∀ px py, clip.mem px py =
        (decide (w.mode ≠ WINDOW_SOLID) && bs.mem px py &&
          (paint_region s region).mem px py &&
          ((paint_walk X (paint_begin X s (paint_region s region)) s.win_list 0
            (paint_region s region) []).win_list.take k).all (fun u =>
              !(!paint_skips s u && decide (u.mode = WINDOW_SOLID) &&
                (region_of u.borderSize).mem px py)))) ∧
      XRequest.XFixesSetPictureClipRegion (paint_all X s region).rootBuffer (some clip)
        ∈ (paint_all X s region).requests := by
  obtain ⟨-, b2, -⟩ := paint_begin_frame X s (paint_region s region)
  obtain ⟨w1, clip, bs, h1, h2, h3, h4⟩ :=
    paint_walk_border_clip X (paint_begin X s (paint_region s region)) s.win_list 0
      (paint_region s region) [] k w hk (by rw [paint_skips_begin]; exact hs)
      (by rw [b2]; exact hclip)
  simp only [paint_skips_begin] at h4
  refine ⟨w1, clip, bs, h1, h2, h3, h4, ?_⟩
  obtain ⟨-, hr, hb, -⟩ := paint_all_eq X s region
  have hmem : w1 ∈ (paint_walk X (paint_begin X s (paint_region s region)) s.win_list 0
      (paint_region s region) []).win_list := List.getElem?_mem h1
  have hf := paint_walk_entries X (paint_begin X s (paint_region s region)) s.win_list 0
    (paint_region s region) []
  have hs1 : paint_skips s w1 = false := by
    rw [List.forall₂_iff_get] at hf
    obtain ⟨hk1, hk2⟩ := List.getElem?_eq_some_iff.mp hk
    obtain ⟨hk3, hk4⟩ := List.getElem?_eq_some_iff.mp h1
    have := (hf.2 k hk1 hk3).2
    simp only [List.get_eq_getElem, hk2, hk4, paint_skips_begin] at this
    obtain ⟨rg, hrg⟩ := this hs
    obtain ⟨-, f2, -, f4, -⟩ := paint_win_frame X (paint_begin X s (paint_region s region)) rg w
    rw [hrg, paint_skips_congr s w _ f2 f4]
    exact hs
  rw [hr]
  apply List.mem_append_left
  apply List.mem_append_right
  rw [List.mem_flatMap]
  refine ⟨w1, ?_, ?_⟩
  · rw [List.mem_reverse, List.mem_filter]
    exact ⟨hmem, by simp [hs1]⟩
  · unfold paint_trans_win
    dsimp only
    rw [hb, h2]
    simp

/-- Witness of C18 amended: the Solid window 1 above the Translucent window 2,
both 10 x 10 at the origin, painted together: the border clip of window 2 is
its border size less the border size of window 1. -/
theorem paint_all_border_clip_witness :
    ∃ w1 clip bs,
      (paint_walk (sample_server [] none 0)
        (paint_begin (sample_server [] none 0)
          { sample_state with win_list := [sample_win_at 1 0 WINDOW_SOLID OPAQUE,
                                           sample_win_at 2 0 WINDOW_TRANS 0x7fffffff] }
          (paint_region { sample_state with
            win_list := [sample_win_at 1 0 WINDOW_SOLID OPAQUE,
                         sample_win_at 2 0 WINDOW_TRANS 0x7fffffff] } none))
        [sample_win_at 1 0 WINDOW_SOLID OPAQUE, sample_win_at 2 0 WINDOW_TRANS 0x7fffffff] 0
        (paint_region { sample_state with
          win_list := [sample_win_at 1 0 WINDOW_SOLID OPAQUE,
                       sample_win_at 2 0 WINDOW_TRANS 0x7fffffff] } none) []).win_list[1]?
        = some w1 ∧
      w1.borderClip = some clip ∧ w1.borderSize = some bs ∧
      (∀ px py, clip.mem px py =
        (decide ((sample_win_at 2 0 WINDOW_TRANS 0x7fffffff).mode ≠ WINDOW_SOLID) &&
          bs.mem px py &&
          (paint_region { sample_state with
            win_list := [sample_win_at 1 0 WINDOW_SOLID OPAQUE,
                         sample_win_at 2 0 WINDOW_TRANS 0x7fffffff] } none).mem px py &&
          ((paint_walk (sample_server [] none 0)
            (paint_begin (sample_server [] none 0)
              { sample_state with win_list := [sample_win_at 1 0 WINDOW_SOLID OPAQUE,
                                               sample_win_at 2 0 WINDOW_TRANS 0x7fffffff] }
              (paint_region { sample_state with
                win_list := [sample_win_at 1 0 WINDOW_SOLID OPAQUE,
                             sample_win_at 2 0 WINDOW_TRANS 0x7fffffff] } none))
            [sample_win_at 1 0 WINDOW_SOLID OPAQUE, sample_win_at 2 0 WINDOW_TRANS 0x7fffffff]
            0
            (paint_region { sample_state with
              win_list := [sample_win_at 1 0 WINDOW_SOLID OPAQUE,
                           sample_win_at 2 0 WINDOW_TRANS 0x7fffffff] } none)
            []).win_list.take 1).all (fun u =>
              !(!paint_skips { sample_state with
                  win_list := [sample_win_at 1 0 WINDOW_SOLID OPAQUE,
                               sample_win_at 2 0 WINDOW_TRANS 0x7fffffff] } u &&
                decide (u.mode = WINDOW_SOLID) &&
                (region_of u.borderSize).mem px py)))) ∧
      XRequest.XFixesSetPictureClipRegion
          (paint_all (sample_server [] none 0)
            { sample_state with win_list := [sample_win_at 1 0 WINDOW_SOLID OPAQUE,
                                             sample_win_at 2 0 WINDOW_TRANS 0x7fffffff] }
            none).rootBuffer (some clip)
        ∈ (paint_all (sample_server [] none 0)
            { sample_state with win_list := [sample_win_at 1 0 WINDOW_SOLID OPAQUE,
                                             sample_win_at 2 0 WINDOW_TRANS 0x7fffffff] }
            none).requests :=
  paint_all_border_clip (sample_server [] none 0)
    { sample_state with win_list := [sample_win_at 1 0 WINDOW_SOLID OPAQUE,
                                     sample_win_at 2 0 WINDOW_TRANS 0x7fffffff] }
    none 1 (sample_win_at 2 0 WINDOW_TRANS 0x7fffffff) rfl (by decide) (Or.inl rfl)

/-! ## Event loop: proofs -/

theorem no_paint_refl (s : State) : no_paint s s := rfl

theorem no_paint_trans {s s1 s2 : State} (h1 : no_paint s s1) (h2 : no_paint s1 s2) :
    no_paint s s2 := by
  unfold no_paint at *
  rw [h2, h1]

theorem no_paint_of_eq {s s1 : State} (h : s1.requests = s.requests) : no_paint s s1 := by
  unfold no_paint
  rw [h]

theorem no_paint_of_append {s s1 : State} (rel : List XRequest)
    (h : s1.requests = s.requests ++ rel) (hrel : rel.filter is_paint = []) :
    no_paint s s1 := by
  unfold no_paint
  rw [h, List.filter_append, hrel, List.append_nil]

theorem release_xid_no_paint (id : XID) (r : XID → XRequest) (h : is_paint (r id) = false) :
    (release_xid id r).filter is_paint = [] := by
  unfold release_xid
  split
  · simp [h]
  · rfl

theorem add_damage_no_paint (s : State) (r : Region) : no_paint s (add_damage s r) := by
  apply no_paint_of_append _ (add_damage_requests s r)
  cases s.allDamage <;> simp [is_paint]

theorem update_win_no_paint (s s1 : State) (w : Nat) (f : win → win)
    (h : update_win s w f = some s1) : no_paint s s1 := by
  unfold update_win at h
  cases hw : s.win_list[w]? with
  | none => rw [hw] at h; cases h
  | some e =>
    rw [hw] at h
    injection h with h
    subst h
    exact no_paint_refl s

theorem determine_mode_no_paint (X : XServer) (s s1 : State) (w : Nat)
    (h : determine_mode X s w = some s1) : no_paint s s1 := by
  unfold determine_mode at h
  cases hw : s.win_list[w]? with
  | none => rw [hw] at h; cases h
  | some e =>
    rw [hw] at h
    dsimp only at h
    have h0 : ∀ l : List win, no_paint s
        { s with win_list := l,
                 requests := s.requests ++ release_xid e.alphaPict XRequest.XRenderFreePicture } :=
      fun l => no_paint_of_append _ rfl (release_xid_no_paint _ _ rfl)
    split at h
    · injection h with h
      subst h
      exact no_paint_trans (h0 _) (add_damage_no_paint _ _)
    · injection h with h
      subst h
      exact h0 _

theorem map_win_no_paint (X : XServer) (s s1 : State) (id : Window)
    (h : map_win X s id = some s1) : no_paint s s1 := by
  unfold map_win at h
  dsimp only at h
  split at h
  · injection h with h
    subst h
    exact no_paint_refl s
  · simp only [Option.bind_eq_bind, Option.bind_eq_some] at h
    obtain ⟨a1, h1, v, -, a2, h2, a3, h3, h4⟩ := h
    exact no_paint_trans (no_paint_trans (no_paint_trans (update_win_no_paint _ _ _ _ h1)
      (update_win_no_paint _ _ _ _ h2)) (determine_mode_no_paint _ _ _ _ h3))
      (update_win_no_paint _ _ _ _ h4)

theorem add_win_no_paint (X : XServer) (s s1 : State) (id prev : Window)
    (h : add_win X s id prev = some s1) : no_paint s s1 := by
  unfold add_win at h
  cases ha : X.XGetWindowAttributes id with
  | none =>
    rw [ha] at h
    injection h with h
    subst h
    exact no_paint_refl s
  | some a =>
    rw [ha] at h
    dsimp only at h
    have hg : no_paint s (if prev ≠ XNone
        then ({ s with win_list := insert_before s.win_list prev (new_win X id a) } : State)
        else { s with win_list := new_win X id a :: s.win_list }) := by
      split <;> exact no_paint_of_eq rfl
    split at h
    · exact no_paint_trans hg (map_win_no_paint _ _ _ _ h)
    · injection h with h
      subst h
      exact hg

theorem finish_unmap_win_no_paint (s s1 : State) (w : Nat)
    (h : finish_unmap_win s w = some s1) : no_paint s s1 := by
  cases hw : s.win_list[w]? with
  | none =>
    unfold finish_unmap_win at h
    rw [hw] at h
    cases h
  | some e =>
    obtain ⟨s2, e1, h2, -, -, -, -, -, -, -, -, -, hr⟩ := finish_unmap_win_spec s w e hw
    rw [h2] at h
    injection h with h
    subst h
    unfold no_paint
    rw [hr]
    simp only [List.filter_append, release_xid_no_paint _ XRequest.XFreePixmap rfl,
      release_xid_no_paint _ XRequest.XRenderFreePicture rfl,
      filter_destroy_region is_paint _ (fun _ => rfl), List.append_nil]
    cases e.extents <;> cases s.allDamage <;> simp [is_paint]

theorem unmap_win_no_paint (s s1 : State) (id : Window)
    (h : unmap_win s id = some s1) : no_paint s s1 := by
  unfold unmap_win at h
  dsimp only at h
  split at h
  · injection h with h
    subst h
    exact no_paint_refl s
  · simp only [Option.bind_eq_bind, Option.bind_eq_some] at h
    obtain ⟨a1, h1, h2⟩ := h
    exact no_paint_trans (update_win_no_paint _ _ _ _ h1) (finish_unmap_win_no_paint _ _ _ h2)

theorem destroy_win_no_paint (s s1 : State) (id : Window) (gone : Bool)
    (h : destroy_win s id gone = some s1) : no_paint s s1 := by
  unfold destroy_win at h
  cases hw : s.win_list[find_win s.win_list id]? with
  | none =>
    exfalso
    unfold finish_destroy_win at h
    cases gone with
    | true =>
      have : finish_unmap_win s (find_win s.win_list id) = none := by
        unfold finish_unmap_win
        rw [hw]
      simp [this] at h
    | false => simp [hw] at h
  | some e =>
    obtain ⟨s2, h2, -, -, hr⟩ := finish_destroy_win_eq s _ gone e hw
    rw [h2] at h
    injection h with h
    subst h
    apply no_paint_of_append _ hr
    cases gone
    · simp only [Bool.false_eq_true, if_false, List.filter_append,
        release_xid_no_paint _ XRequest.XRenderFreePicture rfl,
        release_xid_no_paint _ XRequest.XDamageDestroy rfl, List.append_nil]
    · simp only [if_true, List.filter_append, release_xid_no_paint _ XRequest.XFreePixmap rfl,
        release_xid_no_paint _ XRequest.XRenderFreePicture rfl,
        release_xid_no_paint _ XRequest.XDamageDestroy rfl,
        filter_destroy_region is_paint _ (fun _ => rfl), List.append_nil]
      cases e.extents <;> cases s.allDamage <;> simp [is_paint]

theorem damage_win_no_paint (X : XServer) (s s1 : State) (drawable : Window)
    (h : damage_win X s drawable = some s1) : no_paint s s1 := by
  unfold damage_win at h
  dsimp only at h
  split at h
  · injection h with h
    subst h
    exact no_paint_refl s
  · unfold repair_win at h
    cases hw : s.win_list[find_win s.win_list drawable]? with
    | none => rw [hw] at h; cases h
    | some e =>
      rw [hw] at h
      dsimp only at h
      exact no_paint_trans (add_damage_no_paint _ _) (update_win_no_paint _ _ _ _ h)

theorem circulate_win_no_paint (s s1 : State) (window : Window) (place : Nat)
    (h : circulate_win s window place = some s1) : no_paint s s1 := by
  unfold circulate_win at h
  dsimp only at h
  split at h
  · injection h with h
    subst h
    exact no_paint_refl s
  · simp only [Option.bind_eq_bind, Option.bind_eq_some] at h
    obtain ⟨l, -, h2⟩ := h
    injection h2 with h2
    subst h2
    exact no_paint_of_eq rfl

theorem expose_notify_no_paint (s : State) (window : Window) (x y width height count : Int) :
    no_paint s (expose_notify s window x y width height count) := by
  unfold expose_notify
  dsimp only
  split
  · split
    · exact no_paint_trans (add_damage_no_paint s _) (no_paint_of_eq rfl)
    · exact no_paint_of_eq rfl
  · exact no_paint_refl s

theorem property_notify_no_paint (X : XServer) (s s1 : State) (window : Window) (atom : Atom)
    (h : property_notify X s window atom = some s1) : no_paint s s1 := by
  unfold property_notify at h
  dsimp only at h
  have hg : no_paint s (if atom ∈ X.backgroundProps ∧ s.rootTile ≠ XNone
      then { s with rootTile := XNone,
                    requests := s.requests ++ [XRequest.XRenderFreePicture s.rootTile] }
      else s) := by
    split
    · exact no_paint_of_append _ rfl rfl
    · exact no_paint_refl s
  generalize (if atom ∈ X.backgroundProps ∧ s.rootTile ≠ XNone then ({ s with rootTile := XNone, requests := s.requests ++ [XRequest.XRenderFreePicture s.rootTile] } : State) else s) = t at h hg
  split at h
  · split at h
    · simp only [Option.bind_eq_bind, Option.bind_eq_some] at h
      obtain ⟨v, -, a2, h2, h3⟩ := h
      exact no_paint_trans hg (no_paint_trans (update_win_no_paint _ _ _ _ h2)
        (determine_mode_no_paint _ _ _ _ h3))
    · injection h with h
      subst h
      exact hg
  · injection h with h
    subst h
    exact hg

theorem configure_win_no_paint (s s1 : State) (ce : XConfigureEvent)
    (h : configure_win s ce = some s1) : no_paint s s1 := by
  unfold configure_win at h
  dsimp only at h
  split at h
  · split at h
    · injection h with h
      subst h
      exact no_paint_of_append _ rfl (release_xid_no_paint _ _ rfl)
    · injection h with h
      subst h
      exact no_paint_refl s
  · simp only [Option.bind_eq_bind, Option.bind_eq_some] at h
    obtain ⟨e, -, l2, -, s4, h4, h5⟩ := h
    injection h5 with h5
    subst h5
    refine no_paint_trans (no_paint_trans (no_paint_trans ?_ (add_damage_no_paint _ _))
      (update_win_no_paint _ _ _ _ h4)) (no_paint_of_eq rfl)
    refine no_paint_of_append _ (List.append_assoc _ _ _) ?_
    rw [List.filter_append]
    split
    · simp [List.filter_cons, is_paint, release_xid_no_paint _ XRequest.XRenderFreePicture rfl]
    · simp [is_paint]

theorem handle_event_no_paint (X : XServer) (s s1 : State) (ev : XEvent)
    (hns : is_shape_notify ev = false) (h : handle_event X s ev = some s1) :
    no_paint s s1 := by
  unfold handle_event at h
  split at h
  · injection h with h
    subst h
    exact no_paint_refl s
  · cases ev with
    | CreateNotify window => exact add_win_no_paint _ _ _ _ _ h
    | ConfigureNotify ce => exact configure_win_no_paint _ _ _ h
    | DestroyNotify window => exact destroy_win_no_paint _ _ _ _ h
    | MapNotify window => exact map_win_no_paint _ _ _ _ h
    | UnmapNotify window => exact unmap_win_no_paint _ _ _ h
    | ReparentNotify window parent =>
      dsimp only at h
      split at h
      · exact add_win_no_paint _ _ _ _ _ h
      · exact destroy_win_no_paint _ _ _ _ h
    | CirculateNotify window place => exact circulate_win_no_paint _ _ _ _ h
    | Expose window x y width height count =>
      injection h with h
      subst h
      exact expose_notify_no_paint _ _ _ _ _ _ _
    | PropertyNotify window atom => exact property_notify_no_paint _ _ _ _ _ h
    | DamageNotify drawable => exact damage_win_no_paint _ _ _ _ h
    | ShapeNotify se => cases hns
    | Other =>
      injection h with h
      subst h
      exact no_paint_refl s

theorem drain_no_paint (burst : List (XServer × XEvent)) :
    ∀ (s s1 : State), burst.all (fun xe => !is_shape_notify xe.2) = true →
      drain burst s = some s1 → no_paint s s1 := by
  induction burst with
  | nil =>
    intro s s1 _ h
    injection h with h
    subst h
    exact no_paint_refl s
  | cons xe rest ih =>
    intro s s1 hns h
    unfold drain at h
    rw [List.foldlM_cons] at h
    simp only [Option.bind_eq_bind, Option.bind_eq_some] at h
    obtain ⟨s2, h2, h3⟩ := h
    rw [List.all_cons, Bool.and_eq_true] at hns
    have hx : is_shape_notify xe.2 = false := by
      have := hns.1
      simpa using this
    exact no_paint_trans (handle_event_no_paint _ _ _ _ hx h2) (ih s2 s1 hns.2 h3)

theorem paint_all_paints (X : XServer) (s : State) (region : XserverRegion) :
    ¬ no_paint s (paint_all X s region) := by
  obtain ⟨-, hr, -⟩ := paint_all_eq X s region
  obtain ⟨-, -, -, -, -, -, -, pre, hpre, hpre2⟩ := paint_begin_frame X s (paint_region s region)
  intro h
  unfold no_paint at h
  rw [hr, hpre] at h
  simp only [List.append_assoc, List.filter_append] at h
  have h1 := List.append_right_eq_self.mp h
  have h2 := (List.append_eq_nil.mp h1).1
  rw [hpre2, List.filter_append] at h2
  have h3 := (List.append_eq_nil.mp h2).2
  simp [is_paint] at h3

/-- C15: when damage is pending and the compositor is drawing itself, the step
after a burst runs one paint pass over the pending damage, after which no damage
is pending and the clip-changed flag is cleared; the same step taken again
changes nothing, whatever the server answers. -/
theorem end_of_burst_consumes (X Y : XServer) (s : State)
    (hd : s.allDamage ≠ none) (ha : s.autoRedirect = false) :
    (end_of_burst X s).requests = (paint_all X s s.allDamage).requests ∧
    ¬ no_paint s (end_of_burst X s) ∧
    (end_of_burst X s).allDamage = none ∧
    (end_of_burst X s).clipChanged = false ∧
    end_of_burst Y (end_of_burst X s) = end_of_burst X s := by
  have he : end_of_burst X s =
      { (paint_all X s s.allDamage) with allDamage := none, clipChanged := false } := by
    unfold end_of_burst
    rw [if_pos ⟨hd, ha⟩]
  refine ⟨by rw [he], ?_, by rw [he], by rw [he], ?_⟩
  · intro h
    apply paint_all_paints X s s.allDamage
    unfold no_paint at *
    rw [he] at h
    exact h
  · have hn : (end_of_burst X s).allDamage = none := by rw [he]
    generalize end_of_burst X s = t at hn
    unfold end_of_burst
    rw [if_neg]
    intro hc
    exact hc.1 hn

/-- Witness of C15: the screen with the rectangle (0,0,4,4) pending. -/
theorem end_of_burst_consumes_witness :
    (end_of_burst (sample_server [] none 0)
      { sample_state with allDamage := some (Region.rects [{ width := 4, height := 4 }]) }).requests =
      (paint_all (sample_server [] none 0)
        { sample_state with allDamage := some (Region.rects [{ width := 4, height := 4 }]) }
        (some (Region.rects [{ width := 4, height := 4 }]))).requests ∧
    ¬ no_paint { sample_state with allDamage := some (Region.rects [{ width := 4, height := 4 }]) }
      (end_of_burst (sample_server [] none 0)
        { sample_state with allDamage := some (Region.rects [{ width := 4, height := 4 }]) }) ∧
    (end_of_burst (sample_server [] none 0)
      { sample_state with allDamage := some (Region.rects [{ width := 4, height := 4 }]) }).allDamage
      = none ∧
    (end_of_burst (sample_server [] none 0)
      { sample_state with allDamage := some (Region.rects [{ width := 4, height := 4 }]) }).clipChanged
      = false ∧
    end_of_burst (sample_server [7] none 0)
      (end_of_burst (sample_server [] none 0)
        { sample_state with allDamage := some (Region.rects [{ width := 4, height := 4 }]) }) =
      end_of_burst (sample_server [] none 0)
        { sample_state with allDamage := some (Region.rects [{ width := 4, height := 4 }]) } :=
  end_of_burst_consumes (sample_server [] none 0) (sample_server [7] none 0)
    { sample_state with allDamage := some (Region.rects [{ width := 4, height := 4 }]) }
    (by decide) rfl

/-- C16, counterexample: on the screen with the one registered window 5, the
burst of a bounding-shape notification for window 5 followed by a damage
notification for it opens two paint passes, and the first is already open when
only the shape notification has been handled. -/
theorem shape_win_paints_in_burst :
    (drain [(sample_server [] none 0,
              XEvent.ShapeNotify { window := 5, kind := ShapeBounding, shaped := true,
                                   width := 4, height := 4 })]
        { sample_state with win_list := [sample_win_at 5 0 WINDOW_SOLID OPAQUE] }).map
        (fun t => (t.requests.filter (starts_pass 70)).length) = some 1 ∧
    (main_loop_turn (sample_server [] none 0)
        [(sample_server [] none 0,
            XEvent.ShapeNotify { window := 5, kind := ShapeBounding, shaped := true,
                                 width := 4, height := 4 }),
         (sample_server [] none 0, XEvent.DamageNotify 5)]
        { sample_state with win_list := [sample_win_at 5 0 WINDOW_SOLID OPAQUE] }).map
        (fun t => (t.requests.filter (starts_pass 70)).length) = some 2 := by
  decide

/-- C16, amended: while a burst with no shape notification is drained no clip
setting and no drawing request is issued, and the turn of the loop ends with the
step after the burst, which either leaves the state as it is or runs one paint
pass over the pending damage; a bounding-shape or clip-shape notification for a
registered window issues the requests of a paint pass inside its handler. -/
theorem burst_paints_once (X : XServer) (burst : List (XServer × XEvent)) (s s1 : State)
    (hns : burst.all (fun xe => !is_shape_notify xe.2) = true)
    (h : drain burst s = some s1) :
    no_paint s s1 ∧
    main_loop_turn X burst s = some (end_of_burst X s1) ∧
    (end_of_burst X s1 = s1 ∨
      end_of_burst X s1 =
        { (paint_all X s1 s1.allDamage) with allDamage := none, clipChanged := false }) ∧
    ∀ (t : State) (se : XShapeEvent) (e : win), t.autoRedirect = false →
      t.win_list[find_win t.win_list se.window]? = some e →
      se.kind = ShapeClip ∨ se.kind = ShapeBounding →
      ∃ t1, handle_event X t (XEvent.ShapeNotify se) = some t1 ∧ ¬ no_paint t t1 := by
  refine ⟨drain_no_paint burst s s1 hns h, ?_, ?_, ?_⟩
  · unfold main_loop_turn
    rw [h]
    rfl
  · unfold end_of_burst
    split
    · exact Or.inr rfl
    · exact Or.inl rfl
  · intro t se e ha he hk
    have hw : find_win t.win_list se.window ≠ list_end t.win_list := by
      intro hc
      unfold list_end at hc
      rw [hc] at he
      simp at he
    unfold handle_event
    rw [ha]
    simp only [Bool.false_eq_true, if_false]
    unfold shape_win
    dsimp only
    rw [if_neg hw, if_pos hk, he]
    refine ⟨_, rfl, ?_⟩
    intro hc
    have hq : no_paint t { t with
        clipChanged := true,
        win_list := t.win_list.set (find_win t.win_list se.window)
          { e with shaped := se.shaped,
                   shape_bounds :=
                     if se.shaped then
                       { x := to_short (e.a.x + se.x), y := to_short (e.a.y + se.y),
                         width := to_ushort se.width, height := to_ushort se.height }
                     else
                       { x := to_short e.a.x, y := to_short e.a.y,
                         width := to_ushort e.a.width, height := to_ushort e.a.height } },
        requests := t.requests ++ [XRequest.XFixesDestroyRegion (Region.rects
          [if se.shaped then
             { x := to_short (e.a.x + se.x), y := to_short (e.a.y + se.y),
               width := to_ushort se.width, height := to_ushort se.height }
           else
             { x := to_short e.a.x, y := to_short e.a.y,
               width := to_ushort e.a.width, height := to_ushort e.a.height }])] } :=
      no_paint_of_append _ rfl rfl
    exact paint_all_paints X _ _ (no_paint_trans (Eq.symm hq) hc)

/-- Witness of C16: the burst `sample_burst` on the empty screen is drained
without a paint request, leaves damage pending, and the turn ends with the one
paint pass of the step after the burst. -/
theorem burst_paints_once_witness :
    sample_burst.all (fun xe => !is_shape_notify xe.2) = true ∧
    drain sample_burst sample_state =
      some ((drain sample_burst sample_state).getD sample_state) ∧
    ((drain sample_burst sample_state).getD sample_state).allDamage ≠ none ∧
    (no_paint sample_state ((drain sample_burst sample_state).getD sample_state) ∧
    main_loop_turn (sample_server [] none 0) sample_burst sample_state =
      some (end_of_burst (sample_server [] none 0)
        ((drain sample_burst sample_state).getD sample_state)) ∧
    (end_of_burst (sample_server [] none 0)
        ((drain sample_burst sample_state).getD sample_state) =
        (drain sample_burst sample_state).getD sample_state ∨
      end_of_burst (sample_server [] none 0)
        ((drain sample_burst sample_state).getD sample_state) =
        { (paint_all (sample_server [] none 0)
            ((drain sample_burst sample_state).getD sample_state)
            ((drain sample_burst sample_state).getD sample_state).allDamage) with
          allDamage := none, clipChanged := false }) ∧
    ∀ (t : State) (se : XShapeEvent) (e : win), t.autoRedirect = false →
      t.win_list[find_win t.win_list se.window]? = some e →
      se.kind = ShapeClip ∨ se.kind = ShapeBounding →
      ∃ t1, handle_event (sample_server [] none 0) t (XEvent.ShapeNotify se) = some t1 ∧
        ¬ no_paint t t1) :=
  ⟨by decide, by decide, by decide,
    burst_paints_once (sample_server [] none 0) sample_burst sample_state
      ((drain sample_burst sample_state).getD sample_state) (by decide) (by decide)⟩

/-! ## Configure notifications: proofs -/

theorem splice_it_spec (l : List win) (position i : Nat) (e : win) (he : l[i]? = some e) :
    (splice l position i)[splice_it l position i]? = some e ∧
    (splice l position i).eraseIdx (splice_it l position i) = l.eraseIdx i := by
  unfold splice splice_it
  split
  · exact ⟨he, rfl⟩
  · rw [he]
    dsimp only
    rw [List.length_take]
    exact insert_take_drop_get _ _ e

theorem restack_win_spec (l : List win) (w new_above : Nat) (e : win) (he : l[w]? = some e) :
    ∃ l2, restack_win l w new_above = some l2 ∧
      l2[restack_it l w new_above]? = some e ∧
      l2.eraseIdx (restack_it l w new_above) = l.eraseIdx w := by
  have hw : w < l.length := (List.getElem?_eq_some_iff.mp he).1
  unfold restack_win restack_it
  rw [if_pos hw]
  dsimp only
  by_cases hc : (if w + 1 ≠ list_end l then w + 1 else 0) ≠ new_above
  · rw [if_pos hc, if_pos hc]
    exact ⟨_, rfl, splice_it_spec l _ w e he⟩
  · rw [if_neg hc, if_neg hc]
    exact ⟨_, rfl, he, rfl⟩

theorem configure_win_spec (s : State) (ce : XConfigureEvent) (e : win)
    (he : s.win_list[find_win s.win_list ce.window]? = some e) :
    ∃ s1 k e1, configure_win s ce = some s1 ∧ s1.win_list[k]? = some e1 ∧
      s1.win_list.eraseIdx k = s.win_list.eraseIdx (find_win s.win_list ce.window) ∧
      e1.id = e.id ∧ e1.a.x = ce.x ∧ e1.a.y = ce.y ∧ e1.a.width = ce.width ∧
      e1.a.height = ce.height ∧ e1.a.border_width = ce.border_width ∧
      s1.clipChanged = true ∧
      s1.allDamage = (add_damage s (Region.union (region_of e.extents)
        (Region.rects [extents_rect ce.x ce.y ce.width ce.height
          ce.border_width]))).allDamage := by
  have hw : find_win s.win_list ce.window < s.win_list.length :=
    (List.getElem?_eq_some_iff.mp he).1
  unfold configure_win list_end
  dsimp only
  rw [if_neg (Nat.ne_of_lt hw)]
  simp only [he, Option.bind_eq_bind, Option.some_bind]
  generalize hw0 : find_win s.win_list ce.window = w at he hw ⊢
  generalize he1 : ({ e with
        shape_bounds := { e.shape_bounds with x := to_short (e.shape_bounds.x - e.a.x),
                                              y := to_short (e.shape_bounds.y - e.a.y) },
        a := { e.a with x := ce.x, y := ce.y, width := ce.width, height := ce.height,
                        border_width := ce.border_width,
                        override_redirect := ce.override_redirect },
        pixmap := if (decide (e.a.width ≠ ce.width ∨ e.a.height ≠ ce.height) &&
          decide (e.pixmap ≠ XNone)) = true then XNone else e.pixmap,
        picture := if (decide (e.a.width ≠ ce.width ∨ e.a.height ≠ ce.height) &&
          decide (e.pixmap ≠ XNone)) = true then XNone else e.picture } : win) = e1
  have hid1 : e1.id = e.id := by rw [← he1]
  have hx1 : e1.a.x = ce.x := by rw [← he1]
  have hy1 : e1.a.y = ce.y := by rw [← he1]
  have hwd1 : e1.a.width = ce.width := by rw [← he1]
  have hht1 : e1.a.height = ce.height := by rw [← he1]
  have hbw1 : e1.a.border_width = ce.border_width := by rw [← he1]
  have hex : win_extents e1
      = Region.rects [extents_rect ce.x ce.y ce.width ce.height ce.border_width] := by
    unfold win_extents extents_rect
    rw [hx1, hy1, hwd1, hht1, hbw1]
  clear he1
  have hget1 : (s.win_list.set w e1)[w]? = some e1 := List.getElem?_set_self hw
  obtain ⟨l2, hr, hg2, her2⟩ :=
    restack_win_spec (s.win_list.set w e1) w (find_win (s.win_list.set w e1) ce.above) e1 hget1
  rw [hr]
  simp only [Option.some_bind]
  generalize restack_it (s.win_list.set w e1) w (find_win (s.win_list.set w e1) ce.above) = w2
    at hg2 her2 ⊢
  generalize hs3 : add_damage _ _ = s3
  have hl3 : s3.win_list = l2 := by rw [← hs3, add_damage_win_list]
  have hd3 : s3.allDamage = (add_damage s (Region.union (region_of e.extents)
      (win_extents e1))).allDamage := by
    rw [← hs3]
    unfold add_damage region_of
    cases s.allDamage <;> rfl
  obtain ⟨s4, h4, hl4, -, hd4, -⟩ := update_win_spec s3 w2 (fun e =>
      { e with shape_bounds :=
          { x := to_short (e.shape_bounds.x + e.a.x),
            y := to_short (e.shape_bounds.y + e.a.y),
            width := if e.shaped then e.shape_bounds.width else to_ushort e.a.width,
            height := if e.shaped then e.shape_bounds.height else to_ushort e.a.height } })
    e1 (by rw [hl3]; exact hg2)
  rw [h4]
  simp only [Option.some_bind]
  have hw2 : w2 < l2.length := (List.getElem?_eq_some_iff.mp hg2).1
  refine ⟨_, w2, ?ef, rfl, ?g, ?er, ?f1, ?f2, ?f3, ?f4, ?f5, ?f6, rfl, ?dm⟩
  case g =>
    dsimp only
    rw [hl4, hl3]
    exact List.getElem?_set_self hw2
  case er =>
    dsimp only
    rw [hl4, hl3, eraseIdx_set_same, her2, eraseIdx_set_same]
  case f1 => exact hid1
  case f2 => exact hx1
  case f3 => exact hy1
  case f4 => exact hwd1
  case f5 => exact hht1
  case f6 => exact hbw1
  case dm =>
    dsimp only
    rw [hd4, hd3, hex]

theorem region_mem_rects_single (r : XRectangle) (px py : Int) :
    (Region.rects [r]).mem px py = r.contains px py := by
  simp [Region.mem]

/-- C20 fails on the code: the window 5, created viewable at (0, 0) with size
10 x 10 and no cached extents, is moved to x = 100 in the same burst; the point
(5, 5) of its extents at the geometry before the notification is not in the
pending damage afterwards. -/
theorem configure_win_misses_old_extents :
    (drain [(sample_server [] none 0, XEvent.CreateNotify 5)]
        { clipChanged := true, root := 1, root_width := 800, root_height := 600 }).map
      (fun s => s.win_list.map
        (fun e => (e.a.x, e.a.y, e.a.width, e.a.height, e.extents.isSome)))
      = some [(0, 0, 10, 10, false)] ∧
    (extents_rect 0 0 10 10 0).contains 5 5 = true ∧
    (drain [(sample_server [] none 0, XEvent.CreateNotify 5),
            (sample_server [] none 0, XEvent.ConfigureNotify
              { window := 5, x := 100, y := 0, width := 10, height := 10 })]
        { clipChanged := true, root := 1, root_width := 800, root_height := 600 }).map
      (fun s => (damage_mem s 5 5, damage_mem s 105 5)) = some (false, true) := by
  decide

/-- C20, amended: for a registered window `configure_win` returns; the entry of
the window (the one entry that may have moved in the registry) has the notified
position, size and border width; `clipChanged` is set; and the pending damage
is what it was, joined with the extents region cached for the window (nothing
when none is cached) and with the extents rectangle of the new geometry. -/
theorem configure_win_damage (s : State) (ce : XConfigureEvent) (e : win)
    (he : s.win_list[find_win s.win_list ce.window]? = some e) :
    ∃ s1 k e1, configure_win s ce = some s1 ∧ s1.win_list[k]? = some e1 ∧
      s1.win_list.eraseIdx k = s.win_list.eraseIdx (find_win s.win_list ce.window) ∧
      e1.id = e.id ∧ e1.a.x = ce.x ∧ e1.a.y = ce.y ∧ e1.a.width = ce.width ∧
      e1.a.height = ce.height ∧ e1.a.border_width = ce.border_width ∧
      s1.clipChanged = true ∧
      ∀ px py, damage_mem s1 px py =
        (damage_mem s px py || (region_of e.extents).mem px py ||
          (extents_rect ce.x ce.y ce.width ce.height ce.border_width).contains px py) := by
  obtain ⟨s1, k, e1, h, hk, her, f1, f2, f3, f4, f5, f6, hc, hd⟩ := configure_win_spec s ce e he
  refine ⟨s1, k, e1, h, hk, her, f1, f2, f3, f4, f5, f6, hc, ?_⟩
  intro px py
  have := damage_mem_add_damage s (Region.union (region_of e.extents)
    (Region.rects [extents_rect ce.x ce.y ce.width ce.height ce.border_width])) px py
  unfold damage_mem at this ⊢
  rw [hd, this]
  simp only [Region.mem, List.any_cons, List.any_nil, Bool.or_false, Bool.or_assoc]

/-- Witness of C20 amended: the window 5 with cached extents at (0, 0) is moved
to x = 100; both the cached extents and the new rectangle are damaged. -/
theorem configure_win_damage_witness :
    (∃ s1 k e1, configure_win { win_list := [sample_held_win 5] }
        { window := 5, x := 100, y := 0, width := 10, height := 10 } = some s1 ∧
      s1.win_list[k]? = some e1 ∧
      s1.win_list.eraseIdx k = [sample_held_win 5].eraseIdx (find_win [sample_held_win 5] 5) ∧
      e1.id = (sample_held_win 5).id ∧ e1.a.x = 100 ∧ e1.a.y = 0 ∧ e1.a.width = 10 ∧
      e1.a.height = 10 ∧ e1.a.border_width = 0 ∧
      s1.clipChanged = true ∧
      ∀ px py, damage_mem s1 px py =
        (damage_mem { win_list := [sample_held_win 5] } px py ||
          (region_of (sample_held_win 5).extents).mem px py ||
          (extents_rect 100 0 10 10 0).contains px py)) ∧
    (configure_win { win_list := [sample_held_win 5] }
        { window := 5, x := 100, y := 0, width := 10, height := 10 }).map
      (fun s => (damage_mem s 5 5, damage_mem s 105 5, damage_mem s 50 5))
      = some (true, true, false) :=
  ⟨configure_win_damage { win_list := [sample_held_win 5] }
      { window := 5, x := 100, y := 0, width := 10, height := 10 } (sample_held_win 5)
      (by decide), by decide⟩

theorem configure_win_grows (s : State) (ce : XConfigureEvent) :
    ∃ s1, configure_win s ce = some s1 ∧ damage_grows s s1 := by
  by_cases hend : find_win s.win_list ce.window = s.win_list.length
  · unfold configure_win list_end
    dsimp only
    rw [if_pos hend]
    split
    · exact ⟨_, rfl, damage_grows_of_eq rfl⟩
    · exact ⟨_, rfl, damage_grows_refl s⟩
  · have hw : find_win s.win_list ce.window < s.win_list.length :=
      lt_of_le_of_ne (find_win_le _ _) hend
    obtain ⟨s1, -, -, h, -, -, -, -, -, -, -, -, -, hd⟩ :=
      configure_win_spec s ce _ (List.getElem?_eq_getElem hw)
    refine ⟨s1, h, ?_⟩
    exact damage_grows_trans (damage_grows_add_damage s _) (damage_grows_of_eq hd)

/-- C19: `add_damage` makes the pending damage the union, as point sets, of the
previous pending damage with its argument, and the argument itself when none
was pending; and each of the handlers `repair_win`, `configure_win`, `unmap_win`,
`determine_mode`, `expose_root`, `map_win`, `add_win` and `destroy_win` (on the
node or the registered window it is called for) returns with a pending damage
that holds every point it held before. -/
theorem damage_only_grows (X : XServer) (s : State) (r : Region) (w : Nat)
    (id id2 prev : Window) (gone : Bool) (ce : XConfigureEvent) (rects : List XRectangle)
    (hw : w < s.win_list.length) (hid : find_win s.win_list id < s.win_list.length) :
    (∀ px py, damage_mem (add_damage s r) px py = (damage_mem s px py || r.mem px py)) ∧
    (s.allDamage = none → (add_damage s r).allDamage = some r) ∧
    (∃ s1, repair_win X s w = some s1 ∧ damage_grows s s1) ∧
    (∃ s1, configure_win s ce = some s1 ∧ damage_grows s s1) ∧
    (∃ s1, unmap_win s id2 = some s1 ∧ damage_grows s s1) ∧
    (∃ s1, determine_mode X s w = some s1 ∧ damage_grows s s1) ∧
    damage_grows s (expose_root s rects) ∧
    (∃ s1, map_win X s id2 = some s1 ∧ damage_grows s s1) ∧
    (∃ s1, add_win X s id2 prev = some s1 ∧ damage_grows s s1) ∧
    (∃ s1, destroy_win s id gone = some s1 ∧ damage_grows s s1) := by
  refine ⟨damage_mem_add_damage s r, ?_, repair_win_grows X s w hw, configure_win_grows s ce,
    unmap_win_grows s id2, ?_, damage_grows_add_damage s _, map_win_grows X s id2,
    add_win_grows X s id2 prev, destroy_win_grows s id gone hid⟩
  · intro h
    simp [add_damage, h]
  · obtain ⟨s1, h, -, g⟩ := determine_mode_grows X s w hw
    exact ⟨s1, h, g⟩

/-- Witness of C19: the registry holding window 5 with all its caches and some
damage pending. -/
theorem damage_only_grows_witness :
    (∀ px py, damage_mem (add_damage
        { win_list := [sample_held_win 5], allDamage := some (Region.rects []) }
        (Region.rects [])) px py =
      (damage_mem { win_list := [sample_held_win 5], allDamage := some (Region.rects []) }
        px py || (Region.rects []).mem px py)) ∧
    ((some (Region.rects []) : XserverRegion) = none →
      (add_damage { win_list := [sample_held_win 5], allDamage := some (Region.rects []) }
        (Region.rects [])).allDamage = some (Region.rects [])) ∧
    (∃ s1, repair_win (sample_server [] none 0)
        { win_list := [sample_held_win 5], allDamage := some (Region.rects []) } 0 = some s1 ∧
      damage_grows { win_list := [sample_held_win 5], allDamage := some (Region.rects []) } s1) ∧
    (∃ s1, configure_win
        { win_list := [sample_held_win 5], allDamage := some (Region.rects []) }
        { window := 5 } = some s1 ∧
      damage_grows { win_list := [sample_held_win 5], allDamage := some (Region.rects []) } s1) ∧
    (∃ s1, unmap_win
        { win_list := [sample_held_win 5], allDamage := some (Region.rects []) } 5 = some s1 ∧
      damage_grows { win_list := [sample_held_win 5], allDamage := some (Region.rects []) } s1) ∧
    (∃ s1, determine_mode (sample_server [] none 0)
        { win_list := [sample_held_win 5], allDamage := some (Region.rects []) } 0 = some s1 ∧
      damage_grows { win_list := [sample_held_win 5], allDamage := some (Region.rects []) } s1) ∧
    damage_grows { win_list := [sample_held_win 5], allDamage := some (Region.rects []) }
      (expose_root { win_list := [sample_held_win 5], allDamage := some (Region.rects []) } []) ∧
    (∃ s1, map_win (sample_server [] none 0)
        { win_list := [sample_held_win 5], allDamage := some (Region.rects []) } 5 = some s1 ∧
      damage_grows { win_list := [sample_held_win 5], allDamage := some (Region.rects []) } s1) ∧
    (∃ s1, add_win (sample_server [] none 0)
        { win_list := [sample_held_win 5], allDamage := some (Region.rects []) } 5 0 = some s1 ∧
      damage_grows { win_list := [sample_held_win 5], allDamage := some (Region.rects []) } s1) ∧
    (∃ s1, destroy_win
        { win_list := [sample_held_win 5], allDamage := some (Region.rects []) } 5 true
        = some s1 ∧
      damage_grows { win_list := [sample_held_win 5], allDamage := some (Region.rects []) } s1) :=
  damage_only_grows (sample_server [] none 0)
    { win_list := [sample_held_win 5], allDamage := some (Region.rects []) }
    (Region.rects []) 0 5 5 0 true { window := 5 } [] (by decide) (by decide)

/-! ## Repair and visibility: proofs -/

theorem to_short_of_range (v : Int) (h1 : -32768 ≤ v) (h2 : v < 32768) : to_short v = v := by
  unfold to_short
  omega

theorem to_ushort_of_range (v : Int) (h1 : 0 ≤ v) (h2 : v < 65536) :
    ((to_ushort v : Nat) : Int) = v := by
  unfold to_ushort
  omega

theorem extents_rect_contains (x y width height border_width px py : Int)
    (hx : -32768 ≤ x ∧ x < 32768) (hy : -32768 ≤ y ∧ y < 32768)
    (hw : 0 ≤ width + border_width * 2 ∧ width + border_width * 2 < 65536)
    (hh : 0 ≤ height + border_width * 2 ∧ height + border_width * 2 < 65536) :
    (extents_rect x y width height border_width).contains px py =
      (decide (x ≤ px) && decide (px < x + (width + border_width * 2)) &&
        decide (y ≤ py) && decide (py < y + (height + border_width * 2))) := by
  unfold extents_rect XRectangle.contains
  dsimp only
  rw [to_short_of_range x hx.1 hx.2, to_short_of_range y hy.1 hy.2,
    to_ushort_of_range _ hw.1 hw.2, to_ushort_of_range _ hh.1 hh.2]

/-- C21: for a registered window `repair_win` returns; the registry is the one
before with the `damaged` flag of the window set and nothing else changed, so no
other window is modified; the pending damage is the one before joined with the
extents rectangle of the window when its flag was clear, and otherwise with the
rectangles `XDamageSubtract` fetched, translated by
`(x + border_width, y + border_width)`.  The extents rectangle is
`(x, y, width + 2 * border_width, height + 2 * border_width)` whenever these
four values fit the 16-bit members of an `XRectangle`. -/
theorem repair_win_damage (X : XServer) (s : State) (w : Nat) (e : win)
    (hw : s.win_list[w]? = some e) :
    ∃ s1, repair_win X s w = some s1 ∧
      s1.win_list = s.win_list.set w { e with damaged := 1 } ∧
      s1.win_list[w]? = some { e with damaged := 1 } ∧
      (∀ k, k ≠ w → s1.win_list[k]? = s.win_list[k]?) ∧
      (e.damaged = 0 → ∀ px py, damage_mem s1 px py =
        (damage_mem s px py ||
          (extents_rect e.a.x e.a.y e.a.width e.a.height e.a.border_width).contains px py)) ∧
      (e.damaged ≠ 0 → ∀ px py, damage_mem s1 px py =
        (damage_mem s px py ||
          (X.XDamageSubtract e.damage).any (fun r =>
            r.contains (px - (e.a.x + e.a.border_width)) (py - (e.a.y + e.a.border_width))))) ∧
      (-32768 ≤ e.a.x ∧ e.a.x < 32768 → -32768 ≤ e.a.y ∧ e.a.y < 32768 →
        0 ≤ e.a.width + e.a.border_width * 2 ∧ e.a.width + e.a.border_width * 2 < 65536 →
        0 ≤ e.a.height + e.a.border_width * 2 ∧ e.a.height + e.a.border_width * 2 < 65536 →
        ∀ px py,
          (extents_rect e.a.x e.a.y e.a.width e.a.height e.a.border_width).contains px py =
            (decide (e.a.x ≤ px) && decide (px < e.a.x + (e.a.width + e.a.border_width * 2)) &&
              decide (e.a.y ≤ py) &&
              decide (py < e.a.y + (e.a.height + e.a.border_width * 2)))) := by
  have hlt : w < s.win_list.length := (List.getElem?_eq_some_iff.mp hw).1
  have hres : ∀ parts : Region,
      update_win (add_damage s parts) w (fun e => { e with damaged := 1 }) =
        some { (add_damage s parts) with
          win_list := s.win_list.set w { e with damaged := 1 } } := by
    intro parts
    unfold update_win
    rw [add_damage_win_list, hw]
  have hrep : repair_win X s w =
      some { (add_damage s (if e.damaged = 0 then win_extents e
          else Region.translate (Region.rects (X.XDamageSubtract e.damage))
            (e.a.x + e.a.border_width) (e.a.y + e.a.border_width))) with
        win_list := s.win_list.set w { e with damaged := 1 } } := by
    unfold repair_win
    rw [hw]
    exact hres _
  refine ⟨_, hrep, rfl, ?_, ?_, ?_, ?_, ?_⟩
  · dsimp only
    rw [List.getElem?_set_self hlt]
  · intro k hk
    dsimp only
    rw [List.getElem?_set_ne (Ne.symm hk)]
  · intro hd px py
    have := damage_mem_add_damage s (win_extents e) px py
    unfold damage_mem at this ⊢
    dsimp only
    rw [if_pos hd, this]
    simp [win_extents, extents_rect, Region.mem]
  · intro hd px py
    have := damage_mem_add_damage s (Region.translate (Region.rects (X.XDamageSubtract e.damage))
      (e.a.x + e.a.border_width) (e.a.y + e.a.border_width)) px py
    unfold damage_mem at this ⊢
    dsimp only
    rw [if_neg hd, this]
    simp [Region.mem]
  · intro hx hy hwd hht px py
    exact extents_rect_contains _ _ _ _ _ px py hx hy hwd hht

/-- Witness of C21: the window 5 of size 10 x 10 at the origin, never damaged
before, alone in the registry of the 800 x 600 screen: its extents rectangle
becomes the pending damage and its flag is set. -/
theorem repair_win_damage_witness :
    (∃ s1, repair_win (sample_server [] none 0)
        { sample_state with win_list := [sample_win 5 OPAQUE] } 0 = some s1 ∧
      s1.win_list = [sample_win 5 OPAQUE].set 0 { (sample_win 5 OPAQUE) with damaged := 1 } ∧
      s1.win_list[0]? = some { (sample_win 5 OPAQUE) with damaged := 1 } ∧
      (∀ k, k ≠ 0 → s1.win_list[k]? = [sample_win 5 OPAQUE][k]?) ∧
      ((sample_win 5 OPAQUE).damaged = 0 → ∀ px py, damage_mem s1 px py =
        (damage_mem { sample_state with win_list := [sample_win 5 OPAQUE] } px py ||
          (extents_rect (sample_win 5 OPAQUE).a.x (sample_win 5 OPAQUE).a.y
            (sample_win 5 OPAQUE).a.width (sample_win 5 OPAQUE).a.height
            (sample_win 5 OPAQUE).a.border_width).contains px py)) ∧
      ((sample_win 5 OPAQUE).damaged ≠ 0 → ∀ px py, damage_mem s1 px py =
        (damage_mem { sample_state with win_list := [sample_win 5 OPAQUE] } px py ||
          ((sample_server [] none 0).XDamageSubtract (sample_win 5 OPAQUE).damage).any (fun r =>
            r.contains
              (px - ((sample_win 5 OPAQUE).a.x + (sample_win 5 OPAQUE).a.border_width))
              (py - ((sample_win 5 OPAQUE).a.y + (sample_win 5 OPAQUE).a.border_width))))) ∧
      (-32768 ≤ (sample_win 5 OPAQUE).a.x ∧ (sample_win 5 OPAQUE).a.x < 32768 →
        -32768 ≤ (sample_win 5 OPAQUE).a.y ∧ (sample_win 5 OPAQUE).a.y < 32768 →
        0 ≤ (sample_win 5 OPAQUE).a.width + (sample_win 5 OPAQUE).a.border_width * 2 ∧
          (sample_win 5 OPAQUE).a.width + (sample_win 5 OPAQUE).a.border_width * 2 < 65536 →
        0 ≤ (sample_win 5 OPAQUE).a.height + (sample_win 5 OPAQUE).a.border_width * 2 ∧
          (sample_win 5 OPAQUE).a.height + (sample_win 5 OPAQUE).a.border_width * 2 < 65536 →
        ∀ px py,
          (extents_rect (sample_win 5 OPAQUE).a.x (sample_win 5 OPAQUE).a.y
            (sample_win 5 OPAQUE).a.width (sample_win 5 OPAQUE).a.height
            (sample_win 5 OPAQUE).a.border_width).contains px py =
            (decide ((sample_win 5 OPAQUE).a.x ≤ px) &&
              decide (px < (sample_win 5 OPAQUE).a.x +
                ((sample_win 5 OPAQUE).a.width + (sample_win 5 OPAQUE).a.border_width * 2)) &&
              decide ((sample_win 5 OPAQUE).a.y ≤ py) &&
              decide (py < (sample_win 5 OPAQUE).a.y +
                ((sample_win 5 OPAQUE).a.height +
                  (sample_win 5 OPAQUE).a.border_width * 2))))) ∧
    (repair_win (sample_server [] none 0)
        { sample_state with win_list := [sample_win 5 OPAQUE] } 0).map
      (fun s => (damage_mem s 9 9, damage_mem s 10 9, s.win_list.map (fun e => e.damaged)))
      = some (true, false, [1]) :=
  ⟨repair_win_damage (sample_server [] none 0)
      { sample_state with win_list := [sample_win 5 OPAQUE] } 0 (sample_win 5 OPAQUE) rfl,
    by decide⟩

theorem paint_skips_iff (s : State) (w : win) (hd : w.damaged ≠ 0)
    (hwd : 1 ≤ w.a.width) (hht : 1 ≤ w.a.height)
    (hrw : 0 < s.root_width) (hrh : 0 < s.root_height) :
    paint_skips s w = true ↔
      ∀ px py : Int, ¬ (w.a.x ≤ px ∧ px < w.a.x + w.a.width ∧
        w.a.y ≤ py ∧ py < w.a.y + w.a.height ∧
        0 ≤ px ∧ px < s.root_width ∧ 0 ≤ py ∧ py < s.root_height) := by
  unfold paint_skips
  simp only [Bool.or_eq_true, decide_eq_true_eq, hd, false_or]
  constructor
  · intro h px py hp
    omega
  · intro h
    by_contra hc
    apply h (max w.a.x 0) (max w.a.y 0)
    omega

theorem paint_skips_of_offscreen (s : State) (w : win)
    (hb : 0 ≤ w.a.border_width) (hwd : 1 ≤ w.a.width) (hht : 1 ≤ w.a.height)
    (hrw : 0 < s.root_width) (hrh : 0 < s.root_height)
    (h : ∀ px py : Int, ¬ (w.a.x ≤ px ∧ px < w.a.x + (w.a.width + w.a.border_width * 2) ∧
        w.a.y ≤ py ∧ py < w.a.y + (w.a.height + w.a.border_width * 2) ∧
        0 ≤ px ∧ px < s.root_width ∧ 0 ≤ py ∧ py < s.root_height)) :
    paint_skips s w = true := by
  unfold paint_skips
  simp only [Bool.or_eq_true, decide_eq_true_eq]
  by_contra hc
  apply h (max w.a.x 0) (max w.a.y 0)
  omega

/-- C22 fails on the code: on the 800 x 600 screen the damaged window at
x = -10, y = 0 of width 9, height 10 and border width 5 is skipped by the paint
pass as invisible, though the point (0, 5) of the screen lies in its extents
rectangle (-10, 0, 19, 20), inside the border even; the pass that follows draws
the background and copies the buffer, and nothing for the window. -/
theorem paint_skips_bordered_window :
    paint_skips sample_state
      { id := 5, damaged := 1,
        a := { x := -10, y := 0, width := 9, height := 10, border_width := 5,
               c_class := InputOutput, map_state := IsViewable } } = true ∧
    (win_extents
      { id := 5, damaged := 1,
        a := { x := -10, y := 0, width := 9, height := 10, border_width := 5,
               c_class := InputOutput, map_state := IsViewable } }).mem 0 5 = true ∧
    (extents_rect (-10) 0 9 10 5 = { x := -10, y := 0, width := 19, height := 20 }) ∧
    (Region.rects [{ x := -10 + 5, y := 0 + 5, width := 9, height := 10 }]).mem 0 5 = true ∧
    (paint_region sample_state none).mem 0 5 = true ∧
    ((paint_all (sample_server [] none 0)
        { sample_state with
          win_list := [{ id := 5, damaged := 1,
                         a := { x := -10, y := 0, width := 9, height := 10, border_width := 5,
                                c_class := InputOutput, map_state := IsViewable } }] }
        none).requests.filter is_composite =
      [XRequest.XRenderComposite PictOpSrc 60 XNone 3050 0 0 800 600,
       XRequest.XRenderComposite PictOpSrc 3050 XNone 70 0 0 800 600]) := by
  decide

/-! ## Mode and opacity invariant: proofs -/

theorem mode_ok_congr {e e1 : win} (hm : e1.mode = e.mode) (ho : e1.opacity = e.opacity)
    (h : mode_ok e) : mode_ok e1 := by
  unfold mode_ok at *
  rw [hm, ho]
  exact h

theorem mode_ok_set (l : List win) (w : Nat) (e1 : win)
    (hl : ∀ k e, l[k]? = some e → k ≠ w → mode_ok e) (h1 : mode_ok e1) :
    ∀ e ∈ l.set w e1, mode_ok e := by
  intro e he
  obtain ⟨k, hk⟩ := List.mem_iff_getElem?.mp he
  by_cases hkw : w = k
  · subst hkw
    have hlt : w < l.length := by
      have := (List.getElem?_eq_some_iff.mp hk).1
      rwa [List.length_set] at this
    rw [List.getElem?_set_self hlt] at hk
    injection hk with hk
    rw [← hk]
    exact h1
  · rw [List.getElem?_set_ne hkw] at hk
    exact hl k e hk (Ne.symm hkw)

theorem mode_ok_of_mem_set {l : List win} {w : Nat} {e1 x : win} (hx : x ∈ l.set w e1)
    (hl : ∀ k e, l[k]? = some e → k ≠ w → mode_ok e) (e : win) (he : mode_ok e)
    (hm : e1.mode = e.mode) (ho : e1.opacity = e.opacity) : mode_ok x :=
  mode_ok_set l w e1 hl (mode_ok_congr hm ho he) x hx

theorem mode_inv_except (s : State) (h : mode_inv s) (w : Nat) :
    ∀ k e, s.win_list[k]? = some e → k ≠ w → mode_ok e :=
  fun _ e hk _ => h e (List.getElem?_mem hk)

theorem update_win_inv (s s1 : State) (w : Nat) (f : win → win)
    (h : mode_inv s) (hu : update_win s w f = some s1)
    (hf : ∀ e, (f e).mode = e.mode ∧ (f e).opacity = e.opacity) : mode_inv s1 := by
  unfold update_win at hu
  cases hw : s.win_list[w]? with
  | none => rw [hw] at hu; cases hu
  | some e =>
    rw [hw] at hu
    injection hu with hu
    subst hu
    intro x hx
    exact mode_ok_of_mem_set hx (mode_inv_except s h w) e (h e (List.getElem?_mem hw))
      (hf e).1 (hf e).2

theorem update_win_except (s s1 : State) (w : Nat) (f : win → win) (h : mode_inv s)
    (hu : update_win s w f = some s1) :
    ∀ k e, s1.win_list[k]? = some e → k ≠ w → mode_ok e := by
  unfold update_win at hu
  cases hw : s.win_list[w]? with
  | none => rw [hw] at hu; cases hu
  | some e =>
    rw [hw] at hu
    injection hu with hu
    subst hu
    intro k x hk hkw
    dsimp only at hk
    rw [List.getElem?_set_ne (Ne.symm hkw)] at hk
    exact h x (List.getElem?_mem hk)

theorem determine_mode_entry (X : XServer) (s s1 : State) (w : Nat) (e : win)
    (hw : s.win_list[w]? = some e) (hd : determine_mode X s w = some s1) :
    ∃ e2, s1.win_list = s.win_list.set w e2 ∧ e2.opacity = e.opacity ∧
      (e2.mode = WINDOW_ARGB ∨ (e.opacity ≠ OPAQUE ∧ e2.mode = WINDOW_TRANS) ∨
        (e.opacity = OPAQUE ∧ e2.mode = WINDOW_SOLID)) := by
  unfold determine_mode at hd
  rw [hw] at hd
  dsimp only at hd
  have hop : (if e.alphaPict ≠ XNone then { e with alphaPict := XNone } else e).opacity
      = e.opacity := by
    split <;> rfl
  generalize (if e.alphaPict ≠ XNone then { e with alphaPict := XNone } else e) = e1 at hd hop
  generalize has_alpha (if e1.a.c_class = InputOnly then none
    else X.XRenderFindVisualFormat e1.a.visual) = b at hd
  have hmode : (if b = true then WINDOW_ARGB
      else if e1.opacity ≠ OPAQUE then WINDOW_TRANS else WINDOW_SOLID) = WINDOW_ARGB ∨
      (e.opacity ≠ OPAQUE ∧ (if b = true then WINDOW_ARGB
        else if e1.opacity ≠ OPAQUE then WINDOW_TRANS else WINDOW_SOLID) = WINDOW_TRANS) ∨
      (e.opacity = OPAQUE ∧ (if b = true then WINDOW_ARGB
        else if e1.opacity ≠ OPAQUE then WINDOW_TRANS else WINDOW_SOLID) = WINDOW_SOLID) := by
    rw [hop]
    cases b with
    | true => exact Or.inl rfl
    | false =>
      by_cases ho : e.opacity = OPAQUE
      · exact Or.inr (Or.inr ⟨ho, by simp [ho]⟩)
      · exact Or.inr (Or.inl ⟨ho, by simp [ho]⟩)
  split at hd
  · injection hd with hd
    subst hd
    exact ⟨{ e1 with mode := if b = true then WINDOW_ARGB
        else if e1.opacity ≠ OPAQUE then WINDOW_TRANS else WINDOW_SOLID },
      by rw [add_damage_win_list], hop, hmode⟩
  · injection hd with hd
    subst hd
    exact ⟨{ e1 with mode := if b = true then WINDOW_ARGB
        else if e1.opacity ≠ OPAQUE then WINDOW_TRANS else WINDOW_SOLID },
      rfl, hop, hmode⟩

theorem determine_mode_inv (X : XServer) (s s1 : State) (w : Nat)
    (h : ∀ k e, s.win_list[k]? = some e → k ≠ w → mode_ok e)
    (hd : determine_mode X s w = some s1) : mode_inv s1 := by
  cases hw : s.win_list[w]? with
  | none =>
    unfold determine_mode at hd
    rw [hw] at hd
    cases hd
  | some e =>
    obtain ⟨e2, hl, ho, hm⟩ := determine_mode_entry X s s1 w e hw hd
    intro x hx
    rw [hl] at hx
    refine mode_ok_set _ _ _ h ?_ x hx
    unfold mode_ok
    rw [ho]
    rcases hm with hm | ⟨hne, hm⟩ | ⟨heq, hm⟩
    · rw [hm]
      exact ⟨fun hc => absurd hc (by decide), fun hc => absurd hc (by decide)⟩
    · rw [hm]
      exact ⟨fun hc => absurd hc (by decide), fun _ => hne⟩
    · rw [hm]
      exact ⟨fun _ => heq, fun hc => absurd hc (by decide)⟩

theorem map_win_inv (X : XServer) (s s1 : State) (id : Window) (h : mode_inv s)
    (hm : map_win X s id = some s1) : mode_inv s1 := by
  unfold map_win at hm
  dsimp only at hm
  split at hm
  · injection hm with hm
    subst hm
    exact h
  · simp only [Option.bind_eq_bind, Option.bind_eq_some] at hm
    obtain ⟨a1, h1, v, -, a2, h2, a3, h3, h4⟩ := hm
    have i1 := update_win_inv _ _ _ _ h h1 (fun _ => ⟨rfl, rfl⟩)
    have i2 := update_win_except _ _ _ _ i1 h2
    have i3 := determine_mode_inv _ _ _ _ i2 h3
    exact update_win_inv _ _ _ _ i3 h4 (fun _ => ⟨rfl, rfl⟩)

theorem mem_insert_before (l : List win) (prev : Window) (p e : win)
    (h : e ∈ insert_before l prev p) : e = p ∨ e ∈ l := by
  induction l with
  | nil => cases h
  | cons x rest ih =>
    unfold insert_before at h
    split at h
    · rcases List.mem_cons.mp h with h | h
      · exact Or.inl h
      · exact Or.inr h
    · rcases List.mem_cons.mp h with h | h
      · exact Or.inr (by rw [h]; exact List.mem_cons_self _ _)
      · rcases ih h with h | h
        · exact Or.inl h
        · exact Or.inr (List.mem_cons_of_mem _ h)

theorem new_win_mode_ok (X : XServer) (id : Window) (a : XWindowAttributes) :
    mode_ok (new_win X id a) :=
  ⟨fun _ => rfl, fun hc => absurd (show WINDOW_SOLID = WINDOW_TRANS from hc) (by decide)⟩

theorem add_win_inv (X : XServer) (s s1 : State) (id prev : Window) (h : mode_inv s)
    (ha : add_win X s id prev = some s1) : mode_inv s1 := by
  unfold add_win at ha
  cases hq : X.XGetWindowAttributes id with
  | none =>
    rw [hq] at ha
    injection ha with ha
    subst ha
    exact h
  | some a =>
    rw [hq] at ha
    dsimp only at ha
    have hg : mode_inv (if prev ≠ XNone
        then ({ s with win_list := insert_before s.win_list prev (new_win X id a) } : State)
        else { s with win_list := new_win X id a :: s.win_list }) := by
      split
      · intro e he
        rcases mem_insert_before _ _ _ _ he with he | he
        · rw [he]
          exact new_win_mode_ok X id a
        · exact h e he
      · intro e he
        rcases List.mem_cons.mp he with he | he
        · rw [he]
          exact new_win_mode_ok X id a
        · exact h e he
    split at ha
    · exact map_win_inv _ _ _ _ hg ha
    · injection ha with ha
      subst ha
      exact hg

theorem finish_unmap_win_inv (s s1 : State) (w : Nat) (h : mode_inv s)
    (hf : finish_unmap_win s w = some s1) : mode_inv s1 := by
  unfold finish_unmap_win at hf
  cases hw : s.win_list[w]? with
  | none => rw [hw] at hf; cases hf
  | some e =>
    rw [hw] at hf
    dsimp only at hf
    injection hf with hf
    subst hf
    have hl : (match e.extents with
        | some extents => add_damage s extents
        | none => s).win_list = s.win_list := by
      cases e.extents with
      | none => rfl
      | some r => exact add_damage_win_list s r
    intro x hx
    dsimp only at hx
    rw [hl] at hx
    exact mode_ok_of_mem_set hx (mode_inv_except s h w) e (h e (List.getElem?_mem hw)) rfl rfl

theorem unmap_win_inv (s s1 : State) (id : Window) (h : mode_inv s)
    (hu : unmap_win s id = some s1) : mode_inv s1 := by
  unfold unmap_win at hu
  dsimp only at hu
  split at hu
  · injection hu with hu
    subst hu
    exact h
  · simp only [Option.bind_eq_bind, Option.bind_eq_some] at hu
    obtain ⟨a1, h1, h2⟩ := hu
    exact finish_unmap_win_inv _ _ _
      (update_win_inv _ _ _ _ h h1 (fun _ => ⟨rfl, rfl⟩)) h2

theorem destroy_win_inv (s s1 : State) (id : Window) (gone : Bool) (h : mode_inv s)
    (hd : destroy_win s id gone = some s1) : mode_inv s1 := by
  unfold destroy_win at hd
  cases hw : s.win_list[find_win s.win_list id]? with
  | none =>
    exfalso
    unfold finish_destroy_win at hd
    cases gone with
    | true =>
      have : finish_unmap_win s (find_win s.win_list id) = none := by
        unfold finish_unmap_win
        rw [hw]
      simp [this] at hd
    | false => simp [hw] at hd
  | some e =>
    obtain ⟨s2, h2, hl, -⟩ := finish_destroy_win_eq s _ gone e hw
    rw [h2] at hd
    injection hd with hd
    subst hd
    intro x hx
    rw [hl] at hx
    exact h x (List.mem_of_mem_eraseIdx hx)

theorem restack_win_mem (l l2 : List win) (w new_above : Nat)
    (h : restack_win l w new_above = some l2) : ∀ e ∈ l2, e ∈ l := by
  by_cases hw : w < l.length
  · obtain ⟨l1, e, h1, -, hp, -⟩ := restack_win_moves_only_w l w new_above hw
    rw [h1] at h
    injection h with h
    subst h
    intro x hx
    exact hp.subset hx
  · unfold restack_win at h
    rw [if_neg hw] at h
    cases h

theorem circulate_win_inv (s s1 : State) (window : Window) (place : Nat) (h : mode_inv s)
    (hc : circulate_win s window place = some s1) : mode_inv s1 := by
  unfold circulate_win at hc
  dsimp only at hc
  split at hc
  · injection hc with hc
    subst hc
    exact h
  · simp only [Option.bind_eq_bind, Option.bind_eq_some] at hc
    obtain ⟨l, hl, h2⟩ := hc
    injection h2 with h2
    subst h2
    intro x hx
    exact h x (restack_win_mem _ _ _ _ hl x hx)

theorem configure_win_inv (s s1 : State) (ce : XConfigureEvent) (h : mode_inv s)
    (hc : configure_win s ce = some s1) : mode_inv s1 := by
  unfold configure_win at hc
  dsimp only at hc
  split at hc
  · split at hc
    · injection hc with hc
      subst hc
      exact h
    · injection hc with hc
      subst hc
      exact h
  · simp only [Option.bind_eq_bind, Option.bind_eq_some] at hc
    obtain ⟨e, he, l2, hl2, s4, h4, h5⟩ := hc
    injection h5 with h5
    subst h5
    have i1 : ∀ x ∈ l2, mode_ok x := by
      intro x hx
      have hx1 := restack_win_mem _ _ _ _ hl2 x hx
      exact mode_ok_of_mem_set hx1 (mode_inv_except s h _) e (h e (List.getElem?_mem he))
        rfl rfl
    have i3 : mode_inv (add_damage
        { s with win_list := l2,
                 requests := s.requests ++
                   (if (decide (e.a.width ≠ ce.width ∨ e.a.height ≠ ce.height) &&
                       decide (e.pixmap ≠ XNone)) = true
                    then XRequest.XFreePixmap e.pixmap ::
                      release_xid e.picture XRequest.XRenderFreePicture
                    else []) ++
                   [XRequest.XFixesDestroyRegion (win_extents
                     { e with
                       shape_bounds := { e.shape_bounds with
                         x := to_short (e.shape_bounds.x - e.a.x),
                         y := to_short (e.shape_bounds.y - e.a.y) },
                       a := { e.a with x := ce.x, y := ce.y, width := ce.width,
                                       height := ce.height,
                                       border_width := ce.border_width,
                                       override_redirect := ce.override_redirect },
                       pixmap := if (decide (e.a.width ≠ ce.width ∨ e.a.height ≠ ce.height) &&
                           decide (e.pixmap ≠ XNone)) = true then XNone else e.pixmap,
                       picture := if (decide (e.a.width ≠ ce.width ∨ e.a.height ≠ ce.height) &&
                           decide (e.pixmap ≠ XNone)) = true then XNone else e.picture })] }
        (Region.union (match e.extents with
            | some extents => extents
            | none => Region.rects [])
          (win_extents
            { e with
              shape_bounds := { e.shape_bounds with
                x := to_short (e.shape_bounds.x - e.a.x),
                y := to_short (e.shape_bounds.y - e.a.y) },
              a := { e.a with x := ce.x, y := ce.y, width := ce.width,
                              height := ce.height,
                              border_width := ce.border_width,
                              override_redirect := ce.override_redirect },
              pixmap := if (decide (e.a.width ≠ ce.width ∨ e.a.height ≠ ce.height) &&
                  decide (e.pixmap ≠ XNone)) = true then XNone else e.pixmap,
              picture := if (decide (e.a.width ≠ ce.width ∨ e.a.height ≠ ce.height) &&
                  decide (e.pixmap ≠ XNone)) = true then XNone else e.picture }))) := by
      intro x hx
      rw [add_damage_win_list] at hx
      exact i1 x hx
    have i4 := update_win_inv _ _ _ _ i3 h4 (fun _ => ⟨rfl, rfl⟩)
    exact i4

theorem damage_win_inv (X : XServer) (s s1 : State) (drawable : Window) (h : mode_inv s)
    (hd : damage_win X s drawable = some s1) : mode_inv s1 := by
  unfold damage_win at hd
  dsimp only at hd
  split at hd
  · injection hd with hd
    subst hd
    exact h
  · unfold repair_win at hd
    cases hw : s.win_list[find_win s.win_list drawable]? with
    | none => rw [hw] at hd; cases hd
    | some e =>
      rw [hw] at hd
      dsimp only at hd
      refine update_win_inv _ _ _ _ ?_ hd (fun _ => ⟨rfl, rfl⟩)
      intro x hx
      rw [add_damage_win_list] at hx
      exact h x hx

theorem property_notify_inv (X : XServer) (s s1 : State) (window : Window) (atom : Atom)
    (h : mode_inv s) (hp : property_notify X s window atom = some s1) : mode_inv s1 := by
  unfold property_notify at hp
  dsimp only at hp
  have hg : mode_inv (if atom ∈ X.backgroundProps ∧ s.rootTile ≠ XNone
      then { s with rootTile := XNone,
                    requests := s.requests ++ [XRequest.XRenderFreePicture s.rootTile] }
      else s) := by
    split
    · exact h
    · exact h
  generalize (if atom ∈ X.backgroundProps ∧ s.rootTile ≠ XNone then ({ s with rootTile := XNone, requests := s.requests ++ [XRequest.XRenderFreePicture s.rootTile] } : State) else s) = t at hp hg
  split at hp
  · split at hp
    · simp only [Option.bind_eq_bind, Option.bind_eq_some] at hp
      obtain ⟨v, -, a2, h2, h3⟩ := hp
      exact determine_mode_inv _ _ _ _ (update_win_except _ _ _ _ hg h2) h3
    · injection hp with hp
      subst hp
      exact hg
  · injection hp with hp
    subst hp
    exact hg

theorem forall2_mode_ok {R : win → win → Prop} {l l1 : List win} (hr : List.Forall₂ R l l1)
    (hR : ∀ w w1, R w w1 → mode_ok w → mode_ok w1) (h : ∀ e ∈ l, mode_ok e) :
    ∀ e ∈ l1, mode_ok e := by
  induction hr with
  | nil => intro e he; cases he
  | cons hab _ ih =>
    intro e he
    rcases List.mem_cons.mp he with he | he
    · rw [he]
      exact hR _ _ hab (h _ (List.mem_cons_self _ _))
    · exact ih (fun x hx => h x (List.mem_cons_of_mem _ hx)) e he

theorem paint_walk_mode_ok (X : XServer) (t : State) (l : List win) (i : Nat)
    (region : Region) (tr : List Nat) (h : ∀ e ∈ l, mode_ok e) :
    ∀ e ∈ (paint_walk X t l i region tr).win_list, mode_ok e := by
  refine forall2_mode_ok (paint_walk_entries X t l i region tr) ?_ h
  intro w w1 ⟨h1, h2⟩ hw
  cases hs : paint_skips t w with
  | true =>
    rw [h1 hs]
    exact hw
  | false =>
    obtain ⟨rg, hrg⟩ := h2 hs
    rw [hrg]
    obtain ⟨-, -, f3, -, f5, -⟩ := paint_win_frame X t rg w
    exact mode_ok_congr f3 f5 hw

theorem paint_all_inv (X : XServer) (s : State) (region : XserverRegion) (h : mode_inv s) :
    mode_inv (paint_all X s region) := by
  obtain ⟨hl, -⟩ := paint_all_eq X s region
  intro e he
  rw [hl] at he
  obtain ⟨w, hw, hwe⟩ := List.mem_map.mp he
  have hok := paint_walk_mode_ok X (paint_begin X s (paint_region s region)) s.win_list 0
    (paint_region s region) [] h w hw
  rw [← hwe]
  split
  · exact hok
  · exact mode_ok_congr (paint_trans_win_frame X _ w).2.2.1 rfl hok

theorem shape_win_inv (X : XServer) (s s1 : State) (se : XShapeEvent) (h : mode_inv s)
    (hs : shape_win X s se = some s1) : mode_inv s1 := by
  unfold shape_win at hs
  dsimp only at hs
  split at hs
  · injection hs with hs
    subst hs
    exact h
  · split at hs
    · simp only [Option.bind_eq_bind, Option.bind_eq_some] at hs
      obtain ⟨e, he, h2⟩ := hs
      injection h2 with h2
      subst h2
      apply paint_all_inv
      intro x hx
      exact mode_ok_of_mem_set hx (mode_inv_except s h _) e (h e (List.getElem?_mem he)) rfl rfl
    · injection hs with hs
      subst hs
      exact h

theorem call_inv (X : XServer) (s s1 : State) (c : Handler) (h : mode_inv s)
    (hc : call X s c = some s1) : mode_inv s1 := by
  cases c with
  | add_win id prev => exact add_win_inv _ _ _ _ _ h hc
  | map_win id => exact map_win_inv _ _ _ _ h hc
  | unmap_win id => exact unmap_win_inv _ _ _ h hc
  | configure_win ce => exact configure_win_inv _ _ _ h hc
  | circulate_win window place => exact circulate_win_inv _ _ _ _ h hc
  | destroy_win id gone => exact destroy_win_inv _ _ _ _ h hc
  | property_notify window atom => exact property_notify_inv _ _ _ _ _ h hc
  | damage_win drawable => exact damage_win_inv _ _ _ _ h hc
  | shape_win se => exact shape_win_inv _ _ _ _ h hc
  | paint_all region =>
    injection hc with hc
    subst hc
    exact paint_all_inv _ _ _ h

theorem run_inv (calls : List (XServer × Handler)) :
    ∀ (s s1 : State), mode_inv s → run calls s = some s1 → mode_inv s1 := by
  induction calls with
  | nil =>
    intro s s1 h hr
    injection hr with hr
    subst hr
    exact h
  | cons c rest ih =>
    intro s s1 h hr
    unfold run at hr
    rw [List.foldlM_cons] at hr
    simp only [Option.bind_eq_bind, Option.bind_eq_some] at hr
    obtain ⟨s2, h2, h3⟩ := hr
    exact ih s2 s1 (call_inv _ _ _ _ h h2) h3

theorem paint_walk_copies_of_solid (X : XServer) (t : State) (l : List win) (i : Nat)
    (region : Region) (tr : List Nat) (h : ∀ e ∈ l, mode_ok e) :
    (paint_walk X t l i region tr).requests.filter is_composite =
      ((paint_walk X t l i region tr).win_list.filter
        (fun w => !paint_skips t w && decide (w.mode = WINDOW_SOLID) &&
          decide (w.opacity = OPAQUE))).map
        (composite_win t PictOpSrc XNone) := by
  rw [paint_walk_composites]
  congr 1
  apply List.filter_congr
  intro w hw
  have hok := paint_walk_mode_ok X t l i region tr h w hw
  by_cases hm : w.mode = WINDOW_SOLID
  · simp [hm, hok.1 hm]
  · simp [hm]

/-- C23: in every state reached from a state with an empty registry through
any sequence of calls of `add_win`, `map_win`, `unmap_win`, `configure_win`,
`circulate_win`, `destroy_win`, the property handler, `damage_win`, `shape_win`
and `paint_all`, against any servers, every Solid entry has the opacity
`OPAQUE` and every Translucent entry has another opacity; so the opaque copies
the first walk of a paint pass on such a state draws are those of painted Solid
windows of opacity `OPAQUE`. -/
theorem mode_opacity_invariant (calls : List (XServer × Handler)) (s0 s : State)
    (h0 : s0.win_list = []) (h : run calls s0 = some s) :
    (∀ e ∈ s.win_list, (e.mode = WINDOW_SOLID → e.opacity = OPAQUE) ∧
      (e.mode = WINDOW_TRANS → e.opacity ≠ OPAQUE)) ∧
    ∀ (X : XServer) (region : XserverRegion),
      (paint_walk X (paint_begin X s (paint_region s region)) s.win_list 0
        (paint_region s region) []).requests.filter is_composite =
      ((paint_walk X (paint_begin X s (paint_region s region)) s.win_list 0
        (paint_region s region) []).win_list.filter
          (fun w => !paint_skips s w && decide (w.mode = WINDOW_SOLID) &&
            decide (w.opacity = OPAQUE))).map
        (composite_win (paint_begin X s (paint_region s region)) PictOpSrc XNone) := by
  have h1 : mode_inv s := by
    refine run_inv calls s0 s ?_ h
    intro e he
    rw [h0] at he
    cases he
  refine ⟨h1, ?_⟩
  intro X region
  rw [paint_walk_copies_of_solid X _ _ _ _ _ h1]
  simp only [paint_skips_begin]

/-- Witness of C23: the calls `sample_calls` on the empty 800 x 600 screen.
After `add_win` the window 5 is Solid with the opacity `OPAQUE`; at the end it
is Translucent with the opacity 255 that `get_opacity_prop` reads. -/
theorem mode_opacity_invariant_witness :
    sample_state.win_list = [] ∧
    run sample_calls sample_state = some ((run sample_calls sample_state).getD sample_state) ∧
    (run (sample_calls.take 1) sample_state).map
      (fun s => s.win_list.map (fun e => (e.mode, e.opacity)))
      = some [(WINDOW_SOLID, OPAQUE)] ∧
    (run sample_calls sample_state).map
      (fun s => s.win_list.map (fun e => (e.mode, e.opacity)))
      = some [(WINDOW_TRANS, 255)] ∧
    ((∀ e ∈ ((run sample_calls sample_state).getD sample_state).win_list,
        (e.mode = WINDOW_SOLID → e.opacity = OPAQUE) ∧
        (e.mode = WINDOW_TRANS → e.opacity ≠ OPAQUE)) ∧
      ∀ (X : XServer) (region : XserverRegion),
        (paint_walk X
          (paint_begin X ((run sample_calls sample_state).getD sample_state)
            (paint_region ((run sample_calls sample_state).getD sample_state) region))
          ((run sample_calls sample_state).getD sample_state).win_list 0
          (paint_region ((run sample_calls sample_state).getD sample_state) region)
          []).requests.filter is_composite =
        ((paint_walk X
          (paint_begin X ((run sample_calls sample_state).getD sample_state)
            (paint_region ((run sample_calls sample_state).getD sample_state) region))
          ((run sample_calls sample_state).getD sample_state).win_list 0
          (paint_region ((run sample_calls sample_state).getD sample_state) region)
          []).win_list.filter
            (fun w => !paint_skips ((run sample_calls sample_state).getD sample_state) w &&
              decide (w.mode = WINDOW_SOLID) && decide (w.opacity = OPAQUE))).map
          (composite_win
            (paint_begin X ((run sample_calls sample_state).getD sample_state)
              (paint_region ((run sample_calls sample_state).getD sample_state) region))
            PictOpSrc XNone)) :=
  ⟨rfl, by decide, by decide, by decide,
    mode_opacity_invariant sample_calls sample_state
      ((run sample_calls sample_state).getD sample_state) rfl (by decide)⟩

end Compander
